import Mathlib

/-!
# Cheque evaluators and fund maintenance

A shallow embedding of `libraries/chain/cheque_evaluator.cpp` and
`libraries/chain/fund_object.cpp`, followed by the properties proved about them.

Conventions of the embedding.

* `share_type` (`fc::safe<int64_t>`) is `Int`, and the checked product evaluated by
  `cheque_create_evaluator::do_evaluate` is `safe_mul`; object ids, `uint32_t` values and
  `time_point_sec` (seconds) are `Nat`.
* A C++ reference or pointer to a database object is the object's id; reading through
  it is a lookup in the current database.
* An evaluator method returns the database after the call next to its result, an
  `Except assert_exception _` whose error is the `FC_ASSERT` that threw (or the
  overflow of a `share_type` product).
* A `double` or `long double` value is the fraction it stands for; every floating-point
  operation of the source is the exact operation followed by the rounding to the nearest
  value of the format, ties to even: 53 significant bits for `double`, 64 for
  `long double` (the x86-64 formats). The exponent range is not modelled: the values of
  the rate arithmetic stay far inside it.
-/

set_option maxRecDepth 100000

namespace graphene.chain

/-! ## Rate tables (`fund_options`) -/

/-- `fund_options::fund_rate`: a tier of the fund-rate table. -/
structure fund_rate where
  amount : Int
  day_percent : Nat
deriving DecidableEq, Repr, Inhabited

/-- `fund_options::payment_rate`: a payment rate, keyed by its period in days. -/
structure payment_rate where
  period : Nat
  percent : Nat
deriving DecidableEq, Repr, Inhabited

/-- The fields of `fund_object` read or written by `fund_object.cpp`. -/
structure fund_object where
  id : Nat
  owner : Nat
  asset_id : Nat
  balance : Int
  owner_balance : Int
  fixed_percent_on_deposits : Nat
  rates_reduction_per_month : Nat
  fund_rates : List fund_rate
  payment_rates : List payment_rate
  prev_maintenance_time_on_creation : Nat
  history_id : Nat
  enabled : Bool
deriving DecidableEq, Repr, Inhabited

/-- One iteration of the loop of `get_max_fund_rate` (source lines 43-57): `max_idx` is
the `int` index kept by the loop, `-1` while no tier qualified. -/
def fund_object.get_max_fund_rate_step (fund_rates : List fund_rate) (fund_balance : Int)
    (max_idx : Int) (i : Nat) : Int :=
  if fund_balance ≥ (fund_rates.getD i default).amount then
    if max_idx = -1 then (i : Int)
    else
      if (fund_rates.getD i default).amount > (fund_rates.getD max_idx.toNat default).amount then
        (i : Int)
      else max_idx
  else max_idx

/-- The value of `max_idx` after the loop has visited the indices `0 .. n-1`. -/
def fund_object.get_max_fund_rate_loop (fund_rates : List fund_rate) (fund_balance : Int)
    (n : Nat) : Int :=
  (List.range n).foldl (fund_object.get_max_fund_rate_step fund_rates fund_balance) (-1)

/-- `fund_object::get_max_fund_rate` (source lines 26-64). The table is assumed to hold
fewer than `2^31` tiers, so that the `uint32_t` counter converts to `int` unchanged. -/
def fund_object.get_max_fund_rate (self : fund_object) (fund_balance : Int) : Option fund_rate :=
  if self.fund_rates.length = 0 then none
  else
    let max_idx := fund_object.get_max_fund_rate_loop self.fund_rates fund_balance
      self.fund_rates.length
    if max_idx > -1 then some (self.fund_rates.getD max_idx.toNat default) else none

/-- `fund_object::get_payment_rate` (source lines 66-79): `std::find_if` on the period. -/
def fund_object.get_payment_rate (self : fund_object) (period : Nat) : Option payment_rate :=
  self.payment_rates.find? (fun item => item.period == period)

/-! ## The object database -/

/-- `asset`: an amount of one asset. -/
structure asset where
  amount : Int
  asset_id : Nat
deriving DecidableEq, Repr, Inhabited

/-- Unary minus of an `asset`, as used in `adjust_balance(op.account_id, -asst)`. -/
instance : Neg asset where
  neg a := { a with amount := -a.amount }

/-- `cheque_status`, the status of a cheque and of each of its payee slots. -/
inductive cheque_status where
  | cheque_new
  | cheque_used
  | cheque_undo
deriving DecidableEq, Repr, Inhabited

/-- Modelled from the spec: `cheque_object::payee_item`, declared in `cheque_object.hpp`.
A slot is a record of `payee` (an account, or null while the slot is empty),
`datetime_used` and `status`. -/
structure payee_item where
  payee : Option Nat
  datetime_used : Nat
  status : cheque_status
deriving DecidableEq, Repr, Inhabited

/-- The fields of `cheque_object` used by the evaluators. -/
structure cheque_object where
  id : Nat
  drawer : Nat
  asset_id : Nat
  datetime_creation : Nat
  datetime_expiration : Nat
  datetime_used : Nat
  code : String
  status : cheque_status
  amount_payee : Int
  amount_remaining : Int
  payees : List payee_item
deriving DecidableEq, Repr, Inhabited

/-- Modelled from the spec: `cheque_object::allocate_payees`, defined outside the two
source files: `payees[]` is initialized to `payee_count` empty slots, each with
status new. -/
def cheque_object.allocate_payees (o : cheque_object) (payee_count : Nat) : cheque_object :=
  let slot : payee_item :=
    { payee := none, datetime_used := 0, status := cheque_status.cheque_new }
  { o with payees := List.replicate payee_count slot }

/-- Modelled from the spec: `cheque_object::get_cheque_status`, defined outside the two
source files; the precondition it serves is `cheque.status == new`. -/
def cheque_object.get_cheque_status (o : cheque_object) : cheque_status := o.status

/-- Modelled from the spec: `cheque_object::get_drawer`, defined outside the two source
files; the account that funded the cheque. -/
def cheque_object.get_drawer (o : cheque_object) : Nat := o.drawer

/-- The fields of `account_object` read by the two source files. -/
structure account_object where
  id : Nat
  deposits_autorenewal_enabled : Bool
deriving DecidableEq, Repr, Inhabited

/-- The fields of `asset_object` read by the two source files. -/
structure asset_object where
  id : Nat
  issuer : Nat
deriving DecidableEq, Repr, Inhabited

/-- `asset_object::amount`: an amount of this asset. -/
def asset_object.amount (asst : asset_object) (a : Int) : asset :=
  { amount := a, asset_id := asst.id }

/-- The fields of `fund_deposit_object` read or written by `fund_object.cpp`. -/
structure fund_deposit_object where
  id : Nat
  fund_id : Nat
  account_id : Nat
  amount : Int
  percent : Nat
  period : Nat
  datetime_end : Nat
  enabled : Bool
deriving DecidableEq, Repr, Inhabited

/-- `fund_history_object::history_item`. -/
structure history_item where
  create_datetime : Nat
  daily_profit : Int
  daily_payments_without_owner : Int
deriving DecidableEq, Repr, Inhabited

/-- The fields of `fund_history_object` written by `fund_object.cpp`. -/
structure fund_history_object where
  id : Nat
  items : List history_item
deriving DecidableEq, Repr, Inhabited

/-- The part of the chain database the two source files read and write. `balances` is
the balance of every (account, asset) pair; the lists are the object indexes in index
order. `next_maintenance_time` and `last_budget_time` are fields of the dynamic global
properties, `maintenance_interval` of the global parameters, `history_size` is
`get_history_size()`. -/
structure database where
  head_block_time : Nat
  accounts : List account_object
  assets : List asset_object
  balances : Nat → Nat → Int
  cheques : List cheque_object
  next_cheque_id : Nat
  next_maintenance_time : Nat := 0
  last_budget_time : Nat := 0
  maintenance_interval : Nat := 0
  history_size : Nat := 0
  funds : List fund_object := []
  fund_deposits : List fund_deposit_object := []
  fund_histories : List fund_history_object := []

/-- `find_object` / `by_id` lookup in the account index. -/
def database.find_account (d : database) (id : Nat) : Option account_object :=
  d.accounts.find? (fun a => a.id == id)

/-- `find_object` / `by_id` lookup in the asset index. -/
def database.find_asset (d : database) (id : Nat) : Option asset_object :=
  d.assets.find? (fun a => a.id == id)

/-- Lookup in the `by_id` index of the cheques. -/
def database.find_cheque (d : database) (id : Nat) : Option cheque_object :=
  d.cheques.find? (fun c => c.id == id)

/-- Lookup in the `by_code` index of the cheques. -/
def database.find_cheque_by_code (d : database) (code : String) : Option cheque_object :=
  d.cheques.find? (fun c => c.code == code)

/-- Modelled from the spec: `database::get_balance`, defined outside the two source
files: `get_balance(account, asset) → amount`. -/
def database.get_balance (d : database) (account : Nat) (asset_id : Nat) : Int :=
  d.balances account asset_id

/-- Modelled from the spec: `database::adjust_balance`, defined outside the two source
files: `adjust_balance(account, ±asset)` adds the signed amount to the balance the
account holds in that asset. -/
def database.adjust_balance (d : database) (account : Nat) (delta : asset) : database :=
  { d with balances := fun a s =>
      if a = account ∧ s = delta.asset_id then d.balances a s + delta.amount
      else d.balances a s }

/-- Modelled from the spec: `database::create<cheque_object>`, defined outside the two
source files: the new object gets the index's next id (ids are monotonic per type), is
initialized by `init` and inserted; the object is returned. -/
def database.create_cheque (d : database) (init : cheque_object → cheque_object) :
    database × cheque_object :=
  let o := init { (default : cheque_object) with id := d.next_cheque_id }
  ({ d with cheques := d.cheques ++ [o], next_cheque_id := d.next_cheque_id + 1 }, o)

/-- Modelled from the spec: `database::modify` on a cheque, defined outside the two
source files: in-place mutation of the object with the given id. -/
def database.modify_cheque (d : database) (id : Nat) (f : cheque_object → cheque_object) :
    database :=
  { d with cheques := d.cheques.map (fun c => if c.id = id then f c else c) }

/-! ## Cheque operations and evaluators (`cheque_evaluator.cpp`) -/

/-- The fields of `cheque_create_operation` read by the evaluator. -/
structure cheque_create_operation where
  account_id : Nat
  payee_amount : asset
  payee_count : Nat
  code : String
  expiration_datetime : Nat
deriving DecidableEq, Repr, Inhabited

/-- The fields of `cheque_use_operation` read by the evaluator. -/
structure cheque_use_operation where
  account_id : Nat
  code : String
  amount : asset
deriving DecidableEq, Repr, Inhabited

/-- The fields of `cheque_reverse_operation` read by the evaluator. -/
structure cheque_reverse_operation where
  cheque_id : Nat
deriving DecidableEq, Repr, Inhabited

/-- The `FC_ASSERT` of the evaluators that failed (an `fc::assert_exception`), one
constructor for each assertion of `cheque_evaluator.cpp`, and `share_type_overflow` for
the exception thrown by a `share_type` product that does not fit 64 bits. -/
inductive assert_exception where
  | share_type_overflow
  | account_does_not_exist
  | asset_does_not_exist
  | cheque_code_already_exists
  | invalid_expiration_datetime
  | insufficient_balance
  | new_cheque_id_mismatch
  | no_cheque_with_code
  | cheque_already_used
  | cheque_amount_invalid
  | cheque_asset_id_invalid
  | cheque_already_used_for_account
  | no_cheque_with_id
  | incorrect_status_for_reversing
  | cheque_obj_ptr_is_null
deriving DecidableEq, Repr, Inhabited

/-- The product of two `share_type` amounts. The multiplication of `fc::safe<int64_t>`
(the `fc` library, outside the two source files) is checked: it throws an
`fc::overflow_exception` or `fc::underflow_exception` when the product does not fit the
64 signed bits, and is the product otherwise. -/
def safe_mul (a b : Int) : Option Int :=
  if -9223372036854775808 ≤ a * b ∧ a * b ≤ 9223372036854775807 then some (a * b) else none

/-- `cheque_create_evaluator::do_evaluate` (source lines 13-39). The product
`op.payee_amount.amount * op.payee_count` of line 32 is a checked `share_type` product:
its exception leaves the evaluator through `FC_CAPTURE_AND_RETHROW`. -/
def cheque_create_evaluator.do_evaluate (d : database) (op : cheque_create_operation) :
    database × Except assert_exception Unit :=
  if (d.find_account op.account_id).isNone then
    (d, .error .account_does_not_exist)
  else if (d.find_asset op.payee_amount.asset_id).isNone then
    (d, .error .asset_does_not_exist)
  else if (d.find_cheque_by_code op.code).isSome then
    (d, .error .cheque_code_already_exists)
  else if ¬ (op.expiration_datetime > d.head_block_time) then
    (d, .error .invalid_expiration_datetime)
  else
    match safe_mul op.payee_amount.amount (op.payee_count : Int) with
    | none => (d, .error .share_type_overflow)
    | some product =>
      let insufficient_balance : Bool :=
        d.get_balance op.account_id op.payee_amount.asset_id ≥ product
      if ¬ insufficient_balance then (d, .error .insufficient_balance)
      else (d, .ok ())

/-- `cheque_create_evaluator::do_apply` (source lines 41-69); returns the id of the new
cheque. -/
def cheque_create_evaluator.do_apply (d : database) (op : cheque_create_operation) :
    database × Except assert_exception Nat :=
  let asst : asset :=
    { amount := op.payee_amount.amount * (op.payee_count : Int),
      asset_id := op.payee_amount.asset_id }
  let d1 := d.adjust_balance op.account_id (-asst)
  let next_cheque_id := d1.next_cheque_id
  let created := d1.create_cheque (fun o =>
    let o := { o with drawer := op.account_id }
    let o := { o with asset_id := op.payee_amount.asset_id }
    let o := { o with datetime_creation := d1.head_block_time }
    let o := { o with datetime_expiration := op.expiration_datetime }
    let o := { o with code := op.code }
    let o := { o with status := cheque_status.cheque_new }
    let o := { o with amount_payee := op.payee_amount.amount }
    let o := { o with amount_remaining := o.amount_payee * (op.payee_count : Int) }
    o.allocate_payees op.payee_count)
  if created.2.id = next_cheque_id then (created.1, .ok next_cheque_id)
  else (created.1, .error .new_cheque_id_mismatch)

/-- `cheque_use_evaluator::do_evaluate` (source lines 73-98). On success the result is
the value left in the evaluator field `cheque_obj_ptr`: the cheque found by code. -/
def cheque_use_evaluator.do_evaluate (d : database) (op : cheque_use_operation) :
    database × Except assert_exception Nat :=
  if (d.find_account op.account_id).isNone then
    (d, .error .account_does_not_exist)
  else
    match d.find_cheque_by_code op.code with
    | none => (d, .error .no_cheque_with_code)
    | some cheque =>
      if ¬ (cheque.get_cheque_status = cheque_status.cheque_new) then
        (d, .error .cheque_already_used)
      else if ¬ (op.amount.amount = cheque.amount_payee) then
        (d, .error .cheque_amount_invalid)
      else if ¬ (op.amount.asset_id = cheque.asset_id) then
        (d, .error .cheque_asset_id_invalid)
      else if ¬ cheque.payees.all (fun item => item.payee != some op.account_id) then
        (d, .error .cheque_already_used_for_account)
      else (d, .ok cheque.id)

/-- Steps 1 and 2 of the slot consumption: the first slot with status new gets the payee,
the time of use and status used. -/
def fill_first_new_slot (account_id head_block_time : Nat) :
    List payee_item → List payee_item
  | [] => []
  | item :: rest =>
    if item.status = cheque_status.cheque_new then
      { item with payee := some account_id, datetime_used := head_block_time,
                  status := cheque_status.cheque_used } :: rest
    else item :: fill_first_new_slot account_id head_block_time rest

/-- Modelled from the spec: `cheque_object::process_payee`, defined outside the two
source files. Locate the first slot with status new; set its payee, `datetime_used` and
status used; credit `amount_payee` to the redeemer and debit `amount_remaining` by
`amount_payee`; if all slots are now used, set the cheque status used and
`datetime_used = head_block_time`, otherwise keep new. A cheque without a slot of status
new is left as it is. The result is the cheque and the database after the call. -/
def cheque_object.process_payee (o : cheque_object) (account_id : Nat) (d : database) :
    cheque_object × database :=
  if o.payees.any (fun item => item.status = cheque_status.cheque_new) then
    let payees := fill_first_new_slot account_id d.head_block_time o.payees
    let d1 := d.adjust_balance account_id { amount := o.amount_payee, asset_id := o.asset_id }
    let o1 := { o with payees := payees, amount_remaining := o.amount_remaining - o.amount_payee }
    if payees.all (fun item => item.status = cheque_status.cheque_used) then
      ({ o1 with status := cheque_status.cheque_used, datetime_used := d.head_block_time }, d1)
    else (o1, d1)
  else (o, d)

/-- `cheque_use_evaluator::do_apply` (source lines 100-115); `cheque_obj_ptr` is the
evaluator field set by `do_evaluate`. The mutator given to `modify` runs `process_payee`
with the database in hand. -/
def cheque_use_evaluator.do_apply (d : database) (cheque_obj_ptr : Option Nat)
    (op : cheque_use_operation) : database × Except assert_exception Nat :=
  match cheque_obj_ptr.bind d.find_cheque with
  | none => (d, .error .cheque_obj_ptr_is_null)
  | some cheque =>
    let processed := cheque.process_payee op.account_id d
    (processed.2.modify_cheque cheque.id (fun _ => processed.1), .ok cheque.id)

/-- `cheque_reverse_evaluator::do_evaluate` (source lines 119-134). On success the
result is the value left in the evaluator field `cheque_obj_ptr`. -/
def cheque_reverse_evaluator.do_evaluate (d : database) (op : cheque_reverse_operation) :
    database × Except assert_exception Nat :=
  match d.find_cheque op.cheque_id with
  | none => (d, .error .no_cheque_with_id)
  | some cheque =>
    if ¬ (cheque.status = cheque_status.cheque_new) then
      (d, .error .incorrect_status_for_reversing)
    else (d, .ok cheque.id)

/-- The body of the loop over the payees of `cheque_reverse_evaluator::do_apply` (source
lines 148-157), on one payee slot. -/
def reversed_item (drawer head_block_time : Nat) (item : payee_item) : payee_item :=
  if item.status = cheque_status.cheque_new then
    { item with payee := some drawer, datetime_used := head_block_time,
                status := cheque_status.cheque_used }
  else item

/-- `cheque_reverse_evaluator::do_apply` (source lines 136-174); `cheque_obj_ptr` is the
evaluator field set by `do_evaluate`. The operation itself is not read by the body. A
pointer to no object of the index does not arise after `do_evaluate`; it is reported
like the null pointer. -/
def cheque_reverse_evaluator.do_apply (d : database) (cheque_obj_ptr : Option Nat)
    (_op : cheque_reverse_operation) : database × Except assert_exception Unit :=
  match cheque_obj_ptr.bind d.find_cheque with
  | none => (d, .error .cheque_obj_ptr_is_null)
  | some obj =>
    -- collect unused amounts from payees array
    let payees := obj.payees.map (reversed_item obj.drawer d.head_block_time)
    -- return amount to the owner balance
    let d1 :=
      if obj.amount_remaining > 0 then
        d.adjust_balance obj.get_drawer { amount := obj.amount_remaining, asset_id := obj.asset_id }
      else d
    let d2 := d1.modify_cheque obj.id (fun o =>
      { o with datetime_used := d1.head_block_time, status := cheque_status.cheque_undo,
               payees := payees, amount_remaining := 0 })
    (d2, .ok ())

/-! ## Fund maintenance (`fund_object.cpp`) -/

/-- Lookup in the `by_id` index of the funds. -/
def database.find_fund (d : database) (id : Nat) : Option fund_object :=
  d.funds.find? (fun f => f.id == id)

/-- Lookup in the `by_id` index of the fund deposits. -/
def database.find_deposit (d : database) (id : Nat) : Option fund_deposit_object :=
  d.fund_deposits.find? (fun x => x.id == id)

/-- Lookup in the `by_id` index of the fund histories. -/
def database.find_fund_history (d : database) (id : Nat) : Option fund_history_object :=
  d.fund_histories.find? (fun x => x.id == id)

/-- Reading through a reference to a fund object (`*this`). A reference to an object
that is no longer in the index reads as the default object; this does not arise while
sub-operations leave the fund objects in place. -/
def database.get_fund (d : database) (id : Nat) : fund_object :=
  (d.find_fund id).getD default

/-- Reading through a reference to a deposit object (`dep`), as for `get_fund`. -/
def database.get_deposit (d : database) (id : Nat) : fund_deposit_object :=
  (d.find_deposit id).getD default

/-- Modelled from the spec: `database::modify` on a fund, defined outside the two source
files: in-place mutation of the object with the given id. -/
def database.modify_fund (d : database) (id : Nat) (f : fund_object → fund_object) :
    database :=
  { d with funds := d.funds.map (fun x => if x.id = id then f x else x) }

/-- Modelled from the spec: `database::modify` on a fund deposit. -/
def database.modify_deposit (d : database) (id : Nat)
    (f : fund_deposit_object → fund_deposit_object) : database :=
  { d with fund_deposits := d.fund_deposits.map (fun x => if x.id = id then f x else x) }

/-- Modelled from the spec: `database::modify` on a fund history. -/
def database.modify_fund_history (d : database) (id : Nat)
    (f : fund_history_object → fund_history_object) : database :=
  { d with fund_histories := d.fund_histories.map (fun x => if x.id = id then f x else x) }

/-- Modelled from the spec: `database::remove` on a fund deposit: `remove(obj)`. -/
def database.remove_deposit (d : database) (id : Nat) : database :=
  { d with fund_deposits := d.fund_deposits.filter (fun x => x.id != id) }

/-- `time_point_sec - uint32_t`: the seconds are a `uint32_t`, the difference wraps. -/
def time_point_sec_sub (t offset : Nat) : Nat :=
  (t % 4294967296 + 4294967296 - offset % 4294967296) % 4294967296

/-- `time_point_sec + uint32_t`: the seconds are a `uint32_t`, the sum wraps. -/
def time_point_sec_add (t offset : Nat) : Nat :=
  (t + offset) % 4294967296

/-- The value `num / den` of a `double` or `long double` intermediate of the rate
arithmetic, or the exact result of an operation before it is rounded to the format. -/
structure fraction where
  num : Int
  den : Int
deriving DecidableEq, Repr, Inhabited

/-- Difference of two fractions. -/
def fraction.sub (x y : fraction) : fraction :=
  { num := x.num * y.den - y.num * x.den, den := x.den * y.den }

/-- Product of two fractions. -/
def fraction.mul (x y : fraction) : fraction :=
  { num := x.num * y.num, den := x.den * y.den }

/-- Quotient of a fraction by an integer. -/
def fraction.div_int (x : fraction) (n : Int) : fraction :=
  { num := x.num, den := x.den * n }

/-- An integer as a fraction (the conversions `(double)` and `(long double)`). -/
def fraction.of_int (n : Int) : fraction :=
  { num := n, den := 1 }

/-- The test `x < 0`, for a fraction of positive denominator. -/
def fraction.is_negative (x : fraction) : Bool :=
  decide (x.num < 0)

/-- The number of halvings that bring `n` below 2, at most `fuel` of them: the position
of the leading bit of `n` when `fuel` is at least `n`. -/
def log2_fuel : Nat → Nat → Nat
  | 0, _ => 0
  | fuel + 1, n => if n < 2 then 0 else log2_fuel fuel (n / 2) + 1

/-- The integer nearest to `n / d`, ties to the even integer. -/
def round_half_even (n d : Nat) : Nat :=
  let q := n / d
  let r := n % d
  if 2 * r < d then q
  else if d < 2 * r then q + 1
  else if q % 2 = 0 then q else q + 1

/-- The numerator of `(n / d) / 2 ^ s`. -/
def scale_num (n : Nat) (s : Int) : Nat := if s < 0 then n * 2 ^ (-s).toNat else n

/-- The denominator of `(n / d) / 2 ^ s`. -/
def scale_den (d : Nat) (s : Int) : Nat := if s < 0 then d else d * 2 ^ s.toNat

/-- The number `m * 2 ^ s`. -/
def dyadic (m : Nat) (s : Int) : fraction :=
  if s < 0 then ⟨m, 2 ^ (-s).toNat⟩ else ⟨m * 2 ^ s.toNat, 1⟩

/-- The exponent of the leading bit of the positive number `n / d`: the `l` with
`2 ^ l <= n / d < 2 ^ (l + 1)`. -/
def leading_exponent (n d : Nat) : Int :=
  let e0 : Int := (log2_fuel n n : Int) - (log2_fuel d d : Int)
  if scale_den d e0 ≤ scale_num n e0 then e0 else e0 - 1

/-- Rounding of the positive number `n / d` to `prec` significant bits, to nearest and
ties to even: with `l` the exponent of the leading bit of `n / d`, the result is
`m * 2 ^ s` where `s = l - (prec - 1)` and `m` is the integer nearest to
`(n / d) / 2 ^ s`. -/
def round_pos (prec : Nat) (n d : Nat) : fraction :=
  let s : Int := leading_exponent n d - ((prec : Int) - 1)
  dyadic (round_half_even (scale_num n s) (scale_den d s)) s

/-- Rounding to a binary floating-point format of `prec` significant bits (round to
nearest, ties to even, the default rounding mode). The result has a positive
denominator. The quotient by zero (an infinity or a NaN in the source) is taken as `0`. -/
def fraction.round_to (prec : Nat) (x : fraction) : fraction :=
  if x.den = 0 ∨ x.num = 0 then ⟨0, 1⟩
  else
    let r := round_pos prec x.num.natAbs x.den.natAbs
    if (0 < x.num) = (0 < x.den) then r else ⟨-r.num, r.den⟩

/-- The result of a `double` operation: the exact result rounded to 53 significant
bits. -/
def fraction.to_double (x : fraction) : fraction := x.round_to 53

/-- The result of a `long double` operation: the exact result rounded to the 64
significant bits of the x87 extended format. -/
def fraction.to_long_double (x : fraction) : fraction := x.round_to 64

/-- `std::roundl` followed by the conversion to `share_type`: the nearest integer,
halfway cases away from zero, for a fraction of positive denominator. A fraction of
denominator `0` rounds to `0`. -/
def roundl (x : fraction) : Int :=
  if 0 ≤ x.num then (2 * x.num + x.den) / (2 * x.den)
  else -((2 * (-x.num) + x.den) / (2 * x.den))

/-- `fund_object::get_bonus_percent` (source lines 81-83): `percent / 100000.0`, a
`double` division. -/
def fund_object.get_bonus_percent (percent : Nat) : fraction :=
  ({ num := percent, den := 100000 } : fraction).to_double

/-- `fund_object::get_rate_percent` (source lines 12-24). `days_passed` is computed in
`uint32_t` from the seconds of the two times and converted to `int`; the quotient by 30,
the product with `days_passed - 1` and the difference are `double` operations, each
rounded. -/
def fund_object.get_rate_percent (self : fund_object) (fr_item : fund_rate)
    (head_block_time : Nat) : fraction :=
  let days_passed : Int :=
    ((time_point_sec_sub head_block_time self.prev_maintenance_time_on_creation / 86400 : Nat)
      : Int)
  -- the further away, the result is lower
  let result := ((fund_object.get_bonus_percent fr_item.day_percent).sub
    (((((fund_object.get_bonus_percent self.rates_reduction_per_month).div_int 30).to_double).mul
      (fraction.of_int (days_passed - 1))).to_double)).to_double
  if result.is_negative then fraction.of_int 0 else result

/-- `fund_payment_operation`, as filled in by `fund_object.cpp`; `deposit_id` is left
unset for the payment to the owner. -/
structure fund_payment_operation where
  issuer : Nat
  fund_id : Nat
  deposit_id : Option Nat
  asset_to_issue : asset
  issue_to_account : Nat
deriving DecidableEq, Repr, Inhabited

/-- `fund_withdrawal_operation`, as filled in by `fund_object.cpp`. -/
structure fund_withdrawal_operation where
  issuer : Nat
  fund_id : Nat
  asset_to_issue : asset
  issue_to_account : Nat
  datetime : Nat
deriving DecidableEq, Repr, Inhabited

/-- `deposit_renewal_operation`, as filled in by `fund_object.cpp`. -/
structure deposit_renewal_operation where
  account_id : Nat
  deposit_id : Nat
  percent : Nat
  datetime_end : Nat
deriving DecidableEq, Repr, Inhabited

/-- The sub-operations submitted by the maintenance routine. -/
inductive operation where
  | fund_payment (op : fund_payment_operation)
  | fund_withdrawal (op : fund_withdrawal_operation)
  | deposit_renewal (op : deposit_renewal_operation)
deriving DecidableEq, Repr, Inhabited

/-- The collaborators of `fund_object.cpp` that are defined outside the two source
files, taken as parameters: the hardfork times of `hardfork.hpp`; `validate` is
`op.validate()` (false when it throws an `fc::assert_exception`); `apply_operation` is
`database::apply_operation`, giving the database after the call and whether the call
returned without an `fc::assert_exception`; `check_supply_overflow` is
`database::check_supply_overflow`. -/
structure host where
  HARDFORK_624_TIME : Nat
  HARDFORK_625_TIME : Nat
  validate : operation → Bool
  apply_operation : database → operation → database × Bool
  check_supply_overflow : database → asset → asset

/-- The database and the local variables of `fund_object::process` that change while it
runs. `submitted` is not a variable of the source: it records every sub-operation that
entered a `try` block, in order, with whether the block completed without an exception. -/
structure process_state where
  db : database
  daily_payments_without_owner : Int
  deps_to_remove : List Nat
  submitted : List (operation × Bool)

/-- The block `try { op.validate(); db.apply_operation(eval, op); } catch
(fc::assert_exception& e) { }`. -/
def host.try_apply (h : host) (st : process_state) (op : operation) : process_state :=
  if h.validate op then
    let applied := h.apply_operation st.db op
    { st with db := applied.1, submitted := st.submitted ++ [(op, applied.2)] }
  else
    { st with submitted := st.submitted ++ [(op, false)] }

/-- The quantity of the daily payment of a deposit (source lines 121-123):
`roundl(get_bonus_percent(dep.percent) / p_rate->period * dep.amount)`, the quotient being
a `double` and the product a `long double`. -/
def fund_object.payment_quantity (rate : payment_rate) (dep : fund_deposit_object) : Int :=
  let percent_per_day :=
    ((fund_object.get_bonus_percent dep.percent).div_int rate.period).to_double
  roundl ((percent_per_day.mul (fraction.of_int dep.amount)).to_long_double)

/-- The `fund_payment_operation` filled in at source lines 129-134. -/
def fund_object.payment_operation (this : Nat) (asst : asset_object) (d : database)
    (dep : Nat) (asst_quantity : asset) : fund_payment_operation :=
  { issuer := asst.issuer, fund_id := this, deposit_id := some dep,
    asset_to_issue := asst_quantity,
    issue_to_account := (d.get_deposit dep).account_id }

/-- The payment to the depositor (source lines 117-145), for the payment rate `p_rate`
found for the period of the deposit `dep`. -/
def fund_object.pay_depositor (h : host) (this : Nat) (asst : asset_object)
    (p_rate : Option payment_rate) (st : process_state) (dep : Nat) : process_state :=
  match p_rate with
  | some rate =>
    let quantity : Int := fund_object.payment_quantity rate (st.db.get_deposit dep)
    if quantity > 0 then
      let asst_quantity := h.check_supply_overflow st.db (asst.amount quantity)
      if asst_quantity.amount > 0 then
        let op := fund_object.payment_operation this asst st.db dep asst_quantity
        let st1 := h.try_apply st (.fund_payment op)
        { st1 with daily_payments_without_owner :=
            st1.daily_payments_without_owner + asst_quantity.amount }
      else st
    else st
  | none => st

/-- The `deposit_renewal_operation` filled in at source lines 164-171 for the deposit
referred to by `dep`, read in database `d`. -/
def fund_object.renewal_operation (p_rate : Option payment_rate) (d : database) (dep : Nat) :
    deposit_renewal_operation :=
  { account_id := (d.get_deposit dep).account_id, deposit_id := dep,
    percent :=
      match p_rate with
      | some rate => rate.percent
      | none => (d.get_deposit dep).percent,
    datetime_end := time_point_sec_add (d.get_deposit dep).datetime_end
      ((86400 * (d.get_deposit dep).period) % 4294967296) }

/-- The in-place renewal of a deposit before hardfork 625 (the mutator of source lines
182-188), in database `d`. -/
def fund_object.renew_in_place (p_rate : Option payment_rate) (d : database)
    (x : fund_deposit_object) : fund_deposit_object :=
  let x :=
    match p_rate with
    | some rate => { x with percent := rate.percent }
    | none => x
  { x with datetime_end :=
      time_point_sec_add d.last_budget_time ((86400 * x.period) % 4294967296) }

/-- The autorenewal of an overdue deposit (source lines 152-192); the second component
is the value of `dep_was_overdue` after the block. -/
def fund_object.renew_deposit (h : host) (p_rate : Option payment_rate)
    (st : process_state) (dep : Nat) : process_state × Bool :=
  if st.db.head_block_time ≥ h.HARDFORK_624_TIME then
    match st.db.find_account (st.db.get_deposit dep).account_id with
    | some acc =>
      if acc.deposits_autorenewal_enabled then
        if st.db.head_block_time > h.HARDFORK_625_TIME then
          let op := fund_object.renewal_operation p_rate st.db dep
          (h.try_apply st (.deposit_renewal op), false)
        else
          -- last_budget_time - not stable
          let db1 := st.db.modify_deposit dep (fund_object.renew_in_place p_rate st.db)
          ({ st with db := db1 }, false)
      else (st, true)
    | none => (st, true)
  else (st, true)

/-- The `fund_withdrawal_operation` filled in at source lines 200-205. -/
def fund_object.withdrawal_operation (this : Nat) (asst : asset_object) (d : database)
    (dep : Nat) : fund_withdrawal_operation :=
  { issuer := asst.issuer, fund_id := this,
    asset_to_issue := asst.amount (d.get_deposit dep).amount,
    issue_to_account := (d.get_deposit dep).account_id,
    datetime := d.head_block_time }

/-- The retirement of an overdue deposit (source lines 194-222). -/
def fund_object.retire_deposit (h : host) (this : Nat) (asst : asset_object)
    (st : process_state) (dep : Nat) : process_state :=
  -- remove deposit
  let st1 := { st with deps_to_remove := st.deps_to_remove ++ [dep] }
  -- return deposit to user
  let op := fund_object.withdrawal_operation this asst st1.db dep
  let st2 := h.try_apply st1 (.fund_withdrawal op)
  -- reduce fund balance
  let db3 := st2.db.modify_fund this (fun f =>
    { f with balance := f.balance - (st2.db.get_deposit dep).amount })
  -- disable deposit
  let db4 := db3.modify_deposit dep (fun f => { f with enabled := false })
  { st2 with db := db4 }

/-- The body of the loop over the deposits of the fund (source lines 113-225), for the
deposit referred to by `dep`. -/
def fund_object.process_deposit (h : host) (this : Nat) (asst : asset_object)
    (st : process_state) (dep : Nat) : process_state :=
  if (st.db.get_deposit dep).enabled then
    -- payment to depositor
    let p_rate := (st.db.get_fund this).get_payment_rate (st.db.get_deposit dep).period
    let st1 := fund_object.pay_depositor h this asst p_rate st dep
    -- return deposit amount to user and remove deposit if overdue
    if time_point_sec_sub st1.db.next_maintenance_time st1.db.maintenance_interval
        ≥ (st1.db.get_deposit dep).datetime_end then
      let renewed := fund_object.renew_deposit h p_rate st1 dep
      if renewed.2 then fund_object.retire_deposit h this asst renewed.1 dep
      else renewed.1
    else st1
  else st

/-- The loop over the deposits of the fund (source lines 111-225): `std::for_each` over
the `by_fund_id` range of the fund, taken in database `d`, from the state `st0`. -/
def fund_object.process_deposits (h : host) (d : database) (this : Nat) (asst : asset_object)
    (st0 : process_state) : process_state :=
  let range := (d.fund_deposits.filter (fun dep => dep.fund_id == this)).map (fun dep => dep.id)
  range.foldl (fund_object.process_deposit h this asst) st0

/-- The payment to the fund owner (source lines 227-283); the second component is the
history item `h_item` after the block. -/
def fund_object.pay_owner (h : host) (this : Nat) (asst : asset_object) (old_balance : Int)
    (h_item : history_item) (st : process_state) : process_state × history_item :=
  -- make payment to fund owner, variant 1
  if (st.db.get_fund this).fixed_percent_on_deposits > 0 then
    let quantity : Int := roundl
      (((fund_object.get_bonus_percent (st.db.get_fund this).fixed_percent_on_deposits).mul
        (fraction.of_int st.daily_payments_without_owner)).to_long_double)
    let asst_owner_quantity := h.check_supply_overflow st.db (asst.amount quantity)
    if asst_owner_quantity.amount > 0 then
      let op : fund_payment_operation :=
        { issuer := asst.issuer, fund_id := this, deposit_id := none,
          asset_to_issue := asst_owner_quantity,
          issue_to_account := (st.db.get_fund this).owner }
      (h.try_apply st (.fund_payment op), h_item)
    else (st, h_item)
  -- make payment to fund owner, variant 2
  else
    match (st.db.get_fund this).get_max_fund_rate old_balance with
    | some p_rate =>
      let fund_day_profit : Int := roundl (((fraction.of_int old_balance).mul
        ((st.db.get_fund this).get_rate_percent p_rate st.db.head_block_time)).to_long_double)
      if fund_day_profit > 0 then
        let h_item := { h_item with daily_profit := fund_day_profit }
        let h_item := { h_item with
          daily_payments_without_owner := st.daily_payments_without_owner }
        let owner_profit := fund_day_profit - st.daily_payments_without_owner
        let asst_owner_quantity := h.check_supply_overflow st.db (asst.amount owner_profit)
        if asst_owner_quantity.amount > 0 then
          let op : fund_payment_operation :=
            { issuer := asst.issuer, fund_id := this, deposit_id := none,
              asset_to_issue := asst_owner_quantity,
              issue_to_account := (st.db.get_fund this).owner }
          (h.try_apply st (.fund_payment op), h_item)
        else (st, h_item)
      else (st, h_item)
    | none => (st, h_item)

/-- The erasure of the old history items (source lines 299-312), on the items after the
new one was appended. `head_block_time - fc::days(history_size)` is a `time_point` of
signed 64-bit microseconds; the comparison is that of the seconds as integers. -/
def erase_old_history_items (d : database) (items : List history_item) : List history_item :=
  if d.history_size > 0 then
    items.filter (fun it =>
      ¬ ((it.create_datetime : Int) < (d.head_block_time : Int) - 86400 * (d.history_size : Int)))
  else items

/-- The erasure of the overdue deposits when the node keeps no full history (source
lines 285-291): the database after it. -/
def fund_object.erase_overdue_deposits (st : process_state) : database :=
  if st.db.history_size > 0 then
    st.deps_to_remove.foldl (fun db obj_id => db.remove_deposit obj_id) st.db
  else st.db

/-- `fund_object::process` (source lines 85-314), for the fund referred to by `this`.
The result is none when the asset of the fund is not in the asset index (the `assert`
of line 91) or the history object is not in its index (`history_id(db)` throws). The
loop visits the deposits that are in the `by_fund_id` range of the fund at entry, in
index order. -/
def fund_object.process (h : host) (d : database) (this : Nat) : Option process_state :=
  match d.find_asset (d.get_fund this).asset_id with
  | none => none
  | some asst =>
    -- all payments to users
    let st0 : process_state :=
      { db := d, daily_payments_without_owner := 0, deps_to_remove := [], submitted := [] }
    let old_balance := (d.get_fund this).balance
    let h_item : history_item :=
      { create_datetime := d.head_block_time, daily_profit := 0,
        daily_payments_without_owner := 0 }
    -- find own fund deposits
    let st1 := fund_object.process_deposits h d this asst st0
    let paid := fund_object.pay_owner h this asst old_balance h_item st1
    let st2 := paid.1
    let h_item := paid.2
    -- erase overdue deposits if no full-node
    let db3 := fund_object.erase_overdue_deposits st2
    -- erase old history items
    match db3.find_fund_history (db3.get_fund this).history_id with
    | none => none
    | some hist_obj =>
      let db4 := db3.modify_fund_history hist_obj.id (fun o =>
        { o with items := erase_old_history_items db3 (o.items ++ [h_item]) })
      some { st2 with db := db4 }

/-- `fund_object::finish` (source lines 316-350), for the fund referred to by `this`.
The result is none when the asset of the fund is looked up and is not in the index. -/
def fund_object.finish (h : host) (d : database) (this : Nat) : Option process_state :=
  let owner_deps := (d.get_fund this).owner_balance
  let st0 : process_state :=
    { db := d, daily_payments_without_owner := 0, deps_to_remove := [], submitted := [] }
  let st1 : Option process_state :=
    if owner_deps > 0 then
      match d.find_asset (d.get_fund this).asset_id with
      | none => none
      | some asst =>
        -- return amount to owner
        let op : fund_withdrawal_operation :=
          { issuer := asst.issuer, fund_id := this, asset_to_issue := asst.amount owner_deps,
            issue_to_account := (d.get_fund this).owner, datetime := d.head_block_time }
        some (h.try_apply st0 (.fund_withdrawal op))
    else some st0
  -- reduce fund balance & disable
  st1.map (fun st =>
    let db2 := st.db.modify_fund this (fun f =>
      let f := if owner_deps > 0 then { f with balance := f.balance - owner_deps } else f
      let f := { f with owner_balance := 0 }
      { f with enabled := false })
    { st with db := db2 })

/-! ## Notions used to state the properties -/

/-- The loop invariant of `get_max_fund_rate`: after visiting the indices below `n`,
`idx` is `-1` and no visited tier qualifies, or `idx` is the first visited index holding
the largest qualifying threshold. -/
def max_idx_inv (rates : List fund_rate) (b : Int) (n : Nat) (idx : Int) : Prop :=
  (idx = -1 ∧ ∀ j, j < n → b < (rates.getD j default).amount) ∨
  (0 ≤ idx ∧ idx.toNat < n ∧ (rates.getD idx.toNat default).amount ≤ b ∧
    (∀ j, j < n → (rates.getD j default).amount ≤ b →
      (rates.getD j default).amount ≤ (rates.getD idx.toNat default).amount) ∧
    (∀ j, j < idx.toNat → (rates.getD j default).amount ≤ b →
      (rates.getD j default).amount ≠ (rates.getD idx.toNat default).amount))

/-- The data-model invariant of the payee slots of a cheque: a slot has status new or
used, and a slot with status new is empty (names no payee). -/
def cheque_object.slots_well_formed (o : cheque_object) : Prop :=
  ∀ item ∈ o.payees, item.status ≠ cheque_status.cheque_undo ∧
    (item.status = cheque_status.cheque_new → item.payee = none)

/-- The object ids of the cheque index are below the id the index hands out next (ids
are monotonic per type). -/
def database.cheque_ids_below_next (d : database) : Prop :=
  ∀ c ∈ d.cheques, c.id < d.next_cheque_id

/-- The cheque object built by the initializer of `cheque_create_evaluator::do_apply`
in database `d`. -/
def created_cheque (d : database) (op : cheque_create_operation) : cheque_object :=
  { id := d.next_cheque_id, drawer := op.account_id, asset_id := op.payee_amount.asset_id,
    datetime_creation := d.head_block_time, datetime_expiration := op.expiration_datetime,
    datetime_used := 0, code := op.code, status := cheque_status.cheque_new,
    amount_payee := op.payee_amount.amount,
    amount_remaining := op.payee_amount.amount * (op.payee_count : Int),
    payees := List.replicate op.payee_count ⟨none, 0, cheque_status.cheque_new⟩ }

/-- The database after `cheque_create` is applied and `cheque_reverse` is then evaluated
and applied on the cheque just created. -/
def cheque_create_then_reverse (d : database) (op : cheque_create_operation) : database :=
  let created := cheque_create_evaluator.do_apply d op
  let rop : cheque_reverse_operation := { cheque_id := d.next_cheque_id }
  match (cheque_reverse_evaluator.do_evaluate created.1 rop).2 with
  | .ok ptr => (cheque_reverse_evaluator.do_apply created.1 (some ptr) rop).1
  | .error _ => created.1

/-- The amount of a submitted sub-operation when it is a `fund_payment` to a depositor
(one that names a deposit), and zero otherwise. -/
def depositor_payment_amount (op : operation) : Int :=
  match op with
  | .fund_payment p => if p.deposit_id.isSome then p.asset_to_issue.amount else 0
  | _ => 0

/-- The sum of the amounts of all `fund_payment` sub-operations submitted for
depositors, whether they succeeded or not. -/
def depositor_payments_submitted (submitted : List (operation × Bool)) : Int :=
  (submitted.map (fun e => depositor_payment_amount e.1)).sum

/-- The sum of the amounts of the `fund_payment` sub-operations for depositors that
succeeded. -/
def depositor_payments_succeeded (submitted : List (operation × Bool)) : Int :=
  ((submitted.filter (fun e => e.2)).map (fun e => depositor_payment_amount e.1)).sum

/-- The accumulator of the deposit loop counts every depositor payment submitted so far. -/
def counts_submitted (st : process_state) : Prop :=
  st.daily_payments_without_owner = depositor_payments_submitted st.submitted

/-- The deposit a sub-operation renews, if it is a `deposit_renewal`. -/
def operation.renewed_deposit (op : operation) : Option Nat :=
  match op with
  | .deposit_renewal r => some r.deposit_id
  | _ => none

/-- Database `d2` has the chain times, the history size and the account and
fund-history objects of `d1`. -/
structure database.same_chain (d1 d2 : database) : Prop where
  head_block_time : d2.head_block_time = d1.head_block_time
  next_maintenance_time : d2.next_maintenance_time = d1.next_maintenance_time
  maintenance_interval : d2.maintenance_interval = d1.maintenance_interval
  history_size : d2.history_size = d1.history_size
  accounts : ∀ k, d2.find_account k = d1.find_account k
  histories : ∀ k, d2.find_fund_history k = d1.find_fund_history k

/-- Database `d2` agrees with `d1` on everything the maintenance routine reads: the
chain times and the history size, and the account, fund-history, fund and deposit
objects, the deposit `renewed` excepted. -/
structure database.agrees (renewed : Option Nat) (d1 d2 : database) : Prop where
  chain : d1.same_chain d2
  funds : ∀ k, d2.find_fund k = d1.find_fund k
  deposits : ∀ k, renewed ≠ some k → d2.find_deposit k = d1.find_deposit k

/-- The fund object `f` after `amount` was taken from its balance, when it is the fund
`this`. -/
def debit_fund (this : Nat) (amount : Int) (f : fund_object) : fund_object :=
  if f.id = this then { f with balance := f.balance - amount } else f

/-- The sub-operations do not touch the data of the maintenance routine: applying one
changes neither the chain times, nor a fund object (so not `fund.balance`), nor an
account or fund-history object, nor a deposit object other than the one a
`deposit_renewal` names. Balances and asset supplies may change freely. -/
def host.keeps_fund_data (h : host) : Prop :=
  ∀ (d : database) (op : operation),
    database.agrees op.renewed_deposit d (h.apply_operation d op).1

/-- Whether an overdue deposit `dep` is autorenewed in database `d`: the head block time
is at or after `HARDFORK_624_TIME` and the owning account is found and has
`deposits_autorenewal_enabled`. -/
def deposit_autorenewed (h : host) (d : database) (dep : fund_deposit_object) : Bool :=
  decide (d.head_block_time ≥ h.HARDFORK_624_TIME) &&
    (match d.find_account dep.account_id with
     | some acc => acc.deposits_autorenewal_enabled
     | none => false)

/-- Whether the deposit `dep` is overdue in database `d`:
`next_maintenance_time - maintenance_interval >= datetime_end`. -/
def deposit_overdue (d : database) (dep : fund_deposit_object) : Bool :=
  decide (time_point_sec_sub d.next_maintenance_time d.maintenance_interval ≥ dep.datetime_end)

/-- Whether the maintenance cycle retires the deposit `dep` in database `d`: the deposit
is enabled, overdue and not autorenewed. -/
def deposit_retired (h : host) (d : database) (dep : fund_deposit_object) : Bool :=
  dep.enabled && deposit_overdue d dep && !deposit_autorenewed h d dep

/-- The sum of the amounts of the deposits among `deps` that the cycle retires. -/
def retired_sum (h : host) (d : database) (deps : List fund_deposit_object) : Int :=
  ((deps.filter (deposit_retired h d)).map (fun dep => dep.amount)).sum

/-- The rational number a `fraction` stands for. -/
def fraction.value (x : fraction) : ℚ := (x.num : ℚ) / (x.den : ℚ)

/-- Rounding of a rational number to the nearest integer, halfway cases away from zero:
what `std::roundl` computes. -/
def round_half_away (x : ℚ) : Int :=
  if 0 ≤ x then ⌊x + 1 / 2⌋ else -⌊-x + 1 / 2⌋

/-- The profit of the fund for the day in variant 2 (source line 254):
`roundl(old_balance * get_rate_percent(p_rate, db))`. -/
def fund_object.fund_day_profit (self : fund_object) (p_rate : fund_rate) (old_balance : Int)
    (head_block_time : Nat) : Int :=
  roundl (((fraction.of_int old_balance).mul
    (self.get_rate_percent p_rate head_block_time)).to_long_double)

/-- The quantity of the payment to the owner in variant 1 (source line 230):
`roundl(get_bonus_percent(fixed_percent_on_deposits) * daily_payments_without_owner)`,
a `long double` product. -/
def fund_object.owner_quantity (fixed_percent_on_deposits : Nat)
    (daily_payments_without_owner : Int) : Int :=
  roundl (((fund_object.get_bonus_percent fixed_percent_on_deposits).mul
    (fraction.of_int daily_payments_without_owner)).to_long_double)

/-- The `fund_payment` sub-operations of a log that pay the owner of the fund: those
submitted with `deposit_id` unset. -/
def owner_payments (submitted : List (operation × Bool)) : List fund_payment_operation :=
  submitted.filterMap (fun e =>
    match e.1 with
    | .fund_payment p => if p.deposit_id.isNone then some p else none
    | _ => none)

/-- The state of the loop of `process` over the deposits of the fund after the deposits
`visited`, a prefix of the `by_fund_id` range, were visited. -/
def fund_object.deposits_visited (h : host) (d : database) (this : Nat) (asst : asset_object)
    (visited : List fund_deposit_object) : process_state :=
  (visited.map (fun dep => dep.id)).foldl (fund_object.process_deposit h this asst)
    { db := d, daily_payments_without_owner := 0, deps_to_remove := [], submitted := [] }

/-- The invariant of the loop over the deposits, started in database `d0`: after the
deposits `done` were visited the state `st` has the chain data of `d0`; the balance of
the fund `this` is lowered by the amounts of the retired deposits among `done` and no
fund is changed otherwise; the deposits not visited are as in `d0`; each retired deposit
is disabled and queued in `deps_to_remove`. -/
structure deposits_loop_inv (h : host) (this : Nat) (d0 : database)
    (done : List fund_deposit_object) (st : process_state) : Prop where
  chain : d0.same_chain st.db
  funds : ∀ j, st.db.find_fund j =
    (d0.find_fund j).map (debit_fund this (retired_sum h d0 done))
  pending : ∀ k, (∀ x ∈ done, x.id ≠ k) → st.db.find_deposit k = d0.find_deposit k
  retired : ∀ x ∈ done, deposit_retired h d0 x = true →
    st.db.find_deposit x.id = some { x with enabled := false }
  to_remove : st.deps_to_remove = (done.filter (deposit_retired h d0)).map (fun x => x.id)

/-! ## Concrete states used as test inputs

Account 1 is the drawer A, accounts 2 and 3 are the redeemers B and C; asset 0. -/

/-- A database with four accounts, one asset, no cheque; every balance is 100. -/
def example_db : database :=
  { head_block_time := 1000
    accounts := [⟨1, false⟩, ⟨2, false⟩, ⟨3, false⟩, ⟨4, false⟩]
    assets := [⟨0, 1⟩]
    balances := fun _ _ => 100
    cheques := []
    next_cheque_id := 0 }

/-- A `cheque_create` of 3 payees, 10 each, by account 1. -/
def example_create : cheque_create_operation :=
  { account_id := 1, payee_amount := ⟨10, 0⟩, payee_count := 3, code := "X",
    expiration_datetime := 2000 }

/-- A `cheque_create` of 4 payees whose per-payee amount is `-2^62`: the product
`-2^64` does not fit a `share_type`. -/
def overflowing_create : cheque_create_operation :=
  { account_id := 1, payee_amount := ⟨-4611686018427387904, 0⟩, payee_count := 4,
    code := "X", expiration_datetime := 2000 }

/-- A `cheque_create` whose per-payee amount is negative. -/
def negative_create : cheque_create_operation :=
  { account_id := 1, payee_amount := ⟨-5, 0⟩, payee_count := 1, code := "X",
    expiration_datetime := 2000 }

/-- The cheque of the scenario after B (account 2) and C (account 3) have used it:
amount per payee 10, three slots, two of them used, 10 remaining. -/
def scenario_cheque : cheque_object :=
  { id := 0, drawer := 1, asset_id := 0, datetime_creation := 1000,
    datetime_expiration := 2000, datetime_used := 0, code := "X",
    status := cheque_status.cheque_new, amount_payee := 10, amount_remaining := 10,
    payees := [⟨some 2, 1000, cheque_status.cheque_used⟩,
               ⟨some 3, 1000, cheque_status.cheque_used⟩,
               ⟨none, 0, cheque_status.cheque_new⟩] }

/-- The database holding the scenario cheque: A has paid 30, B and C have received 10. -/
def scenario_db : database :=
  { example_db with
    balances := fun a _ => if a = 1 then 70 else if a = 2 ∨ a = 3 then 110 else 100,
    cheques := [scenario_cheque], next_cheque_id := 1 }

/-- A `cheque_use` of the cheque of code "X" for 10 of asset 0 by `account`. -/
def use_by (account : Nat) : cheque_use_operation :=
  { account_id := account, code := "X", amount := ⟨10, 0⟩ }

/-- The database after `cheque_use` by `account` is evaluated and applied. -/
def cheque_use_run (d : database) (account : Nat) : database :=
  match (cheque_use_evaluator.do_evaluate d (use_by account)).2 with
  | .ok ptr => (cheque_use_evaluator.do_apply d (some ptr) (use_by account)).1
  | .error _ => d

/-- Scenario 1 run from the example database: A creates the cheque, B uses it, C uses
it. -/
def scenario_run : database :=
  cheque_use_run (cheque_use_run (cheque_create_evaluator.do_apply example_db example_create).1 2) 3

/-- The scenario cheque once fully used (third slot used by account 4). -/
def used_cheque : cheque_object :=
  { scenario_cheque with
    status := cheque_status.cheque_used, amount_remaining := 0, datetime_used := 1000,
    payees := [⟨some 2, 1000, cheque_status.cheque_used⟩,
               ⟨some 3, 1000, cheque_status.cheque_used⟩,
               ⟨some 4, 1000, cheque_status.cheque_used⟩] }

/-- The database holding the fully used cheque. -/
def used_db : database :=
  { example_db with cheques := [used_cheque], next_cheque_id := 1 }

/-- A `cheque_use` of the scenario cheque by B (account 2), who has used it already. -/
def repeated_use : cheque_use_operation := use_by 2

/-! ### Hosts and fund states -/

/-- A host whose sub-operations all fail validation. -/
def rejecting_host : host :=
  { HARDFORK_624_TIME := 0, HARDFORK_625_TIME := 0,
    validate := fun _ => false,
    apply_operation := fun d _ => (d, true),
    check_supply_overflow := fun _ a => a }

/-- A host whose sub-operations all succeed and whose supply check lets at most 3
through. -/
def clamping_host : host :=
  { HARDFORK_624_TIME := 0, HARDFORK_625_TIME := 0,
    validate := fun _ => true,
    apply_operation := fun d _ => (d, true),
    check_supply_overflow := fun _ a => { a with amount := min a.amount 3 } }

/-- A host that applies `fund_payment` and `fund_withdrawal` by crediting the account,
applies `deposit_renewal` by updating the deposit, and never clamps. The hardfork times
are in the future of the example databases. -/
def crediting_host : host :=
  { HARDFORK_624_TIME := 5000000, HARDFORK_625_TIME := 6000000,
    validate := fun _ => true,
    apply_operation := fun d op =>
      match op with
      | .fund_payment p => (d.adjust_balance p.issue_to_account p.asset_to_issue, true)
      | .fund_withdrawal w => (d.adjust_balance w.issue_to_account w.asset_to_issue, true)
      | .deposit_renewal r =>
        (d.modify_deposit r.deposit_id (fun x =>
          { x with percent := r.percent, datetime_end := r.datetime_end }), true),
    check_supply_overflow := fun _ a => a }

/-- A fund (id 7) of owner 1 in asset 0 with owner percent 0.1 and a payment rate for
the period of 30 days. -/
def example_fund : fund_object :=
  { id := 7, owner := 1, asset_id := 0, balance := 1500, owner_balance := 0,
    fixed_percent_on_deposits := 10000, rates_reduction_per_month := 0,
    fund_rates := [], payment_rates := [⟨30, 30000⟩],
    prev_maintenance_time_on_creation := 0, history_id := 9, enabled := true }

/-- A running deposit (id 5) of 1000 by account 2 at 0.3 over 30 days. -/
def running_deposit : fund_deposit_object :=
  { id := 5, fund_id := 7, account_id := 2, amount := 1000, percent := 30000, period := 30,
    datetime_end := 2000000, enabled := true }

/-- An overdue deposit (id 6) of 500 by account 3. -/
def overdue_deposit : fund_deposit_object :=
  { id := 6, fund_id := 7, account_id := 3, amount := 500, percent := 30000, period := 30,
    datetime_end := 900000, enabled := true }

/-- A database holding the example fund and its two deposits, on an archive node
(`history_size = 0`). -/
def fund_db : database :=
  { example_db with
    head_block_time := 1000000, next_maintenance_time := 1086400, last_budget_time := 1000000,
    maintenance_interval := 86400, history_size := 0,
    funds := [example_fund], fund_deposits := [running_deposit, overdue_deposit],
    fund_histories := [⟨9, []⟩] }

/-- A fund whose rate table has the thresholds 100, 500 and 300, in this order. -/
def example_tiers : fund_object :=
  { (default : fund_object) with fund_rates := [⟨100, 1⟩, ⟨500, 5⟩, ⟨300, 3⟩] }

/-- A fund (id 7) without owner percent, with one tier of 0.1 a day from a balance of
10000 on and a monthly reduction of 0.03, created at time 0. -/
def decay_fund : fund_object :=
  { id := 7, owner := 1, asset_id := 0, balance := 10000, owner_balance := 0,
    fixed_percent_on_deposits := 0, rates_reduction_per_month := 3000,
    fund_rates := [⟨10000, 10000⟩], payment_rates := [⟨30, 150000⟩],
    prev_maintenance_time_on_creation := 0, history_id := 9, enabled := true }

/-- A running deposit (id 5) of 10000 by account 2 at 1.5 over 30 days. -/
def decay_deposit : fund_deposit_object :=
  { id := 5, fund_id := 7, account_id := 2, amount := 10000, percent := 150000, period := 30,
    datetime_end := 4000000, enabled := true }

/-- A database holding `decay_fund` and its deposit, 31 days after the creation of the
fund. -/
def decay_db : database :=
  { example_db with
    head_block_time := 2678400, next_maintenance_time := 2764800, last_budget_time := 2678400,
    maintenance_interval := 86400, history_size := 0,
    funds := [decay_fund], fund_deposits := [decay_deposit],
    fund_histories := [⟨9, []⟩] }

/-- The database `fund_db` on a node that keeps two days of history, with two earlier
history items of the fund, the first older than two days. -/
def pruning_db : database :=
  { fund_db with
    history_size := 2,
    fund_histories := [⟨9, [⟨100000, 1, 1⟩, ⟨900000, 2, 2⟩]⟩] }

/-- A database in which the fund 7 has a balance of 5000, below its only tier, and no
deposit; the one deposit belongs to the fund 8. -/
def idle_db : database :=
  { decay_db with
    funds := [{ decay_fund with balance := 5000 }],
    fund_deposits := [{ decay_deposit with fund_id := 8 }],
    fund_histories := [⟨9, [⟨100000, 1, 1⟩]⟩] }

/-- The fund `decay_fund` with a monthly reduction of 1, which brings the rate of its
tier to 0 after 31 days. -/
def spent_fund : fund_object :=
  { decay_fund with rates_reduction_per_month := 100000 }

/-- The database `decay_db` with `spent_fund` for the fund 7. -/
def spent_db : database :=
  { decay_db with funds := [spent_fund] }

/-- The example fund with 200 of its balance of 1500 deposited by the owner. -/
def closing_fund : fund_object :=
  { example_fund with owner_balance := 200 }

/-- The database `fund_db` with `closing_fund` for the fund 7. -/
def closing_db : database :=
  { fund_db with funds := [closing_fund] }

/-- The overdue deposit with a period of 90 days, for which the example fund has no
payment rate. -/
def unrated_deposit : fund_deposit_object :=
  { overdue_deposit with period := 90 }

/-- The database `fund_db` with `unrated_deposit` in place of the overdue deposit. -/
def unrated_db : database :=
  { fund_db with fund_deposits := [running_deposit, unrated_deposit] }

/-- The database `fund_db` at a time after hardfork 625 of `crediting_host`, with
deposit autorenewal enabled for account 3. Both deposits are overdue. -/
def renewing_db : database :=
  { fund_db with
    head_block_time := 7000000, next_maintenance_time := 7086400, last_budget_time := 7000000,
    accounts := [⟨1, false⟩, ⟨2, false⟩, ⟨3, true⟩, ⟨4, false⟩] }

/-- The database `fund_db` with the running deposit of 1000 as the only deposit. -/
def single_db : database :=
  { fund_db with fund_deposits := [running_deposit] }

/-- A deposit of 5 at percent 30000 over a period of 1 day: the exact daily payment is
`0.3 * 5 = 1.5`. -/
def odd_deposit : fund_deposit_object :=
  { id := 5, fund_id := 7, account_id := 2, amount := 5, percent := 30000, period := 1,
    datetime_end := 2000000, enabled := true }

/-! ## Properties -/

/-! ### Tier selection -/

theorem get_max_fund_rate_loop_succ (rates : List fund_rate) (b : Int) (n : Nat) :
    fund_object.get_max_fund_rate_loop rates b (n + 1) =
      fund_object.get_max_fund_rate_step rates b
        (fund_object.get_max_fund_rate_loop rates b n) n := by
  simp [fund_object.get_max_fund_rate_loop, List.range_succ, List.foldl_append]

theorem max_idx_inv_step (rates : List fund_rate) (b : Int) (n : Nat) (idx : Int)
    (h : max_idx_inv rates b n idx) :
    max_idx_inv rates b (n + 1) (fund_object.get_max_fund_rate_step rates b idx n) := by
  unfold fund_object.get_max_fund_rate_step
  rcases h with ⟨h1, h2⟩ | ⟨h0, hlt, hq, hmax, hfirst⟩
  · by_cases hb : b ≥ (rates.getD n default).amount
    · rw [if_pos hb, if_pos h1]
      right
      refine ⟨by omega, by simp, by simpa using hb, ?_, ?_⟩
      · intro j hj hjb
        rcases Nat.lt_succ_iff_lt_or_eq.mp hj with hj | hj
        · have := h2 j hj; omega
        · subst hj; simp
      · intro j hj hjb
        have := h2 j (by simpa using hj); omega
    · rw [if_neg hb]
      left
      refine ⟨h1, ?_⟩
      intro j hj
      rcases Nat.lt_succ_iff_lt_or_eq.mp hj with hj | hj
      · exact h2 j hj
      · subst hj; omega
  · have hne : ¬ idx = -1 := by omega
    by_cases hb : b ≥ (rates.getD n default).amount
    · rw [if_pos hb, if_neg hne]
      by_cases hgt : (rates.getD n default).amount > (rates.getD idx.toNat default).amount
      · rw [if_pos hgt]
        right
        refine ⟨by omega, by simp, by simpa using hb, ?_, ?_⟩
        · intro j hj hjb
          rcases Nat.lt_succ_iff_lt_or_eq.mp hj with hj | hj
          · have := hmax j hj hjb
            simp only [Int.toNat_ofNat]; omega
          · subst hj; simp
        · intro j hj hjb
          have hj2 : j < n := by simpa using hj
          have := hmax j hj2 hjb
          simp only [Int.toNat_ofNat]; omega
      · rw [if_neg hgt]
        right
        refine ⟨h0, by omega, hq, ?_, hfirst⟩
        intro j hj hjb
        rcases Nat.lt_succ_iff_lt_or_eq.mp hj with hj | hj
        · exact hmax j hj hjb
        · subst hj; omega
    · rw [if_neg hb]
      right
      refine ⟨h0, by omega, hq, ?_, hfirst⟩
      intro j hj hjb
      rcases Nat.lt_succ_iff_lt_or_eq.mp hj with hj | hj
      · exact hmax j hj hjb
      · subst hj; omega

theorem max_idx_inv_loop (rates : List fund_rate) (b : Int) (n : Nat) :
    max_idx_inv rates b n (fund_object.get_max_fund_rate_loop rates b n) := by
  induction n with
  | zero =>
    left
    exact ⟨by simp [fund_object.get_max_fund_rate_loop], by intro j hj; omega⟩
  | succ n ih =>
    rw [get_max_fund_rate_loop_succ]
    exact max_idx_inv_step rates b n _ ih

/-- C1: `get_max_fund_rate balance` is none exactly when no tier has
`amount <= balance` (so for the empty table, and when every threshold is above the
balance); a tier whose threshold equals the balance qualifies; and when some tier
qualifies the result is the tier at the smallest index among the qualifying tiers of
maximal threshold. -/
theorem get_max_fund_rate_spec (self : fund_object) (balance : Int) :
    (self.get_max_fund_rate balance = none ↔
      ∀ fr ∈ self.fund_rates, ¬ fr.amount ≤ balance) ∧
    (self.fund_rates = [] → self.get_max_fund_rate balance = none) ∧
    (∀ fr ∈ self.fund_rates, fr.amount = balance →
      self.get_max_fund_rate balance ≠ none) ∧
    ((∃ fr ∈ self.fund_rates, fr.amount ≤ balance) →
      ∃ (i : Nat) (fr : fund_rate), self.fund_rates[i]? = some fr ∧
        self.get_max_fund_rate balance = some fr ∧
        fr.amount ≤ balance ∧
        (∀ g ∈ self.fund_rates, g.amount ≤ balance → g.amount ≤ fr.amount) ∧
        (∀ (j : Nat) (g : fund_rate), j < i → self.fund_rates[j]? = some g →
          g.amount ≤ balance → g.amount ≠ fr.amount)) := by
  have hinv := max_idx_inv_loop self.fund_rates balance self.fund_rates.length
  have hget : ∀ j g, self.fund_rates[j]? = some g →
      j < self.fund_rates.length ∧ self.fund_rates.getD j default = g := by
    intro j g hg
    obtain ⟨hj, hjg⟩ := List.getElem?_eq_some_iff.mp hg
    exact ⟨hj, by rw [List.getD_eq_getElem _ _ hj]; exact hjg⟩
  have hmem : ∀ g ∈ self.fund_rates, ∃ j, j < self.fund_rates.length ∧
      self.fund_rates.getD j default = g := by
    intro g hg
    obtain ⟨j, hj, hjg⟩ := List.mem_iff_getElem.mp hg
    exact ⟨j, hj, by rw [List.getD_eq_getElem _ _ hj]; exact hjg⟩
  have hnone : self.get_max_fund_rate balance = none ↔
      ∀ fr ∈ self.fund_rates, ¬ fr.amount ≤ balance := by
    unfold fund_object.get_max_fund_rate
    by_cases hlen : self.fund_rates.length = 0
    · rw [if_pos hlen]
      have : self.fund_rates = [] := List.length_eq_zero.mp hlen
      simp [this]
    · rw [if_neg hlen]
      rcases hinv with ⟨h1, h2⟩ | ⟨h0, hlt, hq, -, -⟩
      · simp only [h1]
        constructor
        · intro _ fr hfr
          obtain ⟨j, hj, hjg⟩ := hmem fr hfr
          have := h2 j hj
          rw [hjg] at this
          omega
        · intro _; simp
      · have hpos : fund_object.get_max_fund_rate_loop self.fund_rates balance
            self.fund_rates.length > -1 := by omega
        simp only [hpos, if_true]
        constructor
        · intro h; cases h
        · intro h
          exfalso
          refine h (self.fund_rates.getD _ default) ?_ hq
          rw [List.getD_eq_getElem _ _ hlt]
          exact List.getElem_mem _
  refine ⟨hnone, ?_, ?_, ?_⟩
  · intro h
    rw [hnone, h]
    simp
  · intro fr hfr heq hn
    exact (hnone.mp hn) fr hfr (by omega)
  · rintro ⟨fr, hfr, hle⟩
    rcases hinv with ⟨h1, h2⟩ | ⟨h0, hlt, hq, hmax, hfirst⟩
    · exfalso
      obtain ⟨j, hj, hjg⟩ := hmem fr hfr
      have := h2 j hj
      rw [hjg] at this
      omega
    · refine ⟨(fund_object.get_max_fund_rate_loop self.fund_rates balance
          self.fund_rates.length).toNat, self.fund_rates.getD
        (fund_object.get_max_fund_rate_loop self.fund_rates balance
          self.fund_rates.length).toNat default, ?_, ?_, hq, ?_, ?_⟩
      · rw [List.getD_eq_getElem _ _ hlt]
        exact List.getElem?_eq_getElem hlt
      · unfold fund_object.get_max_fund_rate
        have hlen : ¬ self.fund_rates.length = 0 := by omega
        rw [if_neg hlen]
        have hpos : fund_object.get_max_fund_rate_loop self.fund_rates balance
            self.fund_rates.length > -1 := by omega
        simp only [hpos, if_true]
      · intro g hg hgb
        obtain ⟨j, hj, hjg⟩ := hmem g hg
        have := hmax j hj (by rw [hjg]; exact hgb)
        rw [hjg] at this
        exact this
      · intro j g hj hg hgb
        obtain ⟨-, hjg⟩ := hget j g hg
        have := hfirst j hj (by rw [hjg]; exact hgb)
        rw [hjg] at this
        exact this


/-! ### Cheques -/

theorem find_account_isSome (d : database) (id : Nat) :
    (d.find_account id).isSome = true ↔ ∃ a ∈ d.accounts, a.id = id := by
  simp [database.find_account, List.find?_isSome]

theorem find_asset_isSome (d : database) (id : Nat) :
    (d.find_asset id).isSome = true ↔ ∃ a ∈ d.assets, a.id = id := by
  simp [database.find_asset, List.find?_isSome]

theorem find_cheque_by_code_isSome (d : database) (code : String) :
    (d.find_cheque_by_code code).isSome = true ↔ ∃ c ∈ d.cheques, c.code = code := by
  simp [database.find_cheque_by_code, List.find?_isSome]

/-- C2, counterexample: the drawer account and the asset exist, no cheque has the code,
the expiration time is after the head block time and the balance of 100 is at least the
product `-2^62 * 4 = -2^64`, yet the evaluation fails: the checked `share_type` product
of line 32 throws. -/
theorem cheque_create_evaluate_counterexample :
    (∃ a ∈ example_db.accounts, a.id = overflowing_create.account_id) ∧
    (∃ a ∈ example_db.assets, a.id = overflowing_create.payee_amount.asset_id) ∧
    (¬ ∃ c ∈ example_db.cheques, c.code = overflowing_create.code) ∧
    overflowing_create.expiration_datetime > example_db.head_block_time ∧
    example_db.get_balance overflowing_create.account_id
        overflowing_create.payee_amount.asset_id
      ≥ overflowing_create.payee_amount.amount * (overflowing_create.payee_count : Int) ∧
    (cheque_create_evaluator.do_evaluate example_db overflowing_create).2
      = .error .share_type_overflow := by
  refine ⟨⟨⟨1, false⟩, by simp [example_db], rfl⟩, ⟨⟨0, 1⟩, by simp [example_db], rfl⟩,
    by simp [example_db], by decide, by decide, rfl⟩

/-- C2, amended: `cheque_create` evaluation succeeds if and only if the drawer account
exists, the asset exists, no cheque of the index has the operation's code, the
expiration time is strictly after the head block time, the product
`payee_amount * payee_count` fits the 64 signed bits of a `share_type` and the drawer's
balance in the asset is at least that product; an expiration time equal to the head
block time is rejected; the database is not changed by the evaluation. -/
theorem cheque_create_evaluate_iff (d : database) (op : cheque_create_operation) :
    ((cheque_create_evaluator.do_evaluate d op).2 = .ok () ↔
      (∃ a ∈ d.accounts, a.id = op.account_id) ∧
      (∃ a ∈ d.assets, a.id = op.payee_amount.asset_id) ∧
      (¬ ∃ c ∈ d.cheques, c.code = op.code) ∧
      op.expiration_datetime > d.head_block_time ∧
      (-9223372036854775808 ≤ op.payee_amount.amount * (op.payee_count : Int) ∧
        op.payee_amount.amount * (op.payee_count : Int) ≤ 9223372036854775807) ∧
      d.get_balance op.account_id op.payee_amount.asset_id
        ≥ op.payee_amount.amount * (op.payee_count : Int)) ∧
    (op.expiration_datetime = d.head_block_time →
      (cheque_create_evaluator.do_evaluate d op).2 ≠ .ok ()) ∧
    (cheque_create_evaluator.do_evaluate d op).1 = d := by
  have hacc := find_account_isSome d op.account_id
  have hast := find_asset_isSome d op.payee_amount.asset_id
  have hcode := find_cheque_by_code_isSome d op.code
  have hiff : (cheque_create_evaluator.do_evaluate d op).2 = .ok () ↔
      (∃ a ∈ d.accounts, a.id = op.account_id) ∧
      (∃ a ∈ d.assets, a.id = op.payee_amount.asset_id) ∧
      (¬ ∃ c ∈ d.cheques, c.code = op.code) ∧
      op.expiration_datetime > d.head_block_time ∧
      (-9223372036854775808 ≤ op.payee_amount.amount * (op.payee_count : Int) ∧
        op.payee_amount.amount * (op.payee_count : Int) ≤ 9223372036854775807) ∧
      d.get_balance op.account_id op.payee_amount.asset_id
        ≥ op.payee_amount.amount * (op.payee_count : Int) := by
    rw [← hacc, ← hast, ← hcode]
    unfold cheque_create_evaluator.do_evaluate safe_mul
    cases d.find_account op.account_id <;> cases d.find_asset op.payee_amount.asset_id <;>
      cases d.find_cheque_by_code op.code <;>
      by_cases h4 : op.expiration_datetime > d.head_block_time <;>
      by_cases h6 : (-9223372036854775808 ≤ op.payee_amount.amount * (op.payee_count : Int) ∧
        op.payee_amount.amount * (op.payee_count : Int) ≤ 9223372036854775807) <;>
      by_cases h5 : d.get_balance op.account_id op.payee_amount.asset_id
        ≥ op.payee_amount.amount * (op.payee_count : Int) <;>
      simp [h4, h5, h6]
  refine ⟨hiff, ?_, ?_⟩
  · intro h hok
    have := (hiff.mp hok).2.2.2.1
    omega
  · unfold cheque_create_evaluator.do_evaluate
    simp only []
    split_ifs
    all_goals first
      | rfl
      | (cases safe_mul op.payee_amount.amount (op.payee_count : Int) with
         | none => rfl
         | some product =>
           simp only []
           split_ifs <;> rfl)

theorem asset_neg_amount (a : asset) : (-a).amount = -a.amount := rfl

theorem asset_neg_asset_id (a : asset) : (-a).asset_id = a.asset_id := rfl

theorem get_balance_adjust_balance (d : database) (account : Nat) (delta : asset)
    (a s : Nat) :
    (d.adjust_balance account delta).get_balance a s =
      if a = account ∧ s = delta.asset_id then d.get_balance a s + delta.amount
      else d.get_balance a s := rfl

theorem find_cheque_modify_cheque (d : database) (id k : Nat)
    (f : cheque_object → cheque_object) (hf : ∀ c, (f c).id = c.id) :
    (d.modify_cheque id f).find_cheque k =
      (d.find_cheque k).map (fun c => if c.id = id then f c else c) := by
  unfold database.modify_cheque database.find_cheque
  simp only [List.find?_map]
  congr 2
  funext c
  by_cases h : c.id = id <;> simp [h, hf]

theorem find_cheque_id (d : database) (k : Nat) (c : cheque_object)
    (h : d.find_cheque k = some c) : c.id = k := by
  have := List.find?_some h
  simpa using this

theorem cheque_create_apply_eq (d : database) (op : cheque_create_operation) :
    cheque_create_evaluator.do_apply d op =
      ({ d.adjust_balance op.account_id
            (-{ amount := op.payee_amount.amount * (op.payee_count : Int),
                asset_id := op.payee_amount.asset_id }) with
          cheques := d.cheques ++ [created_cheque d op],
          next_cheque_id := d.next_cheque_id + 1 },
        .ok d.next_cheque_id) := by
  unfold cheque_create_evaluator.do_apply
  simp only []
  rw [if_pos (by rfl)]
  rfl

theorem find_cheque_created (d : database) (op : cheque_create_operation)
    (hd : d.cheque_ids_below_next) :
    (cheque_create_evaluator.do_apply d op).1.find_cheque d.next_cheque_id
      = some (created_cheque d op) := by
  rw [cheque_create_apply_eq]
  show List.find? _ (d.cheques ++ [created_cheque d op]) = _
  rw [List.find?_append]
  have hnone : List.find? (fun c => c.id == d.next_cheque_id) d.cheques = none := by
    rw [List.find?_eq_none]
    intro c hc
    have := hd c hc
    simp
    omega
  rw [hnone]
  simp [created_cheque]

theorem cheque_reverse_apply_eq (d : database) (ptr : Nat) (obj : cheque_object)
    (op : cheque_reverse_operation) (hfind : d.find_cheque ptr = some obj) :
    cheque_reverse_evaluator.do_apply d (some ptr) op =
      ((if obj.amount_remaining > 0 then
          d.adjust_balance obj.drawer
            { amount := obj.amount_remaining, asset_id := obj.asset_id }
        else d).modify_cheque ptr
          (fun o => { o with
            datetime_used := d.head_block_time,
            status := cheque_status.cheque_undo,
            payees := obj.payees.map (reversed_item obj.drawer d.head_block_time),
            amount_remaining := 0 }), .ok ()) := by
  have hid := find_cheque_id d ptr obj hfind
  unfold cheque_reverse_evaluator.do_apply
  simp only [Option.bind, hfind, hid]
  split_ifs <;> rfl

theorem find_cheque_reverse_apply (d : database) (ptr : Nat) (obj : cheque_object)
    (op : cheque_reverse_operation) (hfind : d.find_cheque ptr = some obj) :
    (cheque_reverse_evaluator.do_apply d (some ptr) op).1.find_cheque ptr =
      some { obj with
        datetime_used := d.head_block_time,
        status := cheque_status.cheque_undo,
        payees := obj.payees.map (reversed_item obj.drawer d.head_block_time),
        amount_remaining := 0 } := by
  have hid := find_cheque_id d ptr obj hfind
  rw [cheque_reverse_apply_eq d ptr obj op hfind]
  simp only []
  refine (find_cheque_modify_cheque _ _ _ _ ?_).trans ?_
  · intro c
    rfl
  have hsame : (if obj.amount_remaining > 0 then
          d.adjust_balance obj.drawer
            { amount := obj.amount_remaining, asset_id := obj.asset_id }
        else d).find_cheque ptr = some obj := by
    split_ifs
    · exact hfind
    · exact hfind
  rw [hsame]
  simp [hid]

/-- C4, counterexample: a `cheque_create` with a negative per-payee amount passes
evaluation (the drawer's balance 100 is at least -5), apply credits the drawer 5, and
the reverse of the new cheque returns nothing because `amount_remaining` is not
positive: the drawer ends with 105 instead of 100. -/
theorem cheque_create_then_reverse_counterexample :
    (cheque_create_evaluator.do_evaluate example_db negative_create).2 = .ok () ∧
    (cheque_create_evaluator.do_apply example_db negative_create).2 = .ok 0 ∧
    (cheque_reverse_evaluator.do_evaluate
      (cheque_create_evaluator.do_apply example_db negative_create).1 { cheque_id := 0 }).2
        = .ok 0 ∧
    ((cheque_create_then_reverse example_db negative_create).find_cheque 0).map
      (fun c => c.status) = some cheque_status.cheque_undo ∧
    example_db.get_balance 1 0 = 100 ∧
    (cheque_create_then_reverse example_db negative_create).get_balance 1 0 = 105 := by
  refine ⟨by rfl, by rfl, by rfl, by decide, by decide, by decide⟩

/-- C4, amended: for every database whose cheque ids are below the next id and every
`cheque_create` operation whose `payee_amount * payee_count` is not negative (in
particular those that pass evaluation), applying `cheque_create` and then evaluating and
applying `cheque_reverse` on the new cheque succeeds and leaves every balance, the
drawer's in the cheque asset included, at exactly its value before the create. -/
theorem cheque_create_then_reverse_balance (d : database) (op : cheque_create_operation)
    (hd : d.cheque_ids_below_next)
    (hnonneg : 0 ≤ op.payee_amount.amount * (op.payee_count : Int)) :
    (cheque_reverse_evaluator.do_evaluate (cheque_create_evaluator.do_apply d op).1
        { cheque_id := d.next_cheque_id }).2 = .ok d.next_cheque_id ∧
    (cheque_reverse_evaluator.do_apply (cheque_create_evaluator.do_apply d op).1
        (some d.next_cheque_id) { cheque_id := d.next_cheque_id }).2 = .ok () ∧
    ∀ a s, (cheque_create_then_reverse d op).get_balance a s = d.get_balance a s := by
  have hfind := find_cheque_created d op hd
  have heval : (cheque_reverse_evaluator.do_evaluate (cheque_create_evaluator.do_apply d op).1
        { cheque_id := d.next_cheque_id }).2 = .ok d.next_cheque_id := by
    unfold cheque_reverse_evaluator.do_evaluate
    simp only [hfind]
    simp [created_cheque]
  have happly := cheque_reverse_apply_eq (cheque_create_evaluator.do_apply d op).1
    d.next_cheque_id (created_cheque d op) { cheque_id := d.next_cheque_id } hfind
  refine ⟨heval, by rw [happly], ?_⟩
  intro a s
  unfold cheque_create_then_reverse
  simp only [heval, happly]
  show database.get_balance
    (if (created_cheque d op).amount_remaining > 0 then _ else _) a s = _
  rw [cheque_create_apply_eq]
  by_cases hpos : (created_cheque d op).amount_remaining > 0
  · rw [if_pos hpos]
    show ((d.adjust_balance _ _).adjust_balance _ _).get_balance a s = _
    rw [get_balance_adjust_balance, get_balance_adjust_balance, asset_neg_amount,
      asset_neg_asset_id]
    simp only [created_cheque, cheque_object.get_drawer]
    split_ifs <;> ring
  · rw [if_neg hpos]
    show (d.adjust_balance _ _).get_balance a s = _
    rw [get_balance_adjust_balance, asset_neg_amount, asset_neg_asset_id]
    have hz : op.payee_amount.amount * (op.payee_count : Int) = 0 := by
      simp only [created_cheque] at hpos
      omega
    simp only [hz]
    split_ifs <;> simp

/-- C4, witness: the amended round trip at the example database and operation. -/
theorem cheque_create_then_reverse_balance_witness :
    example_db.cheque_ids_below_next ∧
    (0 : Int) ≤ example_create.payee_amount.amount * (example_create.payee_count : Int) ∧
    ∀ a s, (cheque_create_then_reverse example_db example_create).get_balance a s
      = example_db.get_balance a s :=
  ⟨by intro c hc; simp [example_db] at hc, by decide,
    (cheque_create_then_reverse_balance example_db example_create
      (by intro c hc; simp [example_db] at hc) (by decide)).2.2⟩

/-- The scenario states written out by hand are those reached by running scenario 1:
create by A, use by B, use by C. -/
theorem scenario_run_eq :
    scenario_run.cheques = scenario_db.cheques ∧
    scenario_run.get_balance 1 0 = scenario_db.get_balance 1 0 ∧
    scenario_run.get_balance 2 0 = scenario_db.get_balance 2 0 ∧
    scenario_run.get_balance 3 0 = scenario_db.get_balance 3 0 ∧
    scenario_run.head_block_time = scenario_db.head_block_time := by
  refine ⟨by decide, by decide, by decide, by decide, by decide⟩

theorem used_cheque_run : (cheque_use_run scenario_run 4).cheques = used_db.cheques := by
  decide

theorem created_cheque_slots_well_formed (d : database) (op : cheque_create_operation) :
    (created_cheque d op).slots_well_formed := by
  intro item hitem
  simp only [created_cheque, List.mem_replicate] at hitem
  rw [hitem.2]
  simp

theorem fill_first_new_slot_well_formed (account_id head_block_time : Nat)
    (payees : List payee_item)
    (hwf : ∀ item ∈ payees, item.status ≠ cheque_status.cheque_undo ∧
      (item.status = cheque_status.cheque_new → item.payee = none)) :
    ∀ item ∈ fill_first_new_slot account_id head_block_time payees,
      item.status ≠ cheque_status.cheque_undo ∧
      (item.status = cheque_status.cheque_new → item.payee = none) := by
  induction payees with
  | nil => intro item hitem; cases hitem
  | cons x rest ih =>
    intro item hitem
    unfold fill_first_new_slot at hitem
    split_ifs at hitem with hx
    · rcases List.mem_cons.mp hitem with h | h
      · rw [h]; simp
      · exact hwf item (List.mem_cons_of_mem _ h)
    · rcases List.mem_cons.mp hitem with h | h
      · rw [h]; exact hwf x (List.mem_cons_self _ _)
      · exact ih (fun y hy => hwf y (List.mem_cons_of_mem _ hy)) item h

theorem process_payee_slots_well_formed (o : cheque_object) (account_id : Nat)
    (d : database) (hwf : o.slots_well_formed) :
    (o.process_payee account_id d).1.slots_well_formed := by
  unfold cheque_object.process_payee
  simp only []
  split_ifs
  · exact fill_first_new_slot_well_formed account_id d.head_block_time o.payees hwf
  · exact fill_first_new_slot_well_formed account_id d.head_block_time o.payees hwf
  · exact hwf

theorem reversed_slots_well_formed (drawer head_block_time : Nat) (o : cheque_object)
    (hwf : o.slots_well_formed) :
    ({ o with payees := o.payees.map (reversed_item drawer head_block_time) }
      : cheque_object).slots_well_formed := by
  intro item hitem
  simp only [List.mem_map] at hitem
  obtain ⟨old, hold, rfl⟩ := hitem
  unfold reversed_item
  split_ifs with h
  · simp
  · exact hwf old hold

/-- C5: after `cheque_reverse` is applied to a cheque of the index (in particular one
with status new) whose slots have status new or used, the cheque has status undo,
`amount_remaining = 0` and `datetime_used = head_block_time`; the payees array has the
same length; every slot has status used; a slot that had status new names the drawer
and has `datetime_used = head_block_time`; a slot that had status used is unchanged. -/
theorem cheque_reverse_apply_cheque (d : database) (ptr : Nat) (obj : cheque_object)
    (op : cheque_reverse_operation) (hfind : d.find_cheque ptr = some obj)
    (hwf : obj.slots_well_formed) :
    (cheque_reverse_evaluator.do_apply d (some ptr) op).2 = .ok () ∧
    ∃ obj2, (cheque_reverse_evaluator.do_apply d (some ptr) op).1.find_cheque ptr
        = some obj2 ∧
      obj2.status = cheque_status.cheque_undo ∧ obj2.amount_remaining = 0 ∧
      obj2.datetime_used = d.head_block_time ∧
      obj2.payees.length = obj.payees.length ∧
      (∀ item ∈ obj2.payees, item.status = cheque_status.cheque_used) ∧
      (∀ (i : Nat) (old : payee_item), obj.payees[i]? = some old →
        ∃ new, obj2.payees[i]? = some new ∧
          (old.status = cheque_status.cheque_new →
            new.payee = some obj.drawer ∧ new.datetime_used = d.head_block_time) ∧
          (old.status = cheque_status.cheque_used → new = old)) := by
  refine ⟨by rw [cheque_reverse_apply_eq d ptr obj op hfind], _,
    find_cheque_reverse_apply d ptr obj op hfind, rfl, rfl, rfl, by simp, ?_, ?_⟩
  · intro item hitem
    simp only [List.mem_map] at hitem
    obtain ⟨old, hold, rfl⟩ := hitem
    unfold reversed_item
    split_ifs with h
    · rfl
    · have := (hwf old hold).1
      cases hs : old.status <;> simp_all
  · intro i old hold
    refine ⟨reversed_item obj.drawer d.head_block_time old, by simp [hold], ?_, ?_⟩
    · intro h
      simp [reversed_item, h]
    · intro h
      simp [reversed_item, h]

/-- C5, witness: the reverse of the scenario cheque. -/
theorem cheque_reverse_apply_cheque_witness :
    scenario_db.find_cheque 0 = some scenario_cheque ∧
    scenario_cheque.slots_well_formed ∧
    (cheque_reverse_evaluator.do_apply scenario_db (some 0) { cheque_id := 0 }).2 = .ok () :=
  ⟨by rfl, by simp [cheque_object.slots_well_formed, scenario_cheque],
    (cheque_reverse_apply_cheque scenario_db 0 scenario_cheque { cheque_id := 0 } (by rfl)
      (by simp [cheque_object.slots_well_formed, scenario_cheque])).1⟩

/-- C6: `cheque_reverse` apply on a cheque of the index (in particular one with status
new) credits the drawer's balance in the cheque asset by exactly the cheque's
`amount_remaining` before the reverse when that is positive and by nothing otherwise,
and changes no other balance. On the scenario cheque (10 per payee, three slots, the
first two used by B and C, 10 remaining) the drawer receives 10, slot 2 names the drawer
and slots 0 and 1 keep B and C. -/
theorem cheque_reverse_apply_balances :
    (∀ (d : database) (ptr : Nat) (obj : cheque_object) (op : cheque_reverse_operation),
      d.find_cheque ptr = some obj →
      (cheque_reverse_evaluator.do_apply d (some ptr) op).1.get_balance obj.drawer obj.asset_id
        = d.get_balance obj.drawer obj.asset_id
          + (if obj.amount_remaining > 0 then obj.amount_remaining else 0) ∧
      ∀ a s, ¬ (a = obj.drawer ∧ s = obj.asset_id) →
        (cheque_reverse_evaluator.do_apply d (some ptr) op).1.get_balance a s
          = d.get_balance a s) ∧
    ((cheque_reverse_evaluator.do_evaluate scenario_db { cheque_id := 0 }).2 = .ok 0 ∧
      (cheque_reverse_evaluator.do_apply scenario_db (some 0) { cheque_id := 0 }).1.get_balance
          1 0 = scenario_db.get_balance 1 0 + 10 ∧
      ((cheque_reverse_evaluator.do_apply scenario_db (some 0)
          { cheque_id := 0 }).1.find_cheque 0).map (fun c => c.payees.map (fun i => i.payee))
        = some [some 2, some 3, some 1] ∧
      ((cheque_reverse_evaluator.do_apply scenario_db (some 0)
          { cheque_id := 0 }).1.find_cheque 0).map (fun c => c.status)
        = some cheque_status.cheque_undo) := by
  refine ⟨?_, by rfl, by decide, by rfl, by rfl⟩
  intro d ptr obj op hfind
  rw [cheque_reverse_apply_eq d ptr obj op hfind]
  constructor
  · show database.get_balance (if obj.amount_remaining > 0 then _ else _) _ _ = _
    split_ifs
    · rw [get_balance_adjust_balance]
      simp
    · simp
  · intro a s h
    show database.get_balance (if obj.amount_remaining > 0 then _ else _) _ _ = _
    split_ifs
    · rw [get_balance_adjust_balance, if_neg h]
    · rfl

/-- C7: for an existing account and a cheque found by code, with status new, whose
`amount_payee` and `asset_id` match the operation's amount and whose slots satisfy the
data-model invariant, `cheque_use` evaluation is rejected if and only if the redeemer
is the payee of a slot with status used; the rejection is the repeated-redeemer one,
and otherwise the evaluation succeeds. -/
theorem cheque_use_evaluate_repeated (d : database) (op : cheque_use_operation)
    (cheque : cheque_object)
    (hacc : ∃ a ∈ d.accounts, a.id = op.account_id)
    (hfind : d.find_cheque_by_code op.code = some cheque)
    (hstatus : cheque.status = cheque_status.cheque_new)
    (hamount : op.amount.amount = cheque.amount_payee)
    (hasset : op.amount.asset_id = cheque.asset_id)
    (hwf : cheque.slots_well_formed) :
    ((∃ e, (cheque_use_evaluator.do_evaluate d op).2 = .error e) ↔
      ∃ item ∈ cheque.payees,
        item.status = cheque_status.cheque_used ∧ item.payee = some op.account_id) ∧
    ((∃ item ∈ cheque.payees,
        item.status = cheque_status.cheque_used ∧ item.payee = some op.account_id) →
      (cheque_use_evaluator.do_evaluate d op).2 = .error .cheque_already_used_for_account) ∧
    ((¬ ∃ item ∈ cheque.payees,
        item.status = cheque_status.cheque_used ∧ item.payee = some op.account_id) →
      (cheque_use_evaluator.do_evaluate d op).2 = .ok cheque.id) := by
  have hsome : ¬ (d.find_account op.account_id).isNone = true := by
    have := (find_account_isSome d op.account_id).mpr hacc
    cases h : d.find_account op.account_id <;> simp_all
  have hall : cheque.payees.all (fun item => item.payee != some op.account_id) = true ↔
      ¬ ∃ item ∈ cheque.payees,
        item.status = cheque_status.cheque_used ∧ item.payee = some op.account_id := by
    simp only [List.all_eq_true, bne_iff_ne, ne_eq, not_exists, not_and]
    constructor
    · intro h item hitem _ hp
      exact h item hitem hp
    · intro h item hitem hp
      have hw := hwf item hitem
      refine h item hitem ?_ hp
      cases hs : item.status
      · have := hw.2 hs
        simp [this] at hp
      · rfl
      · exact absurd hs hw.1
  have hyes : (∃ item ∈ cheque.payees,
        item.status = cheque_status.cheque_used ∧ item.payee = some op.account_id) →
      (cheque_use_evaluator.do_evaluate d op).2 = .error .cheque_already_used_for_account := by
    intro h
    have hn : ¬ cheque.payees.all (fun item => item.payee != some op.account_id) = true :=
      fun hh => (hall.mp hh) h
    unfold cheque_use_evaluator.do_evaluate
    simp [hsome, hfind, cheque_object.get_cheque_status, hstatus, hamount, hasset, hn]
  have hno : (¬ ∃ item ∈ cheque.payees,
        item.status = cheque_status.cheque_used ∧ item.payee = some op.account_id) →
      (cheque_use_evaluator.do_evaluate d op).2 = .ok cheque.id := by
    intro h
    have hy := hall.mpr h
    unfold cheque_use_evaluator.do_evaluate
    simp [hsome, hfind, cheque_object.get_cheque_status, hstatus, hamount, hasset, hy]
  refine ⟨⟨?_, fun h => ⟨_, hyes h⟩⟩, hyes, hno⟩
  rintro ⟨e, he⟩
  by_contra hcon
  rw [hno hcon] at he
  cases he

/-- C7, witness: B (account 2) uses the scenario cheque a second time and is rejected. -/
theorem cheque_use_evaluate_repeated_witness :
    (cheque_use_evaluator.do_evaluate scenario_db repeated_use).2
      = .error .cheque_already_used_for_account :=
  (cheque_use_evaluate_repeated scenario_db repeated_use scenario_cheque
    ⟨⟨2, false⟩, by simp [scenario_db, example_db], rfl⟩ (by rfl) (by rfl) (by rfl) (by rfl)
    (by simp [cheque_object.slots_well_formed, scenario_cheque])).2.1
    ⟨⟨some 2, 1000, cheque_status.cheque_used⟩, by simp [scenario_cheque], rfl, rfl⟩

/-- C8: the cheque statuses used and undo are terminal. For a cheque whose status is
used or undo, `cheque_use` evaluation of every operation that finds it by code and
`cheque_reverse` evaluation of every operation that finds it by id fail, and the
database after the evaluation is the database before it. -/
theorem cheque_terminal_status (d : database) (cheque : cheque_object)
    (hstatus : cheque.status = cheque_status.cheque_used ∨
      cheque.status = cheque_status.cheque_undo) :
    (∀ op : cheque_use_operation, d.find_cheque_by_code op.code = some cheque →
      (∃ e, (cheque_use_evaluator.do_evaluate d op).2 = .error e) ∧
      (cheque_use_evaluator.do_evaluate d op).1 = d) ∧
    (∀ op : cheque_reverse_operation, d.find_cheque op.cheque_id = some cheque →
      (cheque_reverse_evaluator.do_evaluate d op).2 = .error .incorrect_status_for_reversing ∧
      (cheque_reverse_evaluator.do_evaluate d op).1 = d) := by
  have hne : ¬ cheque.status = cheque_status.cheque_new := by
    rcases hstatus with h | h <;> simp [h]
  constructor
  · intro op hfind
    unfold cheque_use_evaluator.do_evaluate
    by_cases hacc : (d.find_account op.account_id).isNone = true
    · simp [hacc]
    · simp [hacc, hfind, cheque_object.get_cheque_status, hne]
  · intro op hfind
    unfold cheque_reverse_evaluator.do_evaluate
    simp [hfind, hne]

/-- C8, witness: the fully used cheque can be neither used nor reversed. -/
theorem cheque_terminal_status_witness :
    (∃ e, (cheque_use_evaluator.do_evaluate used_db repeated_use).2 = .error e) ∧
    (cheque_reverse_evaluator.do_evaluate used_db { cheque_id := 0 }).2
      = .error .incorrect_status_for_reversing :=
  ⟨((cheque_terminal_status used_db used_cheque (Or.inl rfl)).1 repeated_use (by rfl)).1,
    ((cheque_terminal_status used_db used_cheque (Or.inl rfl)).2 { cheque_id := 0 }
      (by rfl)).1⟩

/-! ### Fund maintenance -/

theorem depositor_payments_submitted_append (l1 l2 : List (operation × Bool)) :
    depositor_payments_submitted (l1 ++ l2) =
      depositor_payments_submitted l1 + depositor_payments_submitted l2 := by
  simp [depositor_payments_submitted]

theorem try_apply_submitted (h : host) (st : process_state) (op : operation) :
    ∃ ok, (h.try_apply st op).submitted = st.submitted ++ [(op, ok)] ∧
      (h.try_apply st op).daily_payments_without_owner = st.daily_payments_without_owner ∧
      (h.try_apply st op).deps_to_remove = st.deps_to_remove := by
  unfold host.try_apply
  split_ifs
  · exact ⟨_, rfl, rfl, rfl⟩
  · exact ⟨false, rfl, rfl, rfl⟩

theorem counts_submitted_try_apply (h : host) (st : process_state) (op : operation)
    (hop : depositor_payment_amount op = 0) (hst : counts_submitted st) :
    counts_submitted (h.try_apply st op) := by
  obtain ⟨ok, hs, hd, -⟩ := try_apply_submitted h st op
  unfold counts_submitted at *
  rw [hs, hd, depositor_payments_submitted_append, hst]
  simp [depositor_payments_submitted, hop]

theorem pay_depositor_cases (h : host) (this : Nat) (asst : asset_object)
    (p_rate : Option payment_rate) (st : process_state) (dep : Nat) :
    fund_object.pay_depositor h this asst p_rate st dep = st ∨
    ∃ p : fund_payment_operation, p.deposit_id = some dep ∧
      fund_object.pay_depositor h this asst p_rate st dep =
        { h.try_apply st (.fund_payment p) with
          daily_payments_without_owner :=
            (h.try_apply st (.fund_payment p)).daily_payments_without_owner
              + p.asset_to_issue.amount } := by
  unfold fund_object.pay_depositor
  cases p_rate with
  | none => left; rfl
  | some rate =>
    simp only []
    split_ifs
    · right
      exact ⟨fund_object.payment_operation this asst st.db dep _, rfl, rfl⟩
    · left; rfl
    · left; rfl

theorem renew_deposit_cases (h : host) (p_rate : Option payment_rate) (st : process_state)
    (dep : Nat) :
    (deposit_autorenewed h st.db (st.db.get_deposit dep) = false ∧
      fund_object.renew_deposit h p_rate st dep = (st, true)) ∨
    (deposit_autorenewed h st.db (st.db.get_deposit dep) = true ∧
      ((∃ r : deposit_renewal_operation, r.deposit_id = dep ∧
          fund_object.renew_deposit h p_rate st dep
            = (h.try_apply st (.deposit_renewal r), false)) ∨
       (∃ f : fund_deposit_object → fund_deposit_object, (∀ x, (f x).id = x.id) ∧
          fund_object.renew_deposit h p_rate st dep
            = ({ st with db := st.db.modify_deposit dep f }, false)))) := by
  unfold fund_object.renew_deposit deposit_autorenewed
  by_cases h1 : st.db.head_block_time ≥ h.HARDFORK_624_TIME
  · cases hacc : st.db.find_account (st.db.get_deposit dep).account_id with
    | none => left; simp [h1]
    | some acc =>
      by_cases h2 : acc.deposits_autorenewal_enabled = true
      · right
        by_cases h3 : st.db.head_block_time > h.HARDFORK_625_TIME
        · refine ⟨by simp [h1, h2], Or.inl ⟨fund_object.renewal_operation p_rate st.db dep,
            rfl, ?_⟩⟩
          simp only [h1, h2, h3, if_true]
        · refine ⟨by simp [h1, h2], Or.inr ⟨fund_object.renew_in_place p_rate st.db, ?_, ?_⟩⟩
          · intro x
            cases p_rate <;> rfl
          · simp only [h1, h2, h3, if_true, if_false]
      · left
        simp [h1, h2]
  · left
    simp [h1]

theorem counts_submitted_pay_depositor (h : host) (this : Nat) (asst : asset_object)
    (p_rate : Option payment_rate) (st : process_state) (dep : Nat)
    (hst : counts_submitted st) :
    counts_submitted (fund_object.pay_depositor h this asst p_rate st dep) := by
  rcases pay_depositor_cases h this asst p_rate st dep with heq | ⟨p, hp, heq⟩
  · rw [heq]; exact hst
  · rw [heq]
    obtain ⟨ok, hs, hd, -⟩ := try_apply_submitted h st (.fund_payment p)
    unfold counts_submitted at *
    simp only [hs, hd, depositor_payments_submitted_append, hst]
    simp [depositor_payments_submitted, depositor_payment_amount, hp]

theorem counts_submitted_renew_deposit (h : host) (p_rate : Option payment_rate)
    (st : process_state) (dep : Nat) (hst : counts_submitted st) :
    counts_submitted (fund_object.renew_deposit h p_rate st dep).1 := by
  rcases renew_deposit_cases h p_rate st dep with ⟨-, heq⟩ | ⟨-, ⟨r, -, heq⟩ | ⟨f, -, heq⟩⟩
  · rw [heq]; exact hst
  · rw [heq]; exact counts_submitted_try_apply h st _ rfl hst
  · rw [heq]; exact hst

theorem counts_submitted_retire_deposit (h : host) (this : Nat) (asst : asset_object)
    (st : process_state) (dep : Nat) (hst : counts_submitted st) :
    counts_submitted (fund_object.retire_deposit h this asst st dep) := by
  unfold fund_object.retire_deposit
  exact counts_submitted_try_apply h { st with deps_to_remove := st.deps_to_remove ++ [dep] }
    _ rfl hst

theorem counts_submitted_process_deposit (h : host) (this : Nat) (asst : asset_object)
    (st : process_state) (dep : Nat) (hst : counts_submitted st) :
    counts_submitted (fund_object.process_deposit h this asst st dep) := by
  unfold fund_object.process_deposit
  simp only []
  have hpay := counts_submitted_pay_depositor h this asst
    ((st.db.get_fund this).get_payment_rate (st.db.get_deposit dep).period) st dep hst
  split_ifs
  · exact counts_submitted_retire_deposit h this asst _ dep
      (counts_submitted_renew_deposit h _ _ dep hpay)
  · exact counts_submitted_renew_deposit h _ _ dep hpay
  · exact hpay
  · exact hst

theorem counts_submitted_foldl (h : host) (this : Nat) (asst : asset_object)
    (range : List Nat) (st : process_state) (hst : counts_submitted st) :
    counts_submitted (range.foldl (fund_object.process_deposit h this asst) st) := by
  induction range generalizing st with
  | nil => exact hst
  | cons dep rest ih =>
    exact ih _ (counts_submitted_process_deposit h this asst st dep hst)

theorem pay_owner_cases (h : host) (this : Nat) (asst : asset_object)
    (old_balance : Int) (h_item : history_item) (st : process_state) :
    (fund_object.pay_owner h this asst old_balance h_item st).1 = st ∨
    ∃ p : fund_payment_operation, p.deposit_id = none ∧
      p.issue_to_account = (st.db.get_fund this).owner ∧
      (fund_object.pay_owner h this asst old_balance h_item st).1
        = h.try_apply st (.fund_payment p) := by
  unfold fund_object.pay_owner
  by_cases h1 : (st.db.get_fund this).fixed_percent_on_deposits > 0
  · simp only [h1, if_true]
    split_ifs
    · right; exact ⟨_, rfl, rfl, rfl⟩
    · left; rfl
  · simp only [h1, if_false]
    cases (st.db.get_fund this).get_max_fund_rate old_balance with
    | none => left; rfl
    | some p_rate =>
      simp only []
      split_ifs
      · right; exact ⟨_, rfl, rfl, rfl⟩
      · left; rfl
      · left; rfl

theorem counts_submitted_pay_owner (h : host) (this : Nat) (asst : asset_object)
    (old_balance : Int) (h_item : history_item) (st : process_state)
    (hst : counts_submitted st) :
    counts_submitted (fund_object.pay_owner h this asst old_balance h_item st).1 := by
  rcases pay_owner_cases h this asst old_balance h_item st with heq | ⟨p, hp, -, heq⟩
  · rw [heq]; exact hst
  · rw [heq]
    refine counts_submitted_try_apply h st _ ?_ hst
    simp [depositor_payment_amount, hp]

theorem find?_map_update {α : Type} (key : α → Nat) (l : List α) (g : α → α)
    (hg : ∀ x, key (g x) = key x) (k : Nat) :
    (l.map g).find? (fun x => key x == k) = (l.find? (fun x => key x == k)).map g := by
  rw [List.find?_map]
  congr 2
  funext x
  simp [hg]

theorem find_fund_modify_fund (d : database) (id k : Nat) (f : fund_object → fund_object)
    (hf : ∀ x, (f x).id = x.id) :
    (d.modify_fund id f).find_fund k =
      (d.find_fund k).map (fun x => if x.id = id then f x else x) := by
  unfold database.modify_fund database.find_fund
  refine find?_map_update (fun x => x.id) d.funds _ ?_ k
  intro x
  by_cases h : x.id = id <;> simp [h, hf]

theorem find_deposit_modify_deposit (d : database) (id k : Nat)
    (f : fund_deposit_object → fund_deposit_object) (hf : ∀ x, (f x).id = x.id) :
    (d.modify_deposit id f).find_deposit k =
      (d.find_deposit k).map (fun x => if x.id = id then f x else x) := by
  unfold database.modify_deposit database.find_deposit
  refine find?_map_update (fun x => x.id) d.fund_deposits _ ?_ k
  intro x
  by_cases h : x.id = id <;> simp [h, hf]

theorem find_fund_history_modify_fund_history (d : database) (id k : Nat)
    (f : fund_history_object → fund_history_object) (hf : ∀ x, (f x).id = x.id) :
    (d.modify_fund_history id f).find_fund_history k =
      (d.find_fund_history k).map (fun x => if x.id = id then f x else x) := by
  unfold database.modify_fund_history database.find_fund_history
  refine find?_map_update (fun x => x.id) d.fund_histories _ ?_ k
  intro x
  by_cases h : x.id = id <;> simp [h, hf]

theorem find_deposit_id (d : database) (k : Nat) (x : fund_deposit_object)
    (h : d.find_deposit k = some x) : x.id = k := by
  have := List.find?_some h
  simpa using this

theorem find_fund_id (d : database) (k : Nat) (x : fund_object)
    (h : d.find_fund k = some x) : x.id = k := by
  have := List.find?_some h
  simpa using this

theorem find_deposit_modify_deposit_of_ne (d : database) (id k : Nat)
    (f : fund_deposit_object → fund_deposit_object) (hf : ∀ x, (f x).id = x.id)
    (hk : k ≠ id) :
    (d.modify_deposit id f).find_deposit k = d.find_deposit k := by
  rw [find_deposit_modify_deposit d id k f hf]
  cases hx : d.find_deposit k with
  | none => rfl
  | some x =>
    have := find_deposit_id d k x hx
    simp [this, hk]

theorem find_deposit_modify_deposit_self (d : database) (id : Nat)
    (f : fund_deposit_object → fund_deposit_object) (hf : ∀ x, (f x).id = x.id) :
    (d.modify_deposit id f).find_deposit id = (d.find_deposit id).map f := by
  rw [find_deposit_modify_deposit d id id f hf]
  cases hx : d.find_deposit id with
  | none => rfl
  | some x =>
    have := find_deposit_id d id x hx
    simp [this]

theorem find_deposit_remove_deposit (d : database) (id k : Nat) :
    (d.remove_deposit id).find_deposit k = if k = id then none else d.find_deposit k := by
  unfold database.remove_deposit database.find_deposit
  simp only []
  induction d.fund_deposits with
  | nil => simp
  | cons x rest ih =>
    by_cases hx : x.id = id
    · have hfil : List.filter (fun x => x.id != id) (x :: rest)
          = List.filter (fun x => x.id != id) rest := by
        simp [List.filter_cons, hx]
      rw [hfil, ih]
      by_cases hk : k = id
      · simp [hk]
      · have : ¬ x.id = k := by omega
        simp [hk, List.find?_cons, this]
    · have hfil : List.filter (fun x => x.id != id) (x :: rest)
          = x :: List.filter (fun x => x.id != id) rest := by
        simp [List.filter_cons, hx]
      rw [hfil, List.find?_cons, List.find?_cons, ih]
      by_cases hxk : x.id = k
      · have hne : ¬ k = id := by omega
        have hb : (x.id == k) = true := by simp [hxk]
        simp only [hb, hne, if_false]
      · have hb : (x.id == k) = false := by simp [hxk]
        simp only [hb]

theorem debit_fund_id (this : Nat) (amount : Int) (f : fund_object) :
    (debit_fund this amount f).id = f.id := by
  unfold debit_fund
  split_ifs <;> rfl

theorem debit_fund_zero (this : Nat) (f : fund_object) : debit_fund this 0 f = f := by
  unfold debit_fund
  split_ifs
  · simp
  · rfl

theorem debit_fund_debit_fund (this : Nat) (a b : Int) (f : fund_object) :
    debit_fund this b (debit_fund this a f) = debit_fund this (a + b) f := by
  unfold debit_fund
  by_cases h : f.id = this
  · simp [h]
    ring
  · simp [h]

theorem same_chain_refl (d : database) : d.same_chain d :=
  ⟨rfl, rfl, rfl, rfl, fun _ => rfl, fun _ => rfl⟩

theorem same_chain_trans {d1 d2 d3 : database} (h12 : d1.same_chain d2)
    (h23 : d2.same_chain d3) : d1.same_chain d3 :=
  ⟨h23.head_block_time.trans h12.head_block_time,
   h23.next_maintenance_time.trans h12.next_maintenance_time,
   h23.maintenance_interval.trans h12.maintenance_interval,
   h23.history_size.trans h12.history_size,
   fun k => (h23.accounts k).trans (h12.accounts k),
   fun k => (h23.histories k).trans (h12.histories k)⟩

theorem agrees_refl (r : Option Nat) (d : database) : database.agrees r d d :=
  ⟨same_chain_refl d, fun _ => rfl, fun _ _ => rfl⟩

theorem try_apply_agrees (h : host) (hframe : h.keeps_fund_data) (st : process_state)
    (op : operation) : database.agrees op.renewed_deposit st.db (h.try_apply st op).db := by
  unfold host.try_apply
  split_ifs
  · exact hframe st.db op
  · exact agrees_refl _ _

theorem deposit_retired_same_chain (h : host) {d1 d2 : database} (hc : d1.same_chain d2)
    (x : fund_deposit_object) : deposit_retired h d2 x = deposit_retired h d1 x := by
  unfold deposit_retired deposit_overdue deposit_autorenewed
  rw [hc.head_block_time, hc.next_maintenance_time, hc.maintenance_interval, hc.accounts]

theorem get_deposit_of_find (d : database) (k : Nat) (x : fund_deposit_object)
    (h : d.find_deposit k = some x) : d.get_deposit k = x := by
  simp [database.get_deposit, h]

theorem try_apply_deps_to_remove (h : host) (st : process_state) (op : operation) :
    (h.try_apply st op).deps_to_remove = st.deps_to_remove := by
  obtain ⟨_, -, -, hd⟩ := try_apply_submitted h st op
  exact hd

theorem pay_depositor_agrees (h : host) (hframe : h.keeps_fund_data) (this : Nat)
    (asst : asset_object) (p_rate : Option payment_rate) (st : process_state) (dep : Nat) :
    database.agrees none st.db (fund_object.pay_depositor h this asst p_rate st dep).db ∧
    (fund_object.pay_depositor h this asst p_rate st dep).deps_to_remove
      = st.deps_to_remove := by
  rcases pay_depositor_cases h this asst p_rate st dep with heq | ⟨p, -, heq⟩
  · rw [heq]
    exact ⟨agrees_refl _ _, rfl⟩
  · rw [heq]
    exact ⟨try_apply_agrees h hframe st (.fund_payment p), try_apply_deps_to_remove h st _⟩

theorem renew_deposit_agrees (h : host) (hframe : h.keeps_fund_data)
    (p_rate : Option payment_rate) (st : process_state) (dep : Nat) :
    database.agrees (some dep) st.db (fund_object.renew_deposit h p_rate st dep).1.db ∧
    (fund_object.renew_deposit h p_rate st dep).1.deps_to_remove = st.deps_to_remove ∧
    (fund_object.renew_deposit h p_rate st dep).2
      = !deposit_autorenewed h st.db (st.db.get_deposit dep) ∧
    ((fund_object.renew_deposit h p_rate st dep).2 = true →
      (fund_object.renew_deposit h p_rate st dep).1 = st) := by
  rcases renew_deposit_cases h p_rate st dep with
    ⟨ha, heq⟩ | ⟨ha, ⟨r, hr, heq⟩ | ⟨f, hf, heq⟩⟩
  · rw [heq, ha]
    exact ⟨agrees_refl _ _, rfl, rfl, fun _ => rfl⟩
  · rw [heq, ha]
    refine ⟨?_, try_apply_deps_to_remove h st _, rfl, fun hh => by cases hh⟩
    have := try_apply_agrees h hframe st (.deposit_renewal r)
    simpa [operation.renewed_deposit, hr] using this
  · rw [heq, ha]
    refine ⟨⟨⟨rfl, rfl, rfl, rfl, fun _ => rfl, fun _ => rfl⟩, fun _ => rfl, ?_⟩, rfl, rfl,
      fun hh => by cases hh⟩
    intro k hk
    exact find_deposit_modify_deposit_of_ne st.db dep k f hf
      (fun hkd => hk (by rw [hkd]))

theorem retire_deposit_spec (h : host) (hframe : h.keeps_fund_data) (this : Nat)
    (asst : asset_object) (st : process_state) (dep : Nat) (x : fund_deposit_object)
    (hx : st.db.find_deposit dep = some x) :
    st.db.same_chain (fund_object.retire_deposit h this asst st dep).db ∧
    (∀ j, j ≠ dep → (fund_object.retire_deposit h this asst st dep).db.find_deposit j
      = st.db.find_deposit j) ∧
    (∀ j, (fund_object.retire_deposit h this asst st dep).db.find_fund j
      = (st.db.find_fund j).map (debit_fund this x.amount)) ∧
    (fund_object.retire_deposit h this asst st dep).db.find_deposit dep
      = some { x with enabled := false } ∧
    (fund_object.retire_deposit h this asst st dep).deps_to_remove
      = st.deps_to_remove ++ [dep] := by
  unfold fund_object.retire_deposit
  simp only []
  have hag := try_apply_agrees h hframe { st with deps_to_remove := st.deps_to_remove ++ [dep] }
    (.fund_withdrawal (fund_object.withdrawal_operation this asst st.db dep))
  have hdep := try_apply_deps_to_remove h
    { st with deps_to_remove := st.deps_to_remove ++ [dep] }
    (.fund_withdrawal (fund_object.withdrawal_operation this asst st.db dep))
  generalize h.try_apply { st with deps_to_remove := st.deps_to_remove ++ [dep] }
    (.fund_withdrawal (fund_object.withdrawal_operation this asst st.db dep)) = st2 at hag hdep
  simp only [] at hag hdep
  have hx2 : st2.db.find_deposit dep = some x := by
    rw [hag.deposits dep (by simp [operation.renewed_deposit]), hx]
  have hget : st2.db.get_deposit dep = x := get_deposit_of_find _ _ _ hx2
  refine ⟨?_, ?_, ?_, ?_, hdep⟩
  · exact ⟨hag.chain.head_block_time, hag.chain.next_maintenance_time,
      hag.chain.maintenance_interval, hag.chain.history_size, hag.chain.accounts,
      hag.chain.histories⟩
  · intro j hj
    rw [find_deposit_modify_deposit_of_ne _ dep j _ (by intro _; rfl) hj]
    exact hag.deposits j (by simp [operation.renewed_deposit])
  · intro j
    show (st2.db.modify_fund this _).find_fund j = _
    rw [find_fund_modify_fund _ this j _ (by intro _; rfl), hag.funds j, hget]
    rfl
  · rw [find_deposit_modify_deposit_self _ dep _ (by intro _; rfl)]
    show Option.map _ (st2.db.find_deposit dep) = _
    rw [hx2]
    rfl

theorem deposit_autorenewed_same_chain (h : host) {d1 d2 : database} (hc : d1.same_chain d2)
    (x : fund_deposit_object) : deposit_autorenewed h d2 x = deposit_autorenewed h d1 x := by
  unfold deposit_autorenewed
  rw [hc.head_block_time, hc.accounts]

theorem process_deposit_step (h : host) (hframe : h.keeps_fund_data) (this : Nat)
    (asst : asset_object) (st : process_state) (k : Nat) (x : fund_deposit_object)
    (hx : st.db.find_deposit k = some x) :
    st.db.same_chain (fund_object.process_deposit h this asst st k).db ∧
    (∀ j, j ≠ k → (fund_object.process_deposit h this asst st k).db.find_deposit j
      = st.db.find_deposit j) ∧
    (deposit_retired h st.db x = true →
      (∀ j, (fund_object.process_deposit h this asst st k).db.find_fund j
        = (st.db.find_fund j).map (debit_fund this x.amount)) ∧
      (fund_object.process_deposit h this asst st k).db.find_deposit k
        = some { x with enabled := false } ∧
      (fund_object.process_deposit h this asst st k).deps_to_remove
        = st.deps_to_remove ++ [k]) ∧
    (deposit_retired h st.db x = false →
      (∀ j, (fund_object.process_deposit h this asst st k).db.find_fund j
        = st.db.find_fund j) ∧
      (fund_object.process_deposit h this asst st k).deps_to_remove = st.deps_to_remove) := by
  have hget : st.db.get_deposit k = x := get_deposit_of_find _ _ _ hx
  unfold fund_object.process_deposit
  simp only [hget]
  by_cases hen : x.enabled = true
  · simp only [hen, if_true]
    obtain ⟨hpay, hpaydeps⟩ := pay_depositor_agrees h hframe this asst
      ((st.db.get_fund this).get_payment_rate x.period) st k
    generalize fund_object.pay_depositor h this asst
      ((st.db.get_fund this).get_payment_rate x.period) st k = st1 at hpay hpaydeps ⊢
    have hx1 : st1.db.find_deposit k = some x := by
      rw [hpay.deposits k (by simp), hx]
    have hget1 : st1.db.get_deposit k = x := get_deposit_of_find _ _ _ hx1
    simp only [hget1]
    by_cases hov : time_point_sec_sub st1.db.next_maintenance_time st1.db.maintenance_interval
        ≥ x.datetime_end
    · simp only [hov, if_true]
      have hov0 : deposit_overdue st.db x = true := by
        unfold deposit_overdue
        rw [← hpay.chain.next_maintenance_time, ← hpay.chain.maintenance_interval]
        simpa using hov
      obtain ⟨hren, hrendeps, hflag, hsame⟩ := renew_deposit_agrees h hframe
        ((st.db.get_fund this).get_payment_rate x.period) st1 k
      rw [hget1, deposit_autorenewed_same_chain h hpay.chain x] at hflag
      by_cases hauto : deposit_autorenewed h st.db x = true
      · have hr2 : (fund_object.renew_deposit h
            ((st.db.get_fund this).get_payment_rate x.period) st1 k).2 = false := by
          rw [hflag, hauto]; rfl
        simp only [hr2, Bool.false_eq_true, if_false]
        have hnot : deposit_retired h st.db x = false := by
          simp [deposit_retired, hauto]
        refine ⟨same_chain_trans hpay.chain hren.chain, ?_, ?_, ?_⟩
        · intro j hj
          rw [hren.deposits j (by simpa using fun hh => hj hh.symm),
            hpay.deposits j (by simp)]
        · intro hh
          rw [hnot] at hh
          cases hh
        · intro _
          refine ⟨fun j => ?_, hrendeps.trans hpaydeps⟩
          rw [hren.funds j, hpay.funds j]
      · have hauto2 : deposit_autorenewed h st.db x = false := by
          cases hb : deposit_autorenewed h st.db x
          · rfl
          · exact absurd hb hauto
        have hr2 : (fund_object.renew_deposit h
            ((st.db.get_fund this).get_payment_rate x.period) st1 k).2 = true := by
          rw [hflag, hauto2]; rfl
        rw [hsame hr2]
        simp only [hr2, if_true]
        have hyes : deposit_retired h st.db x = true := by
          simp [deposit_retired, hauto2, hen, hov0]
        obtain ⟨hc, hdeps, hfunds, hself, hrem⟩ :=
          retire_deposit_spec h hframe this asst st1 k x hx1
        refine ⟨same_chain_trans hpay.chain hc, ?_, ?_, ?_⟩
        · intro j hj
          rw [hdeps j hj, hpay.deposits j (by simp)]
        · intro _
          refine ⟨fun j => ?_, hself, ?_⟩
          · rw [hfunds j, hpay.funds j]
          · rw [hrem, hpaydeps]
        · intro hh
          rw [hyes] at hh
          cases hh
    · simp only [hov, if_false]
      have hnot : deposit_retired h st.db x = false := by
        have hov0 : deposit_overdue st.db x = false := by
          unfold deposit_overdue
          rw [← hpay.chain.next_maintenance_time, ← hpay.chain.maintenance_interval]
          simpa using hov
        simp [deposit_retired, hov0]
      refine ⟨hpay.chain, ?_, ?_, ?_⟩
      · intro j _
        exact hpay.deposits j (by simp)
      · intro hh
        rw [hnot] at hh
        cases hh
      · intro _
        exact ⟨hpay.funds, hpaydeps⟩
  · have hen2 : x.enabled = false := by
      cases hb : x.enabled
      · rfl
      · exact absurd hb hen
    rw [if_neg hen]
    have hnot : deposit_retired h st.db x = false := by
      simp [deposit_retired, hen2]
    refine ⟨same_chain_refl _, fun _ _ => rfl, ?_, fun _ => ⟨fun _ => rfl, rfl⟩⟩
    intro hh
    rw [hnot] at hh
    cases hh

theorem retired_sum_append_singleton (h : host) (d : database)
    (done : List fund_deposit_object) (x : fund_deposit_object) :
    retired_sum h d (done ++ [x]) =
      retired_sum h d done + (if deposit_retired h d x = true then x.amount else 0) := by
  unfold retired_sum
  rw [List.filter_append, List.map_append, List.sum_append]
  by_cases hx : deposit_retired h d x = true
  · simp [List.filter_cons, hx]
  · simp [List.filter_cons, hx]

theorem deposits_loop_inv_step (h : host) (hframe : h.keeps_fund_data) (this : Nat)
    (asst : asset_object) (d0 : database) (done : List fund_deposit_object)
    (st : process_state) (x : fund_deposit_object)
    (hinv : deposits_loop_inv h this d0 done st)
    (hnew : ∀ y ∈ done, y.id ≠ x.id)
    (hfind : d0.find_deposit x.id = some x) :
    deposits_loop_inv h this d0 (done ++ [x])
      (fund_object.process_deposit h this asst st x.id) := by
  have hx : st.db.find_deposit x.id = some x := by
    rw [hinv.pending x.id hnew, hfind]
  obtain ⟨hc, hdeps, hyes, hno⟩ := process_deposit_step h hframe this asst st x.id x hx
  rw [deposit_retired_same_chain h hinv.chain x] at hyes hno
  refine ⟨same_chain_trans hinv.chain hc, ?_, ?_, ?_, ?_⟩
  · intro j
    rw [retired_sum_append_singleton]
    by_cases hr : deposit_retired h d0 x = true
    · rw [(hyes hr).1 j, hinv.funds j, if_pos hr, Option.map_map]
      congr 1
      funext f
      exact debit_fund_debit_fund this _ _ f
    · have hr2 : deposit_retired h d0 x = false := by
        cases hb : deposit_retired h d0 x
        · rfl
        · exact absurd hb hr
      rw [(hno hr2).1 j, hinv.funds j, if_neg hr, add_zero]
  · intro k hk
    have hkx : k ≠ x.id := fun hh => hk x (by simp) hh.symm
    rw [hdeps k hkx]
    exact hinv.pending k (fun y hy => hk y (by simp [hy]))
  · intro y hy hr
    rcases List.mem_append.mp hy with hy | hy
    · rw [hdeps y.id (hnew y hy)]
      exact hinv.retired y hy hr
    · have : y = x := by simpa using hy
      subst this
      exact (hyes hr).2.1
  · rw [List.filter_append, List.map_append, ← hinv.to_remove]
    by_cases hr : deposit_retired h d0 x = true
    · rw [(hyes hr).2.2]
      simp [List.filter_cons, hr]
    · have hr2 : deposit_retired h d0 x = false := by
        cases hb : deposit_retired h d0 x
        · rfl
        · exact absurd hb hr
      rw [(hno hr2).2]
      simp [List.filter_cons, hr]

theorem deposits_loop_inv_foldl (h : host) (hframe : h.keeps_fund_data) (this : Nat)
    (asst : asset_object) (d0 : database) (todo done : List fund_deposit_object)
    (st : process_state)
    (hinv : deposits_loop_inv h this d0 done st)
    (hnodup : ((done ++ todo).map (fun x => x.id)).Nodup)
    (hfind : ∀ x ∈ todo, d0.find_deposit x.id = some x) :
    deposits_loop_inv h this d0 (done ++ todo)
      ((todo.map (fun x => x.id)).foldl (fund_object.process_deposit h this asst) st) := by
  induction todo generalizing done st with
  | nil => simpa using hinv
  | cons x rest ih =>
    have hnew : ∀ y ∈ done, y.id ≠ x.id := by
      intro y hy hyx
      rw [List.map_append, List.nodup_append] at hnodup
      exact hnodup.2.2 (List.mem_map.mpr ⟨y, hy, rfl⟩)
        (List.mem_map.mpr ⟨x, by simp, hyx.symm⟩)
    have hstep := deposits_loop_inv_step h hframe this asst d0 done st x hinv hnew
      (hfind x (by simp))
    have := ih (done ++ [x]) _ hstep (by simpa using hnodup)
      (fun y hy => hfind y (by simp [hy]))
    simpa using this

theorem find?_id_of_mem (l : List fund_deposit_object) (x : fund_deposit_object)
    (hnodup : (l.map (fun x => x.id)).Nodup) (hx : x ∈ l) :
    l.find? (fun y => y.id == x.id) = some x := by
  induction l with
  | nil => cases hx
  | cons y rest ih =>
    rw [List.map_cons, List.nodup_cons] at hnodup
    rcases List.mem_cons.mp hx with hxy | hxr
    · subst hxy
      simp
    · have hne : ¬ y.id = x.id := by
        intro hh
        exact hnodup.1 (List.mem_map.mpr ⟨x, hxr, hh.symm⟩)
      rw [List.find?_cons]
      have hb : (y.id == x.id) = false := by simp [hne]
      simp only [hb]
      exact ih hnodup.2 hxr

theorem find_deposit_of_mem (d : database) (x : fund_deposit_object)
    (hnodup : (d.fund_deposits.map (fun x => x.id)).Nodup) (hx : x ∈ d.fund_deposits) :
    d.find_deposit x.id = some x :=
  find?_id_of_mem d.fund_deposits x hnodup hx

theorem pay_owner_agrees (h : host) (hframe : h.keeps_fund_data) (this : Nat)
    (asst : asset_object) (old_balance : Int) (h_item : history_item) (st : process_state) :
    database.agrees none st.db (fund_object.pay_owner h this asst old_balance h_item st).1.db ∧
    (fund_object.pay_owner h this asst old_balance h_item st).1.deps_to_remove
      = st.deps_to_remove := by
  rcases pay_owner_cases h this asst old_balance h_item st with heq | ⟨p, -, -, heq⟩
  · rw [heq]
    exact ⟨agrees_refl _ _, rfl⟩
  · rw [heq]
    exact ⟨try_apply_agrees h hframe st (.fund_payment p), try_apply_deps_to_remove h st _⟩

theorem foldl_remove_deposit_frame (ids : List Nat) (d : database) :
    (ids.foldl (fun db obj_id => db.remove_deposit obj_id) d).funds = d.funds ∧
    (ids.foldl (fun db obj_id => db.remove_deposit obj_id) d).fund_histories
      = d.fund_histories ∧
    (ids.foldl (fun db obj_id => db.remove_deposit obj_id) d).history_size = d.history_size ∧
    (ids.foldl (fun db obj_id => db.remove_deposit obj_id) d).head_block_time
      = d.head_block_time ∧
    ∀ k, (ids.foldl (fun db obj_id => db.remove_deposit obj_id) d).find_deposit k
      = if k ∈ ids then none else d.find_deposit k := by
  induction ids generalizing d with
  | nil => simp
  | cons id rest ih =>
    obtain ⟨h1, h2, h3, h4, h5⟩ := ih (d.remove_deposit id)
    refine ⟨h1, h2, h3, h4, ?_⟩
    intro k
    rw [List.foldl_cons, h5 k, find_deposit_remove_deposit]
    by_cases hk : k = id
    · simp [hk]
    · by_cases hr : k ∈ rest
      · simp [hr]
      · simp [hk, hr]

theorem erase_overdue_deposits_spec (st : process_state) :
    (fund_object.erase_overdue_deposits st).funds = st.db.funds ∧
    (fund_object.erase_overdue_deposits st).fund_histories = st.db.fund_histories ∧
    (fund_object.erase_overdue_deposits st).history_size = st.db.history_size ∧
    (fund_object.erase_overdue_deposits st).head_block_time = st.db.head_block_time ∧
    ∀ k, (fund_object.erase_overdue_deposits st).find_deposit k
      = if st.db.history_size > 0 ∧ k ∈ st.deps_to_remove then none
        else st.db.find_deposit k := by
  unfold fund_object.erase_overdue_deposits
  by_cases hs : st.db.history_size > 0
  · rw [if_pos hs]
    obtain ⟨h1, h2, h3, h4, h5⟩ := foldl_remove_deposit_frame st.deps_to_remove st.db
    refine ⟨h1, h2, h3, h4, ?_⟩
    intro k
    rw [h5 k]
    simp [hs]
  · rw [if_neg hs]
    refine ⟨rfl, rfl, rfl, rfl, ?_⟩
    intro k
    simp [hs]

theorem deposits_loop_inv_process_deposits (h : host) (hframe : h.keeps_fund_data)
    (d : database) (this : Nat) (asst : asset_object) (st0 : process_state)
    (hdb : st0.db = d) (hrem : st0.deps_to_remove = [])
    (hnodup : (d.fund_deposits.map (fun x => x.id)).Nodup) :
    deposits_loop_inv h this d (d.fund_deposits.filter (fun dep => dep.fund_id == this))
      (fund_object.process_deposits h d this asst st0) := by
  unfold fund_object.process_deposits
  have hinv0 : deposits_loop_inv h this d [] st0 := by
    refine ⟨by rw [hdb]; exact same_chain_refl d, ?_, ?_, ?_, ?_⟩
    · intro j
      rw [hdb]
      cases d.find_fund j with
      | none => rfl
      | some f => simp [retired_sum, debit_fund_zero]
    · intro k _
      rw [hdb]
    · intro x hx
      cases hx
    · rw [hrem]; rfl
  have hsub : (d.fund_deposits.filter (fun dep => dep.fund_id == this)).Sublist
      d.fund_deposits := List.filter_sublist _
  have := deposits_loop_inv_foldl h hframe this asst d
    (d.fund_deposits.filter (fun dep => dep.fund_id == this)) [] st0 hinv0
    (by
      rw [List.nil_append]
      exact List.Nodup.sublist (List.Sublist.map _ hsub) hnodup)
    (fun x hx => find_deposit_of_mem d x hnodup (List.mem_of_mem_filter hx))
  simpa using this

theorem get_fund_of_find (d : database) (k : Nat) (f : fund_object)
    (h : d.find_fund k = some f) : d.get_fund k = f := by
  simp [database.get_fund, h]

/-- C9: in a maintenance cycle of a fund whose asset and history object exist, in a
database whose deposit ids are distinct, with sub-operations that leave the data of the
routine in place (so do not touch `fund.balance`), `process` returns; the fund balance
after the cycle is the balance before it minus the sum of `dep.amount` over exactly the
deposits of the fund that are retired (enabled, overdue and not autorenewed), whatever
the validation and application of the `fund_withdrawal` sub-operations gave, and the
fund object is unchanged otherwise. Each retired deposit has `enabled = false` when the
loop over the deposits ends, and no deposit object of its id is enabled when the cycle
ends: it is in the index with `enabled = false` on a node with `history_size = 0`, and
was erased from the index by the deferred deletion otherwise. -/
theorem fund_process_balance (h : host) (d : database) (this : Nat) (self : fund_object)
    (asst : asset_object) (hist : fund_history_object)
    (hframe : h.keeps_fund_data)
    (hself : d.find_fund this = some self)
    (hasst : d.find_asset self.asset_id = some asst)
    (hhist : d.find_fund_history self.history_id = some hist)
    (hnodup : (d.fund_deposits.map (fun x => x.id)).Nodup) :
    ∃ st, fund_object.process h d this = some st ∧
      st.db.find_fund this = some { self with
        balance := self.balance
          - retired_sum h d (d.fund_deposits.filter (fun dep => dep.fund_id == this)) } ∧
      (∀ x ∈ d.fund_deposits, x.fund_id = this → deposit_retired h d x = true →
        (fund_object.process_deposits h d this asst
          { db := d, daily_payments_without_owner := 0, deps_to_remove := [],
            submitted := [] }).db.find_deposit x.id = some { x with enabled := false } ∧
        (∀ y, st.db.find_deposit x.id = some y → y.enabled = false) ∧
        st.db.find_deposit x.id =
          if d.history_size > 0 then none else some { x with enabled := false }) ∧
      st.deps_to_remove =
        ((d.fund_deposits.filter (fun dep => dep.fund_id == this)).filter
          (deposit_retired h d)).map (fun x => x.id) := by
  have hget : d.get_fund this = self := get_fund_of_find d this self hself
  have hid : self.id = this := find_fund_id d this self hself
  unfold fund_object.process
  simp only [hget, hasst]
  have hinv := deposits_loop_inv_process_deposits h hframe d this asst
    { db := d, daily_payments_without_owner := 0, deps_to_remove := [], submitted := [] }
    rfl rfl hnodup
  generalize fund_object.process_deposits h d this asst
    { db := d, daily_payments_without_owner := 0, deps_to_remove := [], submitted := [] }
    = st1 at hinv ⊢
  obtain ⟨hown, howndeps⟩ := pay_owner_agrees h hframe this asst self.balance
    { create_datetime := d.head_block_time, daily_profit := 0,
      daily_payments_without_owner := 0 } st1
  generalize fund_object.pay_owner h this asst self.balance
    { create_datetime := d.head_block_time, daily_profit := 0,
      daily_payments_without_owner := 0 } st1 = paid at hown howndeps ⊢
  obtain ⟨hef, heh, hes, -, hed⟩ := erase_overdue_deposits_spec paid.1
  have hfund2 : paid.1.db.find_fund this = some { self with
      balance := self.balance
        - retired_sum h d (d.fund_deposits.filter (fun dep => dep.fund_id == this)) } := by
    rw [hown.funds this, hinv.funds this, hself]
    simp [debit_fund, hid]
  have hfund3 : (fund_object.erase_overdue_deposits paid.1).find_fund this = some { self with
      balance := self.balance
        - retired_sum h d (d.fund_deposits.filter (fun dep => dep.fund_id == this)) } := by
    rw [← hfund2]
    unfold database.find_fund
    rw [hef]
  have hhist3 : (fund_object.erase_overdue_deposits paid.1).find_fund_history self.history_id
      = some hist := by
    have : (fund_object.erase_overdue_deposits paid.1).find_fund_history self.history_id
        = paid.1.db.find_fund_history self.history_id := by
      unfold database.find_fund_history
      rw [heh]
    rw [this, hown.chain.histories, hinv.chain.histories, hhist]
  rw [get_fund_of_find _ _ _ hfund3]
  simp only [hhist3]
  refine ⟨_, rfl, hfund3, ?_, ?_⟩
  · intro x hx hxf hr
    have hmem : x ∈ d.fund_deposits.filter (fun dep => dep.fund_id == this) := by
      simp [List.mem_filter, hx, hxf]
    have hrem : x.id ∈ paid.1.deps_to_remove := by
      rw [howndeps, hinv.to_remove]
      exact List.mem_map.mpr ⟨x, by simp [List.mem_filter, hx, hxf, hr], rfl⟩
    have hsize : paid.1.db.history_size = d.history_size := by
      rw [hown.chain.history_size, hinv.chain.history_size]
    have hend : (fund_object.erase_overdue_deposits paid.1).find_deposit x.id =
        if d.history_size > 0 then none else some { x with enabled := false } := by
      rw [hed x.id, hsize]
      by_cases hs : d.history_size > 0
      · simp [hs, hrem]
      · simp only [hs, false_and, if_false]
        rw [hown.deposits x.id (by simp)]
        exact hinv.retired x hmem hr
    refine ⟨hinv.retired x hmem hr, ?_, hend⟩
    intro y hy
    have hy2 : (fund_object.erase_overdue_deposits paid.1).find_deposit x.id = some y := hy
    rw [hend] at hy2
    by_cases hs : d.history_size > 0
    · simp [hs] at hy2
    · simp only [hs, if_false, Option.some.injEq] at hy2
      rw [← hy2]
  · show paid.1.deps_to_remove = _
    rw [howndeps, hinv.to_remove]

theorem crediting_host_keeps_fund_data : crediting_host.keeps_fund_data := by
  intro d op
  cases op with
  | fund_payment p => exact ⟨⟨rfl, rfl, rfl, rfl, fun _ => rfl, fun _ => rfl⟩, fun _ => rfl,
      fun _ _ => rfl⟩
  | fund_withdrawal w => exact ⟨⟨rfl, rfl, rfl, rfl, fun _ => rfl, fun _ => rfl⟩,
      fun _ => rfl, fun _ _ => rfl⟩
  | deposit_renewal r =>
    refine ⟨⟨rfl, rfl, rfl, rfl, fun _ => rfl, fun _ => rfl⟩, fun _ => rfl, ?_⟩
    intro k hk
    exact find_deposit_modify_deposit_of_ne d r.deposit_id k _ (by intro _; rfl)
      (fun hh => hk (by simp [operation.renewed_deposit, hh]))

theorem rejecting_host_keeps_fund_data : rejecting_host.keeps_fund_data := by
  intro d op
  exact agrees_refl _ _

/-- C9, witness: the cycle of the example fund retires the overdue deposit of 500 and the
balance goes from 1500 to 1000, with the host that applies the withdrawal as with the
host whose sub-operations all fail. -/
theorem fund_process_balance_witness :
    (∃ st, fund_object.process crediting_host fund_db 7 = some st ∧
      st.db.find_fund 7 = some { example_fund with balance := 1000 } ∧
      st.db.find_deposit 6 = some { overdue_deposit with enabled := false }) ∧
    (∃ st, fund_object.process rejecting_host fund_db 7 = some st ∧
      st.db.find_fund 7 = some { example_fund with balance := 1000 } ∧
      st.submitted.map (fun e => e.2) = [false, false, false, false]) := by
  constructor
  · obtain ⟨st, hst, hbal, hdep, -⟩ :=
      fund_process_balance crediting_host fund_db 7 example_fund ⟨0, 1⟩ ⟨9, []⟩
        crediting_host_keeps_fund_data (by rfl) (by rfl) (by rfl) (by decide)
    refine ⟨st, hst, ?_, ?_⟩
    · rw [hbal]
      have : retired_sum crediting_host fund_db
          (fund_db.fund_deposits.filter (fun dep => dep.fund_id == 7)) = 500 := by decide
      rw [this]
      rfl
    · exact (hdep overdue_deposit (by simp [fund_db]) (by rfl) (by decide)).2.2
  · obtain ⟨st, hst, hbal, -, -⟩ :=
      fund_process_balance rejecting_host fund_db 7 example_fund ⟨0, 1⟩ ⟨9, []⟩
        rejecting_host_keeps_fund_data (by rfl) (by rfl) (by rfl) (by decide)
    refine ⟨st, hst, ?_, ?_⟩
    · rw [hbal]
      have : retired_sum rejecting_host fund_db
          (fund_db.fund_deposits.filter (fun dep => dep.fund_id == 7)) = 500 := by decide
      rw [this]
      rfl
    · have hflags : (fund_object.process rejecting_host fund_db 7).map
          (fun st => st.submitted.map (fun e => e.2))
          = some [false, false, false, false] := by decide
      rw [hst] at hflags
      simpa using hflags

/-- C10, counterexample: with a host whose sub-operations all fail validation, the
cycle of the example fund submits the depositor payments of 10 and 5, both fail, and
`daily_payments_without_owner` is 15 although no depositor payment succeeded. With a
host whose sub-operations all succeed and whose supply check lets at most 3 through,
`daily_payments_without_owner` is 6, the sum of the clamped amounts, not the sum 15 of
the quantities `q`. -/
theorem fund_process_daily_payments_counterexample :
    (fund_object.process rejecting_host fund_db 7).map
      (fun st => (st.daily_payments_without_owner,
        depositor_payments_succeeded st.submitted,
        st.submitted.map (fun e => e.2))) = some (15, 0, [false, false, false, false]) ∧
    (fund_object.process clamping_host fund_db 7).map
      (fun st => (st.daily_payments_without_owner,
        st.submitted.map (fun e => e.2))) = some (6, [true, true, true, true]) ∧
    fund_object.payment_quantity ⟨30, 30000⟩ running_deposit = 10 ∧
    fund_object.payment_quantity ⟨30, 30000⟩ overdue_deposit = 5 := by
  refine ⟨by decide, by decide, by decide, by decide⟩

/-- C10, amended: in a maintenance cycle `daily_payments_without_owner` equals the sum
of the amounts (after the supply clamp) of all `fund_payment` sub-operations submitted
for deposits, whether the sub-operation succeeded or failed validation or application;
this holds after the loop over the deposits and in the result of `process`. -/
theorem fund_process_daily_payments (h : host) (d : database) (this : Nat) :
    (∀ asst : asset_object,
      (fund_object.process_deposits h d this asst
        { db := d, daily_payments_without_owner := 0, deps_to_remove := [],
          submitted := [] }).daily_payments_without_owner
      = depositor_payments_submitted (fund_object.process_deposits h d this asst
        { db := d, daily_payments_without_owner := 0, deps_to_remove := [],
          submitted := [] }).submitted) ∧
    (∀ st, fund_object.process h d this = some st →
      st.daily_payments_without_owner = depositor_payments_submitted st.submitted) := by
  have hloop : ∀ asst : asset_object, counts_submitted
      (fund_object.process_deposits h d this asst
        { db := d, daily_payments_without_owner := 0, deps_to_remove := [],
          submitted := [] }) := by
    intro asst
    unfold fund_object.process_deposits
    exact counts_submitted_foldl h this asst _ _ rfl
  refine ⟨hloop, ?_⟩
  intro st hst
  unfold fund_object.process at hst
  cases hasst : d.find_asset (d.get_fund this).asset_id with
  | none => simp [hasst] at hst
  | some asst =>
    simp only [hasst] at hst
    have hown := counts_submitted_pay_owner h this asst (d.get_fund this).balance
      { create_datetime := d.head_block_time, daily_profit := 0,
        daily_payments_without_owner := 0 } _ (hloop asst)
    generalize fund_object.pay_owner h this asst (d.get_fund this).balance
      { create_datetime := d.head_block_time, daily_profit := 0,
        daily_payments_without_owner := 0 }
      (fund_object.process_deposits h d this asst
        { db := d, daily_payments_without_owner := 0, deps_to_remove := [],
          submitted := [] }) = paid at hown hst
    split at hst
    · cases hst
    · simp only [Option.some.injEq] at hst
      rw [← hst]
      exact hown

/-- C10, witness: the cycle of the example fund with the crediting host returns, with
`daily_payments_without_owner = 15`, the sum of the two depositor payments submitted. -/
theorem fund_process_daily_payments_witness :
    (fund_object.process crediting_host fund_db 7).map
      (fun st => (st.daily_payments_without_owner,
        depositor_payments_submitted st.submitted)) = some (15, 15) := by
  have h := (fund_process_daily_payments crediting_host fund_db 7).2
  have hsome : (fund_object.process crediting_host fund_db 7).isSome = true := by decide
  cases hp : fund_object.process crediting_host fund_db 7 with
  | none =>
    rw [hp] at hsome
    cases hsome
  | some st =>
    have h15 : st.daily_payments_without_owner = 15 := by
      have : (fund_object.process crediting_host fund_db 7).map
          (fun st => st.daily_payments_without_owner) = some 15 := by decide
      rw [hp] at this
      simpa using this
    have := h st hp
    simp [← this, h15]

/-! ### Tier selection is monotone -/

theorem get_max_fund_rate_cases (self : fund_object) (b : Int) :
    (self.get_max_fund_rate b = none ∧ ∀ fr ∈ self.fund_rates, b < fr.amount) ∨
    (∃ fr ∈ self.fund_rates, self.get_max_fund_rate b = some fr ∧ fr.amount ≤ b ∧
      ∀ g ∈ self.fund_rates, g.amount ≤ b → g.amount ≤ fr.amount) := by
  have hinv := max_idx_inv_loop self.fund_rates b self.fund_rates.length
  have hmem : ∀ g ∈ self.fund_rates, ∃ j, j < self.fund_rates.length ∧
      self.fund_rates.getD j default = g := by
    intro g hg
    obtain ⟨j, hj, hjg⟩ := List.mem_iff_getElem.mp hg
    exact ⟨j, hj, by rw [List.getD_eq_getElem _ _ hj]; exact hjg⟩
  unfold fund_object.get_max_fund_rate
  by_cases hlen : self.fund_rates.length = 0
  · left
    rw [if_pos hlen]
    have hnil : self.fund_rates = [] := List.length_eq_zero.mp hlen
    refine ⟨rfl, ?_⟩
    intro fr hfr
    rw [hnil] at hfr
    cases hfr
  · rw [if_neg hlen]
    rcases hinv with ⟨h1, h2⟩ | ⟨h0, hlt, hq, hmax, -⟩
    · left
      simp only [h1]
      refine ⟨by simp, ?_⟩
      intro fr hfr
      obtain ⟨j, hj, hjg⟩ := hmem fr hfr
      have := h2 j hj
      rw [hjg] at this
      exact this
    · right
      have hpos : fund_object.get_max_fund_rate_loop self.fund_rates b
          self.fund_rates.length > -1 := by omega
      simp only [hpos, if_true]
      refine ⟨_, ?_, rfl, hq, ?_⟩
      · rw [List.getD_eq_getElem _ _ hlt]
        exact List.getElem_mem _
      · intro g hg hgb
        obtain ⟨j, hj, hjg⟩ := hmem g hg
        have := hmax j hj (by rw [hjg]; exact hgb)
        rw [hjg] at this
        exact this

/-- C20: tier selection is monotone in the balance. For balances `b1 <= b2`, if
`get_max_fund_rate b1` returns a tier then `get_max_fund_rate b2` returns a tier too,
and its threshold is at least the threshold of the tier returned for `b1`. -/
theorem get_max_fund_rate_mono (self : fund_object) (b1 b2 : Int) (fr1 : fund_rate)
    (hle : b1 ≤ b2) (h1 : self.get_max_fund_rate b1 = some fr1) :
    ∃ fr2, self.get_max_fund_rate b2 = some fr2 ∧ fr1.amount ≤ fr2.amount := by
  have hfr1 : fr1 ∈ self.fund_rates ∧ fr1.amount ≤ b1 := by
    rcases get_max_fund_rate_cases self b1 with ⟨hn, -⟩ | ⟨fr, hfr, hs, hq, -⟩
    · rw [hn] at h1
      cases h1
    · rw [hs] at h1
      cases h1
      exact ⟨hfr, hq⟩
  rcases get_max_fund_rate_cases self b2 with ⟨-, hall⟩ | ⟨fr2, -, hs, -, hmax⟩
  · have := hall fr1 hfr1.1
    omega
  · exact ⟨fr2, hs, hmax fr1 hfr1.1 (by omega)⟩

/-- C20, witness: on the table with thresholds 100, 500, 300 the balance 350 selects
the tier of threshold 300 and the balance 700 the tier of threshold 500. -/
theorem get_max_fund_rate_mono_witness :
    example_tiers.get_max_fund_rate 350 = some ⟨300, 3⟩ ∧
    ∃ fr2, example_tiers.get_max_fund_rate 700 = some fr2 ∧ (300 : Int) ≤ fr2.amount :=
  ⟨by decide, get_max_fund_rate_mono example_tiers 350 700 ⟨300, 3⟩ (by decide) (by decide)⟩

/-! ### Rate arithmetic -/

theorem time_point_sec_sub_of_le (t offset : Nat) (ht : t < 4294967296) (hle : offset ≤ t) :
    time_point_sec_sub t offset = t - offset := by
  unfold time_point_sec_sub
  omega

/-! #### Floating-point rounding -/

theorem log2_fuel_spec (fuel n : Nat) (hfuel : n ≤ fuel) (hn : 0 < n) :
    2 ^ log2_fuel fuel n ≤ n ∧ n < 2 ^ (log2_fuel fuel n + 1) := by
  induction fuel generalizing n with
  | zero => omega
  | succ fuel ih =>
    unfold log2_fuel
    by_cases h2 : n < 2
    · rw [if_pos h2]
      constructor
      · simpa using hn
      · simpa using h2
    · rw [if_neg h2]
      obtain ⟨h1, h3⟩ := ih (n / 2) (by omega) (by omega)
      rw [pow_succ] at h3 ⊢
      rw [pow_succ]
      constructor <;> omega

theorem round_half_even_error (n d : Nat) (hd : 0 < d) :
    |((round_half_even n d : Nat) : ℚ) * (d : ℚ) - (n : ℚ)| ≤ (d : ℚ) / 2 := by
  have hdm := Nat.div_add_mod n d
  have hr := Nat.mod_lt n hd
  have hn : (n : ℚ) = (d : ℚ) * ((n / d : Nat) : ℚ) + ((n % d : Nat) : ℚ) := by
    exact_mod_cast hdm.symm
  have hr0 : (0 : ℚ) ≤ ((n % d : Nat) : ℚ) := Nat.cast_nonneg _
  have hrd : ((n % d : Nat) : ℚ) < (d : ℚ) := by exact_mod_cast hr
  unfold round_half_even
  simp only []
  by_cases h1 : 2 * (n % d) < d
  · rw [if_pos h1]
    have h1q : 2 * ((n % d : Nat) : ℚ) < (d : ℚ) := by exact_mod_cast h1
    rw [abs_le]
    constructor <;> nlinarith
  · rw [if_neg h1]
    by_cases h2 : d < 2 * (n % d)
    · rw [if_pos h2]
      have h2q : (d : ℚ) < 2 * ((n % d : Nat) : ℚ) := by exact_mod_cast h2
      push_cast
      rw [abs_le]
      constructor <;> nlinarith
    · rw [if_neg h2]
      have h3 : 2 * (n % d) = d := by omega
      have h3q : 2 * ((n % d : Nat) : ℚ) = (d : ℚ) := by exact_mod_cast h3
      split_ifs
      · rw [abs_le]
        constructor <;> nlinarith
      · push_cast
        rw [abs_le]
        constructor <;> nlinarith

theorem scale_value (n d : Nat) (s : Int) :
    ((scale_num n s : Nat) : ℚ) / ((scale_den d s : Nat) : ℚ)
      = ((n : ℚ) / (d : ℚ)) / (2 : ℚ) ^ s := by
  unfold scale_num scale_den
  by_cases hs : s < 0
  · rw [if_pos hs, if_pos hs]
    have hk : s = -(((-s).toNat : Nat) : Int) := by omega
    generalize (-s).toNat = k at hk
    subst hk
    rw [zpow_neg, zpow_natCast]
    push_cast
    field_simp
  · rw [if_neg hs, if_neg hs]
    have hk : s = ((s.toNat : Nat) : Int) := by omega
    generalize s.toNat = k at hk
    subst hk
    rw [zpow_natCast]
    push_cast
    field_simp

theorem scale_den_pos (d : Nat) (s : Int) (hd : 0 < d) : 0 < scale_den d s := by
  unfold scale_den
  split_ifs
  · exact hd
  · positivity

theorem dyadic_spec (m : Nat) (s : Int) :
    (dyadic m s).value = (m : ℚ) * (2 : ℚ) ^ s ∧ 0 < (dyadic m s).den ∧
      0 ≤ (dyadic m s).num := by
  unfold dyadic fraction.value
  by_cases hs : s < 0
  · rw [if_pos hs]
    have hk : s = -(((-s).toNat : Nat) : Int) := by omega
    generalize (-s).toNat = k at hk
    subst hk
    refine ⟨?_, by positivity, by positivity⟩
    rw [zpow_neg, zpow_natCast]
    push_cast
    rfl
  · rw [if_neg hs]
    have hk : s = ((s.toNat : Nat) : Int) := by omega
    generalize s.toNat = k at hk
    subst hk
    refine ⟨?_, by norm_num, by positivity⟩
    rw [zpow_natCast]
    push_cast
    simp

theorem leading_exponent_le (n d : Nat) (hn : 0 < n) (hd : 0 < d) :
    (2 : ℚ) ^ leading_exponent n d ≤ (n : ℚ) / (d : ℚ) := by
  have hdq : (0 : ℚ) < (d : ℚ) := by exact_mod_cast hd
  unfold leading_exponent
  simp only []
  split_ifs with htest
  · have hv := scale_value n d ((log2_fuel n n : Int) - (log2_fuel d d : Int))
    have hsd := scale_den_pos d ((log2_fuel n n : Int) - (log2_fuel d d : Int)) hd
    have hsdq : (0 : ℚ) < ((scale_den d ((log2_fuel n n : Int) - (log2_fuel d d : Int)) : Nat)
        : ℚ) := by exact_mod_cast hsd
    have h1 : (1 : ℚ) ≤ ((scale_num n ((log2_fuel n n : Int) - (log2_fuel d d : Int)) : Nat) : ℚ)
        / ((scale_den d ((log2_fuel n n : Int) - (log2_fuel d d : Int)) : Nat) : ℚ) := by
      rw [le_div_iff₀ hsdq, one_mul]
      exact_mod_cast htest
    rw [hv] at h1
    have hp : (0 : ℚ) < (2 : ℚ) ^ ((log2_fuel n n : Int) - (log2_fuel d d : Int)) := by
      positivity
    rw [le_div_iff₀ hp, one_mul] at h1
    exact h1
  · obtain ⟨ha, -⟩ := log2_fuel_spec n n le_rfl hn
    obtain ⟨-, hb⟩ := log2_fuel_spec d d le_rfl hd
    have haq : (2 : ℚ) ^ (log2_fuel n n) ≤ (n : ℚ) := by exact_mod_cast ha
    have hbq : (d : ℚ) < (2 : ℚ) ^ (log2_fuel d d + 1) := by exact_mod_cast hb
    have he : (2 : ℚ) ^ ((log2_fuel n n : Int) - (log2_fuel d d : Int) - 1)
        = (2 : ℚ) ^ (log2_fuel n n) / (2 : ℚ) ^ (log2_fuel d d + 1) := by
      have : ((log2_fuel n n : Int) - (log2_fuel d d : Int) - 1)
          = (log2_fuel n n : Int) - ((log2_fuel d d + 1 : Nat) : Int) := by
        push_cast
        ring
      rw [this, zpow_sub₀ (by norm_num), zpow_natCast, zpow_natCast]
    rw [he]
    have hpos : (0 : ℚ) < (2 : ℚ) ^ (log2_fuel d d + 1) := by positivity
    rw [div_le_div_iff₀ hpos hdq]
    have hnq : (0 : ℚ) < (n : ℚ) := by exact_mod_cast hn
    nlinarith

theorem round_pos_spec (prec n d : Nat) (hn : 0 < n) (hd : 0 < d) :
    0 < (round_pos prec n d).den ∧ 0 ≤ (round_pos prec n d).num ∧
    |(round_pos prec n d).value - (n : ℚ) / (d : ℚ)| ≤ ((n : ℚ) / (d : ℚ)) / 2 ^ prec := by
  have hl := leading_exponent_le n d hn hd
  unfold round_pos
  simp only []
  generalize hs : leading_exponent n d - ((prec : Int) - 1) = s
  obtain ⟨hval, hden, hnum⟩ := dyadic_spec
    (round_half_even (scale_num n s) (scale_den d s)) s
  refine ⟨hden, hnum, ?_⟩
  rw [hval]
  have hsd := scale_den_pos d s hd
  have hsdq : (0 : ℚ) < ((scale_den d s : Nat) : ℚ) := by exact_mod_cast hsd
  have herr := round_half_even_error (scale_num n s) (scale_den d s) hsd
  have hv := scale_value n d s
  have hp : (0 : ℚ) < (2 : ℚ) ^ s := by positivity
  -- the distance of the mantissa to the scaled value is at most one half
  have hm : |((round_half_even (scale_num n s) (scale_den d s) : Nat) : ℚ)
      - ((n : ℚ) / (d : ℚ)) / (2 : ℚ) ^ s| ≤ 1 / 2 := by
    rw [← hv]
    have : ((round_half_even (scale_num n s) (scale_den d s) : Nat) : ℚ)
        - ((scale_num n s : Nat) : ℚ) / ((scale_den d s : Nat) : ℚ)
        = (((round_half_even (scale_num n s) (scale_den d s) : Nat) : ℚ)
            * ((scale_den d s : Nat) : ℚ) - ((scale_num n s : Nat) : ℚ))
          / ((scale_den d s : Nat) : ℚ) := by
      field_simp
    rw [this, abs_div, abs_of_pos hsdq, div_le_iff₀ hsdq]
    linarith
  have hdist : |((round_half_even (scale_num n s) (scale_den d s) : Nat) : ℚ) * (2 : ℚ) ^ s
      - (n : ℚ) / (d : ℚ)| ≤ (2 : ℚ) ^ s / 2 := by
    have : ((round_half_even (scale_num n s) (scale_den d s) : Nat) : ℚ) * (2 : ℚ) ^ s
        - (n : ℚ) / (d : ℚ)
        = (((round_half_even (scale_num n s) (scale_den d s) : Nat) : ℚ)
            - ((n : ℚ) / (d : ℚ)) / (2 : ℚ) ^ s) * (2 : ℚ) ^ s := by
      field_simp
      ring
    rw [this, abs_mul, abs_of_pos hp]
    nlinarith
  have hpow : (2 : ℚ) ^ s * (2 : ℚ) ^ prec = 2 * (2 : ℚ) ^ leading_exponent n d := by
    have h1 : s + (prec : Int) = leading_exponent n d + 1 := by omega
    rw [← zpow_natCast, ← zpow_add₀ (by norm_num), h1, zpow_add₀ (by norm_num), zpow_one]
    ring
  have hpp : (0 : ℚ) < (2 : ℚ) ^ prec := by positivity
  calc |((round_half_even (scale_num n s) (scale_den d s) : Nat) : ℚ) * (2 : ℚ) ^ s
        - (n : ℚ) / (d : ℚ)| ≤ (2 : ℚ) ^ s / 2 := hdist
    _ ≤ ((n : ℚ) / (d : ℚ)) / 2 ^ prec := by
      rw [le_div_iff₀ hpp]
      nlinarith

theorem round_to_spec (prec : Nat) (x : fraction) :
    0 < (x.round_to prec).den ∧
    |(x.round_to prec).value - x.value| ≤ |x.value| / 2 ^ prec := by
  unfold fraction.round_to
  by_cases h0 : x.den = 0 ∨ x.num = 0
  · rw [if_pos h0]
    have hx : x.value = 0 := by
      unfold fraction.value
      rcases h0 with h | h <;> simp [h]
    refine ⟨by norm_num, ?_⟩
    rw [hx]
    simp [fraction.value]
  · rw [if_neg h0]
    push_neg at h0
    obtain ⟨hden0, hnum0⟩ := h0
    have hn : 0 < x.num.natAbs := Int.natAbs_pos.mpr hnum0
    have hd : 0 < x.den.natAbs := Int.natAbs_pos.mpr hden0
    obtain ⟨hrden, -, hrerr⟩ := round_pos_spec prec x.num.natAbs x.den.natAbs hn hd
    have habs : |x.value| = (x.num.natAbs : ℚ) / (x.den.natAbs : ℚ) := by
      unfold fraction.value
      rw [abs_div, Nat.cast_natAbs, Nat.cast_natAbs, Int.cast_abs, Int.cast_abs]
    rw [← habs] at hrerr
    simp only []
    have hnq : (x.num : ℚ) ≠ 0 := by exact_mod_cast hnum0
    have hdq : (x.den : ℚ) ≠ 0 := by exact_mod_cast hden0
    by_cases hsig : (0 < x.num) = (0 < x.den)
    · rw [if_pos hsig]
      refine ⟨hrden, ?_⟩
      have hpos : 0 < x.value := by
        unfold fraction.value
        rcases lt_or_gt_of_ne hnum0 with hn1 | hn1 <;> rcases lt_or_gt_of_ne hden0 with hd1 | hd1
        · exact div_pos_of_neg_of_neg (by exact_mod_cast hn1) (by exact_mod_cast hd1)
        · exfalso
          have h1 : ¬ (0 < x.num) := by omega
          have h2 : 0 < x.den := hd1
          rw [eq_iff_iff] at hsig
          exact h1 (hsig.mpr h2)
        · exfalso
          have h1 : ¬ (0 < x.den) := by omega
          have h2 : 0 < x.num := hn1
          rw [eq_iff_iff] at hsig
          exact h1 (hsig.mp h2)
        · exact div_pos (by exact_mod_cast hn1) (by exact_mod_cast hd1)
      have hx : x.value = |x.value| := (abs_of_pos hpos).symm
      rw [hx, abs_abs]
      exact hrerr
    · rw [if_neg hsig]
      refine ⟨hrden, ?_⟩
      have hneg : x.value < 0 := by
        unfold fraction.value
        rcases lt_or_gt_of_ne hnum0 with hn1 | hn1 <;> rcases lt_or_gt_of_ne hden0 with hd1 | hd1
        · exfalso
          apply hsig
          rw [eq_iff_iff]
          constructor <;> intro hh <;> omega
        · exact div_neg_of_neg_of_pos (by exact_mod_cast hn1) (by exact_mod_cast hd1)
        · exact div_neg_of_pos_of_neg (by exact_mod_cast hn1) (by exact_mod_cast hd1)
        · exfalso
          apply hsig
          rw [eq_iff_iff]
          constructor <;> intro _ <;> assumption
      have hval : (⟨-(round_pos prec x.num.natAbs x.den.natAbs).num,
          (round_pos prec x.num.natAbs x.den.natAbs).den⟩ : fraction).value
          = -(round_pos prec x.num.natAbs x.den.natAbs).value := by
        unfold fraction.value
        push_cast
        ring
      rw [hval]
      have hx : x.value = -|x.value| := by rw [abs_of_neg hneg]; ring
      have : -(round_pos prec x.num.natAbs x.den.natAbs).value - x.value
          = -((round_pos prec x.num.natAbs x.den.natAbs).value - |x.value|) := by
        rw [hx, abs_neg, abs_abs]
        ring
      rw [this, abs_neg]
      exact hrerr

theorem fraction_mul_value (x y : fraction) : (x.mul y).value = x.value * y.value := by
  unfold fraction.mul fraction.value
  push_cast
  rw [mul_div_mul_comm]

theorem fraction_div_int_value (x : fraction) (n : Int) :
    (x.div_int n).value = x.value / (n : ℚ) := by
  unfold fraction.div_int fraction.value
  push_cast
  rw [div_mul_eq_div_div]

theorem fraction_of_int_value (n : Int) : (fraction.of_int n).value = (n : ℚ) := by
  unfold fraction.of_int fraction.value
  simp

theorem fraction_sub_value (x y : fraction) (hx : 0 < x.den) (hy : 0 < y.den) :
    (x.sub y).value = x.value - y.value := by
  unfold fraction.sub fraction.value
  have hxq : (x.den : ℚ) ≠ 0 := by
    have : (0 : ℚ) < (x.den : ℚ) := by exact_mod_cast hx
    exact ne_of_gt this
  have hyq : (y.den : ℚ) ≠ 0 := by
    have : (0 : ℚ) < (y.den : ℚ) := by exact_mod_cast hy
    exact ne_of_gt this
  push_cast
  field_simp
  ring

theorem close_round (prec : Nat) (y : fraction) (X δ : ℚ)
    (h : |y.value - X| ≤ δ * |X|) :
    |(y.round_to prec).value - X| ≤ (δ + (1 + δ) / 2 ^ prec) * |X| := by
  obtain ⟨-, herr⟩ := round_to_spec prec y
  have hpp : (0 : ℚ) < (2 : ℚ) ^ prec := by positivity
  have hy : |y.value| ≤ (1 + δ) * |X| := by
    have h1 : |y.value| ≤ |y.value - X| + |X| := by
      have := abs_add (y.value - X) X
      simpa using this
    linarith
  have h2 : |y.value| / 2 ^ prec ≤ (1 + δ) * |X| / 2 ^ prec :=
    div_le_div_of_nonneg_right hy (le_of_lt hpp)
  have h3 : |(y.round_to prec).value - X|
      ≤ |(y.round_to prec).value - y.value| + |y.value - X| := by
    have := abs_add ((y.round_to prec).value - y.value) (y.value - X)
    simpa using this
  calc |(y.round_to prec).value - X|
      ≤ |(y.round_to prec).value - y.value| + |y.value - X| := h3
    _ ≤ (1 + δ) * |X| / 2 ^ prec + δ * |X| := by linarith
    _ = (δ + (1 + δ) / 2 ^ prec) * |X| := by ring

theorem roundl_error (x : fraction) (hden : 0 < x.den) :
    |((roundl x : Int) : ℚ) - x.value| ≤ 1 / 2 := by
  have hdq : (0 : ℚ) < (x.den : ℚ) := by exact_mod_cast hden
  unfold roundl fraction.value
  by_cases hn : 0 ≤ x.num
  · rw [if_pos hn]
    have h2 : (0 : Int) < 2 * x.den := by omega
    have hdm := Int.emod_add_ediv (2 * x.num + x.den) (2 * x.den)
    have hm0 := Int.emod_nonneg (2 * x.num + x.den) (ne_of_gt h2)
    have hm1 := Int.emod_lt_of_pos (2 * x.num + x.den) h2
    generalize (2 * x.num + x.den) / (2 * x.den) = q at hdm ⊢
    generalize (2 * x.num + x.den) % (2 * x.den) = r at hdm hm0 hm1
    have hq : (2 : ℚ) * x.num + x.den = r + 2 * x.den * q := by exact_mod_cast hdm.symm
    have hr0 : (0 : ℚ) ≤ r := by exact_mod_cast hm0
    have hr1 : (r : ℚ) < 2 * x.den := by exact_mod_cast hm1
    have : (q : ℚ) - (x.num : ℚ) / (x.den : ℚ)
        = ((q : ℚ) * x.den - x.num) / x.den := by field_simp
    rw [this, abs_div, abs_of_pos hdq, div_le_iff₀ hdq, abs_le]
    constructor <;> nlinarith
  · rw [if_neg hn]
    have h2 : (0 : Int) < 2 * x.den := by omega
    have hdm := Int.emod_add_ediv (2 * (-x.num) + x.den) (2 * x.den)
    have hm0 := Int.emod_nonneg (2 * (-x.num) + x.den) (ne_of_gt h2)
    have hm1 := Int.emod_lt_of_pos (2 * (-x.num) + x.den) h2
    generalize (2 * (-x.num) + x.den) / (2 * x.den) = q at hdm ⊢
    generalize (2 * (-x.num) + x.den) % (2 * x.den) = r at hdm hm0 hm1
    have hq : (2 : ℚ) * (-x.num) + x.den = r + 2 * x.den * q := by exact_mod_cast hdm.symm
    have hr0 : (0 : ℚ) ≤ r := by exact_mod_cast hm0
    have hr1 : (r : ℚ) < 2 * x.den := by exact_mod_cast hm1
    have : ((-q : Int) : ℚ) - (x.num : ℚ) / (x.den : ℚ)
        = (-(q : ℚ) * x.den - x.num) / x.den := by
      push_cast
      field_simp
    rw [this, abs_div, abs_of_pos hdq, div_le_iff₀ hdq, abs_le]
    constructor <;> nlinarith

theorem roundl_eq_round_half_away (x : fraction) (hden : 0 < x.den) :
    roundl x = round_half_away x.value := by
  obtain ⟨k, hk⟩ := Int.eq_ofNat_of_zero_le (le_of_lt hden)
  have hkpos : (0 : ℚ) < (k : ℚ) := by
    have : (0 : Int) < (k : Int) := hk ▸ hden
    exact_mod_cast this
  unfold roundl round_half_away fraction.value
  rw [hk]
  by_cases hn : 0 ≤ x.num
  · have hv : (0 : ℚ) ≤ (x.num : ℚ) / ((k : Int) : ℚ) := by
      apply div_nonneg
      · exact_mod_cast hn
      · exact_mod_cast le_of_lt hkpos
    rw [if_pos hn, if_pos hv]
    have he : (x.num : ℚ) / ((k : Int) : ℚ) + 1 / 2
        = ((2 * x.num + (k : Int) : Int) : ℚ) / ((2 * k : Nat) : ℚ) := by
      push_cast
      field_simp
      ring
    rw [he, Rat.floor_intCast_div_natCast]
    push_cast
    rfl
  · have hv : ¬ (0 : ℚ) ≤ (x.num : ℚ) / ((k : Int) : ℚ) := by
      rw [not_le]
      apply div_neg_of_neg_of_pos
      · have : x.num < 0 := by omega
        exact_mod_cast this
      · exact_mod_cast hkpos
    rw [if_neg hn, if_neg hv]
    have he : -((x.num : ℚ) / ((k : Int) : ℚ)) + 1 / 2
        = ((2 * (-x.num) + (k : Int) : Int) : ℚ) / ((2 * k : Nat) : ℚ) := by
      push_cast
      field_simp
      ring
    rw [he, Rat.floor_intCast_div_natCast]
    push_cast
    rfl

/-! ### The owner payment and the result of a cycle -/

theorem debit_fund_fields (this : Nat) (amount : Int) (f : fund_object) :
    (debit_fund this amount f).fund_rates = f.fund_rates ∧
    (debit_fund this amount f).payment_rates = f.payment_rates ∧
    (debit_fund this amount f).fixed_percent_on_deposits = f.fixed_percent_on_deposits ∧
    (debit_fund this amount f).rates_reduction_per_month = f.rates_reduction_per_month ∧
    (debit_fund this amount f).prev_maintenance_time_on_creation
      = f.prev_maintenance_time_on_creation ∧
    (debit_fund this amount f).owner = f.owner ∧
    (debit_fund this amount f).history_id = f.history_id ∧
    (debit_fund this amount f).asset_id = f.asset_id := by
  unfold debit_fund
  split_ifs <;> exact ⟨rfl, rfl, rfl, rfl, rfl, rfl, rfl, rfl⟩

theorem debit_fund_get_max_fund_rate (this : Nat) (amount : Int) (f : fund_object) (b : Int) :
    (debit_fund this amount f).get_max_fund_rate b = f.get_max_fund_rate b := by
  unfold fund_object.get_max_fund_rate
  rw [(debit_fund_fields this amount f).1]

theorem debit_fund_get_payment_rate (this : Nat) (amount : Int) (f : fund_object) (p : Nat) :
    (debit_fund this amount f).get_payment_rate p = f.get_payment_rate p := by
  unfold fund_object.get_payment_rate
  rw [(debit_fund_fields this amount f).2.1]

theorem debit_fund_get_rate_percent (this : Nat) (amount : Int) (f : fund_object)
    (fr : fund_rate) (t : Nat) :
    (debit_fund this amount f).get_rate_percent fr t = f.get_rate_percent fr t := by
  unfold fund_object.get_rate_percent
  rw [(debit_fund_fields this amount f).2.2.2.1, (debit_fund_fields this amount f).2.2.2.2.1]

theorem debit_fund_fund_day_profit (this : Nat) (amount : Int) (f : fund_object)
    (fr : fund_rate) (b : Int) (t : Nat) :
    (debit_fund this amount f).fund_day_profit fr b t = f.fund_day_profit fr b t := by
  unfold fund_object.fund_day_profit
  rw [debit_fund_get_rate_percent]

theorem pay_owner_variant1 (h : host) (this : Nat) (asst : asset_object) (old_balance : Int)
    (h_item : history_item) (st : process_state)
    (hfixed : (st.db.get_fund this).fixed_percent_on_deposits > 0) :
    fund_object.pay_owner h this asst old_balance h_item st =
      (if (h.check_supply_overflow st.db (asst.amount
            (fund_object.owner_quantity (st.db.get_fund this).fixed_percent_on_deposits
              st.daily_payments_without_owner))).amount > 0
        then h.try_apply st (.fund_payment
          { issuer := asst.issuer, fund_id := this, deposit_id := none,
            asset_to_issue := h.check_supply_overflow st.db (asst.amount
              (fund_object.owner_quantity (st.db.get_fund this).fixed_percent_on_deposits
                st.daily_payments_without_owner)),
            issue_to_account := (st.db.get_fund this).owner })
        else st, h_item) := by
  unfold fund_object.pay_owner fund_object.owner_quantity
  rw [if_pos hfixed]
  simp only []
  split_ifs <;> rfl

theorem pay_owner_variant2 (h : host) (this : Nat) (asst : asset_object) (old_balance : Int)
    (h_item : history_item) (st : process_state) (p_rate : fund_rate)
    (hfixed : (st.db.get_fund this).fixed_percent_on_deposits = 0)
    (hrate : (st.db.get_fund this).get_max_fund_rate old_balance = some p_rate) :
    fund_object.pay_owner h this asst old_balance h_item st =
      if (st.db.get_fund this).fund_day_profit p_rate old_balance st.db.head_block_time > 0
      then
        (if (h.check_supply_overflow st.db (asst.amount
              ((st.db.get_fund this).fund_day_profit p_rate old_balance st.db.head_block_time
                - st.daily_payments_without_owner))).amount > 0
          then h.try_apply st (.fund_payment
            { issuer := asst.issuer, fund_id := this, deposit_id := none,
              asset_to_issue := h.check_supply_overflow st.db (asst.amount
                ((st.db.get_fund this).fund_day_profit p_rate old_balance
                    st.db.head_block_time
                  - st.daily_payments_without_owner)),
              issue_to_account := (st.db.get_fund this).owner })
          else st,
         { h_item with
           daily_profit :=
             (st.db.get_fund this).fund_day_profit p_rate old_balance st.db.head_block_time,
           daily_payments_without_owner := st.daily_payments_without_owner })
      else (st, h_item) := by
  unfold fund_object.pay_owner fund_object.fund_day_profit
  have hnot : ¬ (st.db.get_fund this).fixed_percent_on_deposits > 0 := by omega
  rw [if_neg hnot, hrate]
  simp only []
  split_ifs <;> rfl

theorem pay_owner_no_tier (h : host) (this : Nat) (asst : asset_object) (old_balance : Int)
    (h_item : history_item) (st : process_state)
    (hfixed : (st.db.get_fund this).fixed_percent_on_deposits = 0)
    (hrate : (st.db.get_fund this).get_max_fund_rate old_balance = none) :
    fund_object.pay_owner h this asst old_balance h_item st = (st, h_item) := by
  unfold fund_object.pay_owner
  have hnot : ¬ (st.db.get_fund this).fixed_percent_on_deposits > 0 := by omega
  rw [if_neg hnot, hrate]

theorem pay_owner_create_datetime (h : host) (this : Nat) (asst : asset_object)
    (old_balance : Int) (h_item : history_item) (st : process_state) :
    (fund_object.pay_owner h this asst old_balance h_item st).2.create_datetime
      = h_item.create_datetime := by
  by_cases hfixed : (st.db.get_fund this).fixed_percent_on_deposits > 0
  · rw [pay_owner_variant1 h this asst old_balance h_item st hfixed]
  · have hzero : (st.db.get_fund this).fixed_percent_on_deposits = 0 := by omega
    cases hrate : (st.db.get_fund this).get_max_fund_rate old_balance with
    | none => rw [pay_owner_no_tier h this asst old_balance h_item st hzero hrate]
    | some p_rate =>
      rw [pay_owner_variant2 h this asst old_balance h_item st p_rate hzero hrate]
      split_ifs <;> rfl

theorem erase_old_history_items_congr (d1 d2 : database)
    (hs : d2.history_size = d1.history_size) (ht : d2.head_block_time = d1.head_block_time)
    (items : List history_item) :
    erase_old_history_items d2 items = erase_old_history_items d1 items := by
  unfold erase_old_history_items
  rw [hs, ht]

theorem find_fund_history_id (d : database) (k : Nat) (x : fund_history_object)
    (h : d.find_fund_history k = some x) : x.id = k := by
  unfold database.find_fund_history at h
  have := List.find?_some h
  simpa using this

theorem process_deposits_fund (h : host) (hframe : h.keeps_fund_data) (d : database)
    (this : Nat) (self : fund_object) (asst : asset_object)
    (hself : d.find_fund this = some self)
    (hnodup : (d.fund_deposits.map (fun x => x.id)).Nodup) :
    (fund_object.process_deposits h d this asst
      { db := d, daily_payments_without_owner := 0, deps_to_remove := [],
        submitted := [] }).db.get_fund this
      = debit_fund this
          (retired_sum h d (d.fund_deposits.filter (fun dep => dep.fund_id == this))) self ∧
    (fund_object.process_deposits h d this asst
      { db := d, daily_payments_without_owner := 0, deps_to_remove := [],
        submitted := [] }).db.head_block_time = d.head_block_time := by
  have hinv := deposits_loop_inv_process_deposits h hframe d this asst
    { db := d, daily_payments_without_owner := 0, deps_to_remove := [], submitted := [] }
    rfl rfl hnodup
  refine ⟨?_, hinv.chain.head_block_time⟩
  apply get_fund_of_find
  rw [hinv.funds this, hself]
  rfl

theorem process_result (h : host) (d : database) (this : Nat) (self : fund_object)
    (asst : asset_object) (hist : fund_history_object)
    (hframe : h.keeps_fund_data)
    (hself : d.find_fund this = some self)
    (hasst : d.find_asset self.asset_id = some asst)
    (hhist : d.find_fund_history self.history_id = some hist)
    (hnodup : (d.fund_deposits.map (fun x => x.id)).Nodup) :
    ∃ st, fund_object.process h d this = some st ∧
      st.submitted = (fund_object.pay_owner h this asst self.balance
        { create_datetime := d.head_block_time, daily_profit := 0,
          daily_payments_without_owner := 0 }
        (fund_object.process_deposits h d this asst
          { db := d, daily_payments_without_owner := 0, deps_to_remove := [],
            submitted := [] })).1.submitted ∧
      st.daily_payments_without_owner = (fund_object.pay_owner h this asst self.balance
        { create_datetime := d.head_block_time, daily_profit := 0,
          daily_payments_without_owner := 0 }
        (fund_object.process_deposits h d this asst
          { db := d, daily_payments_without_owner := 0, deps_to_remove := [],
            submitted := [] })).1.daily_payments_without_owner ∧
      st.db.find_fund_history self.history_id = some { hist with
        items := erase_old_history_items d (hist.items ++
          [(fund_object.pay_owner h this asst self.balance
            { create_datetime := d.head_block_time, daily_profit := 0,
              daily_payments_without_owner := 0 }
            (fund_object.process_deposits h d this asst
              { db := d, daily_payments_without_owner := 0, deps_to_remove := [],
                submitted := [] })).2]) } := by
  have hget : d.get_fund this = self := get_fund_of_find d this self hself
  have hid : self.id = this := find_fund_id d this self hself
  unfold fund_object.process
  simp only [hget, hasst]
  have hinv := deposits_loop_inv_process_deposits h hframe d this asst
    { db := d, daily_payments_without_owner := 0, deps_to_remove := [], submitted := [] }
    rfl rfl hnodup
  generalize fund_object.process_deposits h d this asst
    { db := d, daily_payments_without_owner := 0, deps_to_remove := [], submitted := [] }
    = st1 at hinv ⊢
  obtain ⟨hown, -⟩ := pay_owner_agrees h hframe this asst self.balance
    { create_datetime := d.head_block_time, daily_profit := 0,
      daily_payments_without_owner := 0 } st1
  generalize fund_object.pay_owner h this asst self.balance
    { create_datetime := d.head_block_time, daily_profit := 0,
      daily_payments_without_owner := 0 } st1 = paid at hown ⊢
  obtain ⟨hef, heh, hes, het, -⟩ := erase_overdue_deposits_spec paid.1
  have hfund3 : (fund_object.erase_overdue_deposits paid.1).find_fund this
      = some (debit_fund this
          (retired_sum h d (d.fund_deposits.filter (fun dep => dep.fund_id == this)))
          self) := by
    have hsame : (fund_object.erase_overdue_deposits paid.1).find_fund this
        = paid.1.db.find_fund this := by
      unfold database.find_fund
      rw [hef]
    rw [hsame, hown.funds this, hinv.funds this, hself]
    rfl
  have hhist3 : (fund_object.erase_overdue_deposits paid.1).find_fund_history self.history_id
      = some hist := by
    have : (fund_object.erase_overdue_deposits paid.1).find_fund_history self.history_id
        = paid.1.db.find_fund_history self.history_id := by
      unfold database.find_fund_history
      rw [heh]
    rw [this, hown.chain.histories, hinv.chain.histories, hhist]
  have hhid : hist.id = self.history_id := find_fund_history_id d _ hist hhist
  rw [get_fund_of_find _ _ _ hfund3, (debit_fund_fields _ _ _).2.2.2.2.2.2.1]
  simp only [hhist3]
  refine ⟨_, rfl, rfl, rfl, ?_⟩
  show (database.modify_fund_history _ _ _).find_fund_history self.history_id = _
  rw [find_fund_history_modify_fund_history _ _ _ _ (by intro _; rfl), hhist3]
  simp only [Option.map_some', hhid, if_true]
  rw [erase_old_history_items_congr d (fund_object.erase_overdue_deposits paid.1)
    (by rw [hes, hown.chain.history_size, hinv.chain.history_size])
    (by rw [het, hown.chain.head_block_time, hinv.chain.head_block_time])]

theorem owner_payments_append (l1 l2 : List (operation × Bool)) :
    owner_payments (l1 ++ l2) = owner_payments l1 ++ owner_payments l2 := by
  unfold owner_payments
  exact List.filterMap_append _ _ _

theorem owner_payments_try_apply (h : host) (st : process_state) (op : operation)
    (hop : owner_payments [(op, true)] = []) :
    owner_payments (h.try_apply st op).submitted = owner_payments st.submitted := by
  obtain ⟨ok, hs, -, -⟩ := try_apply_submitted h st op
  rw [hs, owner_payments_append]
  have : owner_payments [(op, ok)] = [] := hop
  rw [this, List.append_nil]

theorem owner_payments_pay_depositor (h : host) (this : Nat) (asst : asset_object)
    (p_rate : Option payment_rate) (st : process_state) (dep : Nat) :
    owner_payments (fund_object.pay_depositor h this asst p_rate st dep).submitted
      = owner_payments st.submitted := by
  rcases pay_depositor_cases h this asst p_rate st dep with heq | ⟨p, hp, heq⟩
  · rw [heq]
  · rw [heq]
    exact owner_payments_try_apply h st _ (by simp [owner_payments, hp])

theorem owner_payments_renew_deposit (h : host) (p_rate : Option payment_rate)
    (st : process_state) (dep : Nat) :
    owner_payments (fund_object.renew_deposit h p_rate st dep).1.submitted
      = owner_payments st.submitted := by
  rcases renew_deposit_cases h p_rate st dep with ⟨-, heq⟩ | ⟨-, ⟨r, -, heq⟩ | ⟨f, -, heq⟩⟩
  · rw [heq]
  · rw [heq]; exact owner_payments_try_apply h st _ rfl
  · rw [heq]

theorem owner_payments_retire_deposit (h : host) (this : Nat) (asst : asset_object)
    (st : process_state) (dep : Nat) :
    owner_payments (fund_object.retire_deposit h this asst st dep).submitted
      = owner_payments st.submitted := by
  unfold fund_object.retire_deposit
  exact owner_payments_try_apply h { st with deps_to_remove := st.deps_to_remove ++ [dep] }
    _ rfl

theorem owner_payments_process_deposit (h : host) (this : Nat) (asst : asset_object)
    (st : process_state) (dep : Nat) :
    owner_payments (fund_object.process_deposit h this asst st dep).submitted
      = owner_payments st.submitted := by
  unfold fund_object.process_deposit
  simp only []
  have hpay := owner_payments_pay_depositor h this asst
    ((st.db.get_fund this).get_payment_rate (st.db.get_deposit dep).period) st dep
  split_ifs
  · rw [owner_payments_retire_deposit, owner_payments_renew_deposit, hpay]
  · rw [owner_payments_renew_deposit, hpay]
  · exact hpay
  · rfl

theorem owner_payments_foldl (h : host) (this : Nat) (asst : asset_object)
    (range : List Nat) (st : process_state) :
    owner_payments (range.foldl (fund_object.process_deposit h this asst) st).submitted
      = owner_payments st.submitted := by
  induction range generalizing st with
  | nil => rfl
  | cons dep rest ih =>
    rw [List.foldl_cons, ih, owner_payments_process_deposit]

theorem owner_payments_process_deposits (h : host) (d : database) (this : Nat)
    (asst : asset_object) :
    owner_payments (fund_object.process_deposits h d this asst
      { db := d, daily_payments_without_owner := 0, deps_to_remove := [],
        submitted := [] }).submitted = [] := by
  unfold fund_object.process_deposits
  rw [owner_payments_foldl]
  rfl

theorem pay_owner_daily (h : host) (this : Nat) (asst : asset_object)
    (old_balance : Int) (h_item : history_item) (st : process_state) :
    (fund_object.pay_owner h this asst old_balance h_item st).1.daily_payments_without_owner
      = st.daily_payments_without_owner := by
  rcases pay_owner_cases h this asst old_balance h_item st with heq | ⟨p, -, -, heq⟩
  · rw [heq]
  · rw [heq]
    obtain ⟨ok, -, hd, -⟩ := try_apply_submitted h st (.fund_payment p)
    exact hd

/-! ### History of the fund -/

theorem erase_old_history_items_append (d : database) (items : List history_item)
    (item : history_item) (hnew : item.create_datetime = d.head_block_time) :
    erase_old_history_items d (items ++ [item])
      = erase_old_history_items d items ++ [item] := by
  unfold erase_old_history_items
  by_cases hs : d.history_size > 0
  · simp only [hs, if_true, List.filter_append]
    congr 1
    simp only [List.filter_cons, List.filter_nil]
    rw [if_pos]
    rw [hnew]
    apply decide_eq_true
    have : (0 : Int) ≤ 86400 * (d.history_size : Int) := by positivity
    omega
  · simp only [hs, if_false]

/-- C19: a maintenance cycle leaves as the history of the fund the previous items
followed by the new item (the item dated `head_block_time`), filtered in order to the
items with `create_datetime >= head_block_time - history_size` days when
`history_size > 0` and with nothing dropped when `history_size = 0`; the new item is
always the last item of the result, so the history is never empty after a cycle. -/
theorem fund_process_history (h : host) (d : database) (this : Nat) (self : fund_object)
    (asst : asset_object) (hist : fund_history_object)
    (hframe : h.keeps_fund_data)
    (hself : d.find_fund this = some self)
    (hasst : d.find_asset self.asset_id = some asst)
    (hhist : d.find_fund_history self.history_id = some hist)
    (hnodup : (d.fund_deposits.map (fun x => x.id)).Nodup) :
    ∃ (st : process_state) (item : history_item) (items : List history_item),
      fund_object.process h d this = some st ∧
      item.create_datetime = d.head_block_time ∧
      st.db.find_fund_history self.history_id = some { hist with items := items } ∧
      (d.history_size > 0 → items = (hist.items ++ [item]).filter (fun it =>
        decide ((d.head_block_time : Int) - 86400 * (d.history_size : Int)
          ≤ (it.create_datetime : Int)))) ∧
      (d.history_size = 0 → items = hist.items ++ [item]) ∧
      items.getLast? = some item ∧
      items ≠ [] := by
  obtain ⟨st, hst, -, -, hh⟩ := process_result h d this self asst hist hframe hself hasst
    hhist hnodup
  have hdate := pay_owner_create_datetime h this asst self.balance
    { create_datetime := d.head_block_time, daily_profit := 0,
      daily_payments_without_owner := 0 }
    (fund_object.process_deposits h d this asst
      { db := d, daily_payments_without_owner := 0, deps_to_remove := [], submitted := [] })
  generalize (fund_object.pay_owner h this asst self.balance
    { create_datetime := d.head_block_time, daily_profit := 0,
      daily_payments_without_owner := 0 }
    (fund_object.process_deposits h d this asst
      { db := d, daily_payments_without_owner := 0, deps_to_remove := [],
        submitted := [] })).2 = item at hh hdate
  have hdate2 : item.create_datetime = d.head_block_time := hdate
  refine ⟨st, item, erase_old_history_items d (hist.items ++ [item]), hst, hdate2, hh,
    ?_, ?_, ?_, ?_⟩
  · intro hs
    unfold erase_old_history_items
    rw [if_pos hs]
    congr 1
    funext it
    simp only [not_lt]
  · intro hs
    unfold erase_old_history_items
    rw [if_neg (by omega)]
  · rw [erase_old_history_items_append d hist.items item hdate2]
    simp
  · rw [erase_old_history_items_append d hist.items item hdate2]
    simp

/-- C19, witness: on a node that keeps two days of history the cycle of the example fund
at time 1000000 drops the item dated 100000 and keeps the item dated 900000, followed by
the new item. -/
theorem fund_process_history_witness :
    (∃ (st : process_state) (item : history_item) (items : List history_item),
      fund_object.process crediting_host pruning_db 7 = some st ∧
      item.create_datetime = pruning_db.head_block_time ∧
      st.db.find_fund_history example_fund.history_id
        = some { (⟨9, [⟨100000, 1, 1⟩, ⟨900000, 2, 2⟩]⟩ : fund_history_object) with
            items := items } ∧
      (pruning_db.history_size > 0 →
        items = (([⟨100000, 1, 1⟩, ⟨900000, 2, 2⟩] : List history_item) ++ [item]).filter (fun it =>
          decide ((pruning_db.head_block_time : Int)
            - 86400 * (pruning_db.history_size : Int) ≤ (it.create_datetime : Int)))) ∧
      (pruning_db.history_size = 0 → items = [⟨100000, 1, 1⟩, ⟨900000, 2, 2⟩] ++ [item]) ∧
      items.getLast? = some item ∧
      items ≠ []) ∧
    (fund_object.process crediting_host pruning_db 7).map
      (fun st => (st.db.find_fund_history 9).map (fun o => o.items))
      = some (some [⟨900000, 2, 2⟩, ⟨1000000, 0, 0⟩]) :=
  ⟨fund_process_history crediting_host pruning_db 7 example_fund ⟨0, 1⟩
    ⟨9, [⟨100000, 1, 1⟩, ⟨900000, 2, 2⟩]⟩ crediting_host_keeps_fund_data (by rfl) (by rfl)
    (by rfl) (by decide), by decide⟩

/-! ### A cycle with nothing to pay -/

/-- C13: the maintenance cycle of a fund that has no deposits, `fixed_percent_on_deposits
= 0` and no tier with threshold `<= balance` returns, submits no sub-operation and
changes the database in one place only: the history of the fund gets the new item
`(head_block_time, 0, 0)` appended (and is then trimmed as on every cycle; with
`history_size = 0` it is the previous items followed by the new item). The funds, the
deposits, the accounts and every balance are as before. -/
theorem fund_process_idle (h : host) (d : database) (this : Nat) (self : fund_object)
    (asst : asset_object) (hist : fund_history_object)
    (hself : d.find_fund this = some self)
    (hasst : d.find_asset self.asset_id = some asst)
    (hhist : d.find_fund_history self.history_id = some hist)
    (hnone : d.fund_deposits.filter (fun dep => dep.fund_id == this) = [])
    (hfixed : self.fixed_percent_on_deposits = 0)
    (htier : ∀ fr ∈ self.fund_rates, ¬ fr.amount ≤ self.balance) :
    ∃ st, fund_object.process h d this = some st ∧
      st.submitted = [] ∧
      st.db = d.modify_fund_history self.history_id (fun o =>
        { o with
          items := erase_old_history_items d (o.items ++ [⟨d.head_block_time, 0, 0⟩]) }) ∧
      st.db.funds = d.funds ∧
      st.db.balances = d.balances ∧
      st.db.accounts = d.accounts ∧
      st.db.fund_deposits = d.fund_deposits ∧
      st.db.find_fund_history self.history_id = some { hist with
        items := erase_old_history_items d hist.items ++ [⟨d.head_block_time, 0, 0⟩] } ∧
      (d.history_size = 0 → st.db.find_fund_history self.history_id = some { hist with
        items := hist.items ++ [⟨d.head_block_time, 0, 0⟩] }) := by
  have hget : d.get_fund this = self := get_fund_of_find d this self hself
  have hhid : hist.id = self.history_id := find_fund_history_id d _ hist hhist
  have hrate : self.get_max_fund_rate self.balance = none := by
    rcases get_max_fund_rate_cases self self.balance with ⟨hn, -⟩ | ⟨fr, hmem, -, hle, -⟩
    · exact hn
    · exact absurd hle (htier fr hmem)
  have hloop : fund_object.process_deposits h d this asst
      { db := d, daily_payments_without_owner := 0, deps_to_remove := [], submitted := [] }
      = { db := d, daily_payments_without_owner := 0, deps_to_remove := [],
          submitted := [] } := by
    unfold fund_object.process_deposits
    rw [hnone]
    rfl
  have hpaid : fund_object.pay_owner h this asst self.balance
      { create_datetime := d.head_block_time, daily_profit := 0,
        daily_payments_without_owner := 0 }
      { db := d, daily_payments_without_owner := 0, deps_to_remove := [], submitted := [] }
      = ({ db := d, daily_payments_without_owner := 0, deps_to_remove := [],
           submitted := [] },
         { create_datetime := d.head_block_time, daily_profit := 0,
           daily_payments_without_owner := 0 }) :=
    pay_owner_no_tier h this asst self.balance _ _ (by rw [hget]; exact hfixed)
      (by rw [hget]; exact hrate)
  have herase : fund_object.erase_overdue_deposits
      { db := d, daily_payments_without_owner := 0, deps_to_remove := [], submitted := [] }
      = d := by
    unfold fund_object.erase_overdue_deposits
    split_ifs <;> rfl
  have hfind : (d.modify_fund_history self.history_id (fun o =>
        { o with
          items := erase_old_history_items d (o.items ++ [⟨d.head_block_time, 0, 0⟩]) })).find_fund_history self.history_id
      = some { hist with
        items := erase_old_history_items d hist.items ++ [⟨d.head_block_time, 0, 0⟩] } := by
    rw [find_fund_history_modify_fund_history _ _ _ _ (by intro _; rfl), hhist]
    simp only [Option.map_some', hhid, if_true]
    rw [erase_old_history_items_append d hist.items ⟨d.head_block_time, 0, 0⟩ rfl]
  unfold fund_object.process
  simp only [hget, hasst, hloop, hpaid, herase, hhist]
  rw [hhid] at hfind ⊢
  refine ⟨_, rfl, rfl, rfl, rfl, rfl, rfl, rfl, hfind, ?_⟩
  intro hs
  rw [hfind]
  unfold erase_old_history_items
  rw [if_neg (by omega)]

/-- C13, witness: the cycle of the fund 7 of `idle_db`, whose balance of 5000 is below
its tier of 10000 and which has no deposit. -/
theorem fund_process_idle_witness :
    ∃ st, fund_object.process crediting_host idle_db 7 = some st ∧
      st.submitted = [] ∧
      st.db = idle_db.modify_fund_history 9 (fun o =>
        { o with
          items := erase_old_history_items idle_db
            (o.items ++ [⟨idle_db.head_block_time, 0, 0⟩]) }) ∧
      st.db.funds = idle_db.funds ∧
      st.db.balances = idle_db.balances ∧
      st.db.accounts = idle_db.accounts ∧
      st.db.fund_deposits = idle_db.fund_deposits ∧
      st.db.find_fund_history 9 = some { (⟨9, [⟨100000, 1, 1⟩]⟩ : fund_history_object) with
        items := erase_old_history_items idle_db [⟨100000, 1, 1⟩]
          ++ [⟨idle_db.head_block_time, 0, 0⟩] } ∧
      (idle_db.history_size = 0 → st.db.find_fund_history 9
        = some { (⟨9, [⟨100000, 1, 1⟩]⟩ : fund_history_object) with
            items := [⟨100000, 1, 1⟩] ++ [⟨idle_db.head_block_time, 0, 0⟩] }) :=
  fund_process_idle crediting_host idle_db 7 { decay_fund with balance := 5000 } ⟨0, 1⟩
    ⟨9, [⟨100000, 1, 1⟩]⟩ (by rfl) (by rfl) (by rfl) (by decide) (by rfl) (by decide)

/-! ### Variant 2: the history item and the owner payment -/

theorem pay_owner_item_variant2 (h : host) (d : database) (this : Nat) (self : fund_object)
    (asst : asset_object) (p_rate : fund_rate)
    (hframe : h.keeps_fund_data)
    (hself : d.find_fund this = some self)
    (hnodup : (d.fund_deposits.map (fun x => x.id)).Nodup)
    (hfixed : self.fixed_percent_on_deposits = 0)
    (hrate : self.get_max_fund_rate self.balance = some p_rate) :
    (fund_object.pay_owner h this asst self.balance
      { create_datetime := d.head_block_time, daily_profit := 0,
        daily_payments_without_owner := 0 }
      (fund_object.process_deposits h d this asst
        { db := d, daily_payments_without_owner := 0, deps_to_remove := [],
          submitted := [] })).2
      = if self.fund_day_profit p_rate self.balance d.head_block_time > 0 then
          { create_datetime := d.head_block_time,
            daily_profit := self.fund_day_profit p_rate self.balance d.head_block_time,
            daily_payments_without_owner :=
              (fund_object.process_deposits h d this asst
                { db := d, daily_payments_without_owner := 0, deps_to_remove := [],
                  submitted := [] }).daily_payments_without_owner }
        else
          { create_datetime := d.head_block_time, daily_profit := 0,
            daily_payments_without_owner := 0 } := by
  obtain ⟨hfund, htime⟩ := process_deposits_fund h hframe d this self asst hself hnodup
  generalize fund_object.process_deposits h d this asst
    { db := d, daily_payments_without_owner := 0, deps_to_remove := [], submitted := [] }
    = st1 at hfund htime ⊢
  rw [pay_owner_variant2 h this asst self.balance _ st1 p_rate
    (by rw [hfund, (debit_fund_fields _ _ _).2.2.1]; exact hfixed)
    (by rw [hfund, debit_fund_get_max_fund_rate]; exact hrate)]
  rw [hfund, debit_fund_fund_day_profit, htime]
  split_ifs <;> rfl

/-- C12, counterexample: the fund `spent_fund` has a tier for its balance of 10000 and a
day profit of 0; its cycle pays 500 to the depositor, and the history item of the cycle
has `daily_payments_without_owner = 0`, not 500. -/
theorem fund_process_history_item_counterexample :
    spent_fund.fixed_percent_on_deposits = 0 ∧
    spent_fund.get_max_fund_rate 10000 = some ⟨10000, 10000⟩ ∧
    spent_fund.fund_day_profit ⟨10000, 10000⟩ 10000 2678400 = 0 ∧
    (fund_object.process crediting_host spent_db 7).map
      (fun st => (st.daily_payments_without_owner,
        (st.db.find_fund_history 9).map (fun o => o.items)))
      = some (500, some [⟨2678400, 0, 0⟩]) := by
  refine ⟨by decide, by decide, by decide, by decide⟩

/-- C12, amended: in a variant-2 cycle (`fixed_percent_on_deposits = 0`) in which
`get_max_fund_rate(old_balance)` returns a tier, the history item appended by the cycle
has `daily_profit = fund_day_profit` and `daily_payments_without_owner` = the
accumulated `daily_payments_without_owner` when `fund_day_profit > 0`; when
`fund_day_profit` is not positive both fields of the item are 0, whatever was paid to
the depositors. -/
theorem fund_process_history_item (h : host) (d : database) (this : Nat) (self : fund_object)
    (asst : asset_object) (hist : fund_history_object) (p_rate : fund_rate)
    (hframe : h.keeps_fund_data)
    (hself : d.find_fund this = some self)
    (hasst : d.find_asset self.asset_id = some asst)
    (hhist : d.find_fund_history self.history_id = some hist)
    (hnodup : (d.fund_deposits.map (fun x => x.id)).Nodup)
    (hfixed : self.fixed_percent_on_deposits = 0)
    (hrate : self.get_max_fund_rate self.balance = some p_rate) :
    ∃ st, fund_object.process h d this = some st ∧
      st.db.find_fund_history self.history_id = some { hist with
        items := erase_old_history_items d hist.items ++
          [if self.fund_day_profit p_rate self.balance d.head_block_time > 0 then
              { create_datetime := d.head_block_time,
                daily_profit := self.fund_day_profit p_rate self.balance d.head_block_time,
                daily_payments_without_owner := st.daily_payments_without_owner }
            else
              { create_datetime := d.head_block_time, daily_profit := 0,
                daily_payments_without_owner := 0 }] } := by
  obtain ⟨st, hst, -, hdaily, hh⟩ := process_result h d this self asst hist hframe hself
    hasst hhist hnodup
  refine ⟨st, hst, ?_⟩
  rw [hh, erase_old_history_items_append d hist.items _
    (pay_owner_create_datetime h this asst self.balance _ _),
    pay_owner_item_variant2 h d this self asst p_rate hframe hself hnodup hfixed hrate,
    hdaily, pay_owner_daily]

/-- C12, witness: the cycle of `decay_fund`, with a day profit of 700 and depositor
payments of 500. -/
theorem fund_process_history_item_witness :
    ∃ st, fund_object.process crediting_host decay_db 7 = some st ∧
      st.db.find_fund_history decay_fund.history_id
        = some { (⟨9, []⟩ : fund_history_object) with
          items := erase_old_history_items decay_db [] ++
            [if decay_fund.fund_day_profit ⟨10000, 10000⟩ decay_fund.balance
                  decay_db.head_block_time > 0 then
                { create_datetime := decay_db.head_block_time,
                  daily_profit := decay_fund.fund_day_profit ⟨10000, 10000⟩
                    decay_fund.balance decay_db.head_block_time,
                  daily_payments_without_owner := st.daily_payments_without_owner }
              else
                { create_datetime := decay_db.head_block_time, daily_profit := 0,
                  daily_payments_without_owner := 0 }] } :=
  fund_process_history_item crediting_host decay_db 7 decay_fund ⟨0, 1⟩ ⟨9, []⟩
    ⟨10000, 10000⟩ crediting_host_keeps_fund_data (by rfl) (by rfl) (by rfl) (by decide)
    (by rfl) (by decide)

theorem owner_payments_singleton (p : fund_payment_operation) (ok : Bool)
    (hp : p.deposit_id = none) : owner_payments [(.fund_payment p, ok)] = [p] := by
  simp [owner_payments, hp]

theorem asset_amount_amount (asst : asset_object) (a : Int) : (asst.amount a).amount = a :=
  rfl

/-- C11: in a variant-2 cycle (`fixed_percent_on_deposits = 0`), with a supply check
that returns an amount no larger than its input, at most one `fund_payment` to the owner
is submitted; when one is submitted a tier was found for the old balance, the payment
goes to the owner, its amount is positive, it is the result of the supply check on
`fund_day_profit - daily_payments_without_owner` and so is no larger than this
difference, and equal to it when the supply check returns its input; when no tier is
found, or when `fund_day_profit - daily_payments_without_owner <= 0`, no owner payment
is submitted. -/
theorem fund_process_owner_payment (h : host) (d : database) (this : Nat) (self : fund_object)
    (asst : asset_object) (hist : fund_history_object)
    (hframe : h.keeps_fund_data)
    (hself : d.find_fund this = some self)
    (hasst : d.find_asset self.asset_id = some asst)
    (hhist : d.find_fund_history self.history_id = some hist)
    (hnodup : (d.fund_deposits.map (fun x => x.id)).Nodup)
    (hfixed : self.fixed_percent_on_deposits = 0)
    (hclamp : ∀ (db : database) (a : asset), (h.check_supply_overflow db a).amount ≤ a.amount) :
    ∃ st, fund_object.process h d this = some st ∧
      (owner_payments st.submitted).length ≤ 1 ∧
      (∀ p ∈ owner_payments st.submitted, ∃ p_rate,
        self.get_max_fund_rate self.balance = some p_rate ∧
        p.issue_to_account = self.owner ∧
        0 < p.asset_to_issue.amount ∧
        p.asset_to_issue.amount ≤ self.fund_day_profit p_rate self.balance d.head_block_time
          - st.daily_payments_without_owner ∧
        (∃ db, p.asset_to_issue = h.check_supply_overflow db (asst.amount
          (self.fund_day_profit p_rate self.balance d.head_block_time
            - st.daily_payments_without_owner))) ∧
        ((∀ (db : database) (a : asset), h.check_supply_overflow db a = a) →
          p.asset_to_issue.amount = self.fund_day_profit p_rate self.balance d.head_block_time
            - st.daily_payments_without_owner)) ∧
      (self.get_max_fund_rate self.balance = none → owner_payments st.submitted = []) ∧
      (∀ p_rate, self.get_max_fund_rate self.balance = some p_rate →
        self.fund_day_profit p_rate self.balance d.head_block_time
          - st.daily_payments_without_owner ≤ 0 →
        owner_payments st.submitted = []) := by
  obtain ⟨st, hst, hsub, hdaily, -⟩ := process_result h d this self asst hist hframe hself
    hasst hhist hnodup
  obtain ⟨hfund, htime⟩ := process_deposits_fund h hframe d this self asst hself hnodup
  have hlog := owner_payments_process_deposits h d this asst
  rw [pay_owner_daily] at hdaily
  generalize fund_object.process_deposits h d this asst
    { db := d, daily_payments_without_owner := 0, deps_to_remove := [], submitted := [] }
    = st1 at hsub hdaily hfund htime hlog
  have hfixed1 : (st1.db.get_fund this).fixed_percent_on_deposits = 0 := by
    rw [hfund, (debit_fund_fields _ _ _).2.2.1]; exact hfixed
  have hmax1 : (st1.db.get_fund this).get_max_fund_rate self.balance
      = self.get_max_fund_rate self.balance := by
    rw [hfund, debit_fund_get_max_fund_rate]
  refine ⟨st, hst, ?_⟩
  rw [hsub, hdaily]
  cases hrate : self.get_max_fund_rate self.balance with
  | none =>
    rw [pay_owner_no_tier h this asst self.balance _ st1 hfixed1 (by rw [hmax1, hrate])]
    simp only [hlog]
    refine ⟨by simp, ?_, by simp, by simp⟩
    intro p hp
    simp at hp
  | some p_rate =>
    rw [pay_owner_variant2 h this asst self.balance _ st1 p_rate hfixed1
      (by rw [hmax1, hrate])]
    rw [hfund, debit_fund_fund_day_profit, htime, (debit_fund_fields _ _ _).2.2.2.2.2.1]
    by_cases hpos : self.fund_day_profit p_rate self.balance d.head_block_time > 0
    · rw [if_pos hpos]
      by_cases hamt : (h.check_supply_overflow st1.db (asst.amount
          (self.fund_day_profit p_rate self.balance d.head_block_time
            - st1.daily_payments_without_owner))).amount > 0
      · rw [if_pos hamt]
        obtain ⟨ok, hs, -, -⟩ := try_apply_submitted h st1 (.fund_payment
          { issuer := asst.issuer, fund_id := this, deposit_id := none,
            asset_to_issue := h.check_supply_overflow st1.db (asst.amount
              (self.fund_day_profit p_rate self.balance d.head_block_time
                - st1.daily_payments_without_owner)),
            issue_to_account := self.owner })
        simp only [hs, owner_payments_append, hlog, List.nil_append]
        rw [owner_payments_singleton _ ok rfl]
        have hle := hclamp st1.db (asst.amount
          (self.fund_day_profit p_rate self.balance d.head_block_time
            - st1.daily_payments_without_owner))
        rw [asset_amount_amount] at hle
        refine ⟨by simp, ?_, fun hn => by simp at hn, ?_⟩
        · intro p hp
          rw [List.mem_singleton] at hp
          subst hp
          refine ⟨p_rate, rfl, rfl, hamt, hle, ⟨st1.db, rfl⟩, ?_⟩
          intro hid
          show (h.check_supply_overflow st1.db _).amount = _
          rw [hid]
          rfl
        · intro q hq hnonpos
          simp only [Option.some.injEq] at hq
          subst hq
          omega
      · rw [if_neg hamt]
        simp only [hlog]
        refine ⟨by simp, ?_, by simp, by simp⟩
        intro p hp
        simp at hp
    · rw [if_neg hpos]
      simp only [hlog]
      refine ⟨by simp, ?_, by simp, by simp⟩
      intro p hp
      simp at hp

/-- C11, witness: the cycle of `decay_fund`: day profit 700, depositor payments 500, one
payment of 200 to the owner. -/
theorem fund_process_owner_payment_witness :
    (∃ st, fund_object.process crediting_host decay_db 7 = some st ∧
      (owner_payments st.submitted).length ≤ 1 ∧
      (∀ p ∈ owner_payments st.submitted, ∃ p_rate,
        decay_fund.get_max_fund_rate decay_fund.balance = some p_rate ∧
        p.issue_to_account = decay_fund.owner ∧
        0 < p.asset_to_issue.amount ∧
        p.asset_to_issue.amount
          ≤ decay_fund.fund_day_profit p_rate decay_fund.balance decay_db.head_block_time
            - st.daily_payments_without_owner ∧
        (∃ db, p.asset_to_issue = crediting_host.check_supply_overflow db
          ((⟨0, 1⟩ : asset_object).amount
            (decay_fund.fund_day_profit p_rate decay_fund.balance decay_db.head_block_time
              - st.daily_payments_without_owner))) ∧
        ((∀ (db : database) (a : asset), crediting_host.check_supply_overflow db a = a) →
          p.asset_to_issue.amount
            = decay_fund.fund_day_profit p_rate decay_fund.balance decay_db.head_block_time
              - st.daily_payments_without_owner)) ∧
      (decay_fund.get_max_fund_rate decay_fund.balance = none →
        owner_payments st.submitted = []) ∧
      (∀ p_rate, decay_fund.get_max_fund_rate decay_fund.balance = some p_rate →
        decay_fund.fund_day_profit p_rate decay_fund.balance decay_db.head_block_time
          - st.daily_payments_without_owner ≤ 0 →
        owner_payments st.submitted = [])) ∧
    (fund_object.process crediting_host decay_db 7).map
      (fun st => owner_payments st.submitted) = some [⟨1, 7, none, ⟨200, 0⟩, 1⟩] :=
  ⟨fund_process_owner_payment crediting_host decay_db 7 decay_fund ⟨0, 1⟩ ⟨9, []⟩
    crediting_host_keeps_fund_data (by rfl) (by rfl) (by rfl) (by decide) (by rfl)
    (fun _ _ => le_refl _), by decide⟩

/-! ### Closing a fund -/

/-- C18: `finish` returns, and afterwards the fund has `owner_balance = 0` and `enabled =
false`; if `owner_balance` was positive, exactly one sub-operation was submitted, a
`fund_withdrawal` of `owner_balance` to the owner, and `fund.balance` is lower by that
`owner_balance`; otherwise no sub-operation was submitted and `fund.balance` is as
before. The other fields of the fund are unchanged. -/
theorem fund_finish_spec (h : host) (d : database) (this : Nat) (self : fund_object)
    (asst : asset_object)
    (hframe : h.keeps_fund_data)
    (hself : d.find_fund this = some self)
    (hasst : 0 < self.owner_balance → d.find_asset self.asset_id = some asst) :
    ∃ st, fund_object.finish h d this = some st ∧
      (∃ f, st.db.find_fund this = some f ∧ f.owner_balance = 0 ∧ f.enabled = false ∧
        f = { self with
          balance := if 0 < self.owner_balance then self.balance - self.owner_balance
            else self.balance,
          owner_balance := 0, enabled := false }) ∧
      (0 < self.owner_balance →
        (∃ ok, st.submitted = [(.fund_withdrawal
          { issuer := asst.issuer, fund_id := this,
            asset_to_issue := asst.amount self.owner_balance,
            issue_to_account := self.owner, datetime := d.head_block_time }, ok)]) ∧
        (st.db.get_fund this).balance = self.balance - self.owner_balance) ∧
      (¬ 0 < self.owner_balance →
        st.submitted = [] ∧ (st.db.get_fund this).balance = self.balance) := by
  have hget : d.get_fund this = self := get_fund_of_find d this self hself
  have hid : self.id = this := find_fund_id d this self hself
  unfold fund_object.finish
  simp only [hget]
  by_cases hpos : 0 < self.owner_balance
  · have hgt : self.owner_balance > 0 := hpos
    simp only [hgt, if_true, hasst hpos, Option.map_some']
    have hag := try_apply_agrees h hframe
      { db := d, daily_payments_without_owner := 0, deps_to_remove := [], submitted := [] }
      (.fund_withdrawal
        { issuer := asst.issuer, fund_id := this,
          asset_to_issue := asst.amount self.owner_balance,
          issue_to_account := self.owner, datetime := d.head_block_time })
    obtain ⟨ok, hs, -, -⟩ := try_apply_submitted h
      { db := d, daily_payments_without_owner := 0, deps_to_remove := [], submitted := [] }
      (.fund_withdrawal
        { issuer := asst.issuer, fund_id := this,
          asset_to_issue := asst.amount self.owner_balance,
          issue_to_account := self.owner, datetime := d.head_block_time })
    generalize h.try_apply
      { db := d, daily_payments_without_owner := 0, deps_to_remove := [], submitted := [] }
      (.fund_withdrawal
        { issuer := asst.issuer, fund_id := this,
          asset_to_issue := asst.amount self.owner_balance,
          issue_to_account := self.owner, datetime := d.head_block_time }) = st1 at hag hs ⊢
    have hfind : (st1.db.modify_fund this (fun f =>
        { f with balance := f.balance - self.owner_balance, owner_balance := 0,
                 enabled := false })).find_fund this
        = some { self with balance := self.balance - self.owner_balance, owner_balance := 0,
                           enabled := false } := by
      rw [find_fund_modify_fund _ _ _ _ (by intro _; rfl), hag.funds this, hself]
      simp [hid]
    refine ⟨_, rfl, ⟨_, hfind, rfl, rfl, rfl⟩, ?_, fun hn => absurd trivial hn⟩
    intro _
    refine ⟨⟨ok, hs⟩, ?_⟩
    rw [get_fund_of_find _ _ _ hfind]
  · have hgt : ¬ self.owner_balance > 0 := hpos
    simp only [hgt, if_false, Option.map_some']
    have hfind : (d.modify_fund this (fun f =>
        { f with owner_balance := 0, enabled := false })).find_fund this
        = some { self with owner_balance := 0, enabled := false } := by
      rw [find_fund_modify_fund _ _ _ _ (by intro _; rfl), hself]
      simp [hid]
    refine ⟨_, rfl, ⟨_, hfind, rfl, rfl, rfl⟩, fun hp => hp.elim, ?_⟩
    intro _
    refine ⟨rfl, ?_⟩
    rw [get_fund_of_find _ _ _ hfind]

/-- C18, witness: closing the fund of `closing_db`, whose owner holds 200 of the balance
of 1500: a withdrawal of 200 to the owner 1 is submitted and the balance becomes 1300. -/
theorem fund_finish_spec_witness :
    (∃ st, fund_object.finish crediting_host closing_db 7 = some st ∧
      (∃ f, st.db.find_fund 7 = some f ∧ f.owner_balance = 0 ∧ f.enabled = false ∧
        f = { closing_fund with
          balance := if 0 < closing_fund.owner_balance
            then closing_fund.balance - closing_fund.owner_balance
            else closing_fund.balance,
          owner_balance := 0, enabled := false }) ∧
      (0 < closing_fund.owner_balance →
        (∃ ok, st.submitted = [(.fund_withdrawal
          { issuer := (⟨0, 1⟩ : asset_object).issuer, fund_id := 7,
            asset_to_issue := (⟨0, 1⟩ : asset_object).amount closing_fund.owner_balance,
            issue_to_account := closing_fund.owner,
            datetime := closing_db.head_block_time }, ok)]) ∧
        (st.db.get_fund 7).balance = closing_fund.balance - closing_fund.owner_balance) ∧
      (¬ 0 < closing_fund.owner_balance →
        st.submitted = [] ∧ (st.db.get_fund 7).balance = closing_fund.balance)) ∧
    (fund_object.finish crediting_host closing_db 7).map
      (fun st => (st.submitted, st.db.find_fund 7,
        st.db.get_balance 1 0))
      = some ([(.fund_withdrawal ⟨1, 7, ⟨200, 0⟩, 1, 1000000⟩, true)],
          some { example_fund with balance := 1300, owner_balance := 0, enabled := false },
          300) :=
  ⟨fund_finish_spec crediting_host closing_db 7 closing_fund ⟨0, 1⟩
    crediting_host_keeps_fund_data (by rfl) (fun _ => rfl), by decide⟩

/-! ### One deposit in the loop -/

theorem process_deposit_shape (h : host) (hframe : h.keeps_fund_data) (this : Nat)
    (asst : asset_object) (st : process_state) (k : Nat) (x : fund_deposit_object)
    (hx : st.db.find_deposit k = some x) (hen : x.enabled = true) :
    fund_object.process_deposit h this asst st k =
      if deposit_overdue st.db x = true then
        if deposit_autorenewed h st.db x = true then
          if st.db.head_block_time > h.HARDFORK_625_TIME then
            h.try_apply (fund_object.pay_depositor h this asst
                ((st.db.get_fund this).get_payment_rate x.period) st k)
              (.deposit_renewal
                { account_id := x.account_id, deposit_id := k,
                  percent :=
                    match (st.db.get_fund this).get_payment_rate x.period with
                    | some rate => rate.percent
                    | none => x.percent,
                  datetime_end := time_point_sec_add x.datetime_end
                    ((86400 * x.period) % 4294967296) })
          else
            { fund_object.pay_depositor h this asst
                ((st.db.get_fund this).get_payment_rate x.period) st k with
              db := (fund_object.pay_depositor h this asst
                  ((st.db.get_fund this).get_payment_rate x.period) st k).db.modify_deposit k
                (fund_object.renew_in_place ((st.db.get_fund this).get_payment_rate x.period)
                  (fund_object.pay_depositor h this asst
                    ((st.db.get_fund this).get_payment_rate x.period) st k).db) }
        else
          fund_object.retire_deposit h this asst
            (fund_object.pay_depositor h this asst
              ((st.db.get_fund this).get_payment_rate x.period) st k) k
      else
        fund_object.pay_depositor h this asst
          ((st.db.get_fund this).get_payment_rate x.period) st k := by
  have hget : st.db.get_deposit k = x := get_deposit_of_find _ _ _ hx
  unfold fund_object.process_deposit
  simp only [hget, hen, if_true]
  obtain ⟨hpay, -⟩ := pay_depositor_agrees h hframe this asst
    ((st.db.get_fund this).get_payment_rate x.period) st k
  generalize fund_object.pay_depositor h this asst
    ((st.db.get_fund this).get_payment_rate x.period) st k = st1 at hpay ⊢
  generalize (st.db.get_fund this).get_payment_rate x.period = p_rate
  have hx1 : st1.db.find_deposit k = some x := by
    rw [hpay.deposits k (by simp), hx]
  have hget1 : st1.db.get_deposit k = x := get_deposit_of_find _ _ _ hx1
  rw [hget1]
  by_cases ho : deposit_overdue st.db x = true
  · have hov : time_point_sec_sub st1.db.next_maintenance_time st1.db.maintenance_interval
        ≥ x.datetime_end := by
      rw [hpay.chain.next_maintenance_time, hpay.chain.maintenance_interval]
      simpa [deposit_overdue] using ho
    rw [if_pos hov, if_pos ho]
    unfold fund_object.renew_deposit fund_object.renewal_operation deposit_autorenewed
    rw [hget1, hpay.chain.head_block_time, hpay.chain.accounts]
    by_cases h624 : st.db.head_block_time ≥ h.HARDFORK_624_TIME
    · cases hacc : st.db.find_account x.account_id with
      | none => simp [h624]
      | some acc =>
        by_cases hauto : acc.deposits_autorenewal_enabled = true
        · by_cases h625 : st.db.head_block_time > h.HARDFORK_625_TIME
          · simp [h624, hauto, h625]
          · simp [h624, hauto, h625]
        · simp [h624, hauto]
    · simp [h624]
  · have hov : ¬ time_point_sec_sub st1.db.next_maintenance_time st1.db.maintenance_interval
        ≥ x.datetime_end := by
      rw [hpay.chain.next_maintenance_time, hpay.chain.maintenance_interval]
      simpa [deposit_overdue] using ho
    rw [if_neg hov, if_neg ho]

theorem retire_deposit_log (h : host) (this : Nat) (asst : asset_object)
    (st : process_state) (k : Nat) :
    ∃ ok, (fund_object.retire_deposit h this asst st k).submitted = st.submitted ++
        [(.fund_withdrawal
          { issuer := asst.issuer, fund_id := this,
            asset_to_issue := asst.amount (st.db.get_deposit k).amount,
            issue_to_account := (st.db.get_deposit k).account_id,
            datetime := st.db.head_block_time }, ok)] ∧
      (fund_object.retire_deposit h this asst st k).daily_payments_without_owner
        = st.daily_payments_without_owner := by
  unfold fund_object.retire_deposit fund_object.withdrawal_operation
  obtain ⟨ok, hs, hd, -⟩ := try_apply_submitted h
    { st with deps_to_remove := st.deps_to_remove ++ [k] }
    (.fund_withdrawal
      { issuer := asst.issuer, fund_id := this,
        asset_to_issue := asst.amount (st.db.get_deposit k).amount,
        issue_to_account := (st.db.get_deposit k).account_id,
        datetime := st.db.head_block_time })
  exact ⟨ok, hs, hd⟩

theorem pay_depositor_some (h : host) (this : Nat) (asst : asset_object)
    (rate : payment_rate) (st : process_state) (k : Nat) :
    fund_object.pay_depositor h this asst (some rate) st k =
      if 0 < fund_object.payment_quantity rate (st.db.get_deposit k) ∧
          0 < (h.check_supply_overflow st.db (asst.amount
            (fund_object.payment_quantity rate (st.db.get_deposit k)))).amount then
        { h.try_apply st (.fund_payment
            { issuer := asst.issuer, fund_id := this, deposit_id := some k,
              asset_to_issue := h.check_supply_overflow st.db (asst.amount
                (fund_object.payment_quantity rate (st.db.get_deposit k))),
              issue_to_account := (st.db.get_deposit k).account_id }) with
          daily_payments_without_owner := st.daily_payments_without_owner
            + (h.check_supply_overflow st.db (asst.amount
                (fund_object.payment_quantity rate (st.db.get_deposit k)))).amount }
      else st := by
  unfold fund_object.pay_depositor fund_object.payment_operation
  simp only []
  obtain ⟨ok, -, hd, -⟩ := try_apply_submitted h st (.fund_payment
    { issuer := asst.issuer, fund_id := this, deposit_id := some k,
      asset_to_issue := h.check_supply_overflow st.db (asst.amount
        (fund_object.payment_quantity rate (st.db.get_deposit k))),
      issue_to_account := (st.db.get_deposit k).account_id })
  by_cases hq : fund_object.payment_quantity rate (st.db.get_deposit k) > 0
  · by_cases ha : (h.check_supply_overflow st.db (asst.amount
        (fund_object.payment_quantity rate (st.db.get_deposit k)))).amount > 0
    · rw [if_pos hq, if_pos ha, if_pos ⟨hq, ha⟩, hd]
    · rw [if_pos hq, if_neg ha, if_neg (fun hc => ha hc.2)]
  · rw [if_neg hq, if_neg (fun hc => hq hc.1)]

theorem deposits_visited_spec (h : host) (hframe : h.keeps_fund_data) (d : database)
    (this : Nat) (self : fund_object) (asst : asset_object)
    (pre post : List fund_deposit_object) (x : fund_deposit_object)
    (hself : d.find_fund this = some self)
    (hnodup : (d.fund_deposits.map (fun x => x.id)).Nodup)
    (hrange : d.fund_deposits.filter (fun dep => dep.fund_id == this) = pre ++ x :: post) :
    fund_object.process_deposits h d this asst
        { db := d, daily_payments_without_owner := 0, deps_to_remove := [], submitted := [] }
      = (post.map (fun dep => dep.id)).foldl (fund_object.process_deposit h this asst)
          (fund_object.process_deposit h this asst
            (fund_object.deposits_visited h d this asst pre) x.id) ∧
    d.same_chain (fund_object.deposits_visited h d this asst pre).db ∧
    (fund_object.deposits_visited h d this asst pre).db.find_deposit x.id = some x ∧
    (fund_object.deposits_visited h d this asst pre).db.find_fund this
      = some (debit_fund this (retired_sum h d pre) self) ∧
    x.id ∉ (fund_object.deposits_visited h d this asst pre).deps_to_remove ∧
    (deposit_retired h d x = false →
      x.id ∉ (fund_object.process_deposits h d this asst
        { db := d, daily_payments_without_owner := 0, deps_to_remove := [],
          submitted := [] }).deps_to_remove) := by
  have hsub : (d.fund_deposits.filter (fun dep => dep.fund_id == this)).Sublist
      d.fund_deposits := List.filter_sublist _
  have hnodup2 : ((pre ++ x :: post).map (fun x => x.id)).Nodup := by
    rw [← hrange]
    exact List.Nodup.sublist (List.Sublist.map _ hsub) hnodup
  have hmem : ∀ y ∈ pre ++ x :: post, d.find_deposit y.id = some y := by
    intro y hy
    rw [← hrange] at hy
    exact find_deposit_of_mem d y hnodup (List.mem_of_mem_filter hy)
  have hinv0 : deposits_loop_inv h this d []
      { db := d, daily_payments_without_owner := 0, deps_to_remove := [],
        submitted := [] } := by
    refine ⟨same_chain_refl d, ?_, ?_, ?_, rfl⟩
    · intro j
      show d.find_fund j = _
      cases d.find_fund j with
      | none => rfl
      | some f => simp [retired_sum, debit_fund_zero]
    · intro k _
      rfl
    · intro y hy
      cases hy
  have hnodup3 : ((pre ++ [x]).map (fun x => x.id)).Nodup := by
    have hsub2 : (pre ++ [x]).Sublist (pre ++ x :: post) := by
      apply List.Sublist.append_left
      simp
    exact List.Nodup.sublist (List.Sublist.map _ hsub2) hnodup2
  have hpre : ∀ y ∈ pre, y.id ≠ x.id := by
    intro y hy heq
    rw [List.map_append, List.nodup_append] at hnodup3
    exact hnodup3.2.2 (List.mem_map.mpr ⟨y, hy, heq⟩) (by simp)
  have hinv : deposits_loop_inv h this d pre
      (fund_object.deposits_visited h d this asst pre) := by
    have := deposits_loop_inv_foldl h hframe this asst d pre [] _ hinv0
      (by
        rw [List.nil_append]
        have hsub2 : pre.Sublist (pre ++ x :: post) := List.sublist_append_left _ _
        exact List.Nodup.sublist (List.Sublist.map _ hsub2) hnodup2)
      (fun y hy => hmem y (List.mem_append_left _ hy))
    simpa using this
  refine ⟨?_, hinv.chain, ?_, ?_, ?_, ?_⟩
  · unfold fund_object.process_deposits fund_object.deposits_visited
    rw [hrange, List.map_append, List.foldl_append, List.map_cons, List.foldl_cons]
  · rw [hinv.pending x.id hpre]
    exact hmem x (by simp)
  · rw [hinv.funds this, hself]
    rfl
  · rw [hinv.to_remove]
    intro hin
    obtain ⟨y, hy, heq⟩ := List.mem_map.mp hin
    exact hpre y (List.mem_of_mem_filter hy) heq
  · intro hnot hin
    have hfull := deposits_loop_inv_process_deposits h hframe d this asst
      { db := d, daily_payments_without_owner := 0, deps_to_remove := [], submitted := [] }
      rfl rfl hnodup
    rw [hfull.to_remove] at hin
    obtain ⟨y, hy, heq⟩ := List.mem_map.mp hin
    have hy1 : y ∈ pre ++ x :: post := by
      rw [← hrange]
      exact List.mem_of_mem_filter hy
    have hyx : y = x := by
      have h1 := hmem y hy1
      have h2 := hmem x (by simp)
      rw [heq, h2] at h1
      exact (Option.some.inj h1).symm
    have hret : deposit_retired h d y = true := by
      have := (List.mem_filter.mp hy).2
      simpa using this
    rw [hyx, hnot] at hret
    cases hret

theorem deposit_overdue_same_chain {d1 d2 : database} (hc : d1.same_chain d2)
    (x : fund_deposit_object) : deposit_overdue d2 x = deposit_overdue d1 x := by
  unfold deposit_overdue
  rw [hc.next_maintenance_time, hc.maintenance_interval]

theorem debit_fund_balance (this : Nat) (amount : Int) (f : fund_object) (hid : f.id = this) :
    (debit_fund this amount f).balance = f.balance - amount := by
  unfold debit_fund
  rw [if_pos hid]

/-- C16: in the cycle of a fund, the iteration for an enabled deposit `x` whose period
has no entry in `payment_rates` submits no `fund_payment` and leaves
`daily_payments_without_owner` as it was; if the deposit is overdue and not autorenewed
the iteration submits exactly one sub-operation, the `fund_withdrawal` of `x.amount` to
`x.account_id`, lowers `fund.balance` by `x.amount`, disables the deposit and queues it
in `deps_to_remove`. -/
theorem process_deposit_without_rate (h : host) (d : database) (this : Nat)
    (self : fund_object) (asst : asset_object) (pre post : List fund_deposit_object)
    (x : fund_deposit_object)
    (hframe : h.keeps_fund_data)
    (hself : d.find_fund this = some self)
    (hnodup : (d.fund_deposits.map (fun x => x.id)).Nodup)
    (hrange : d.fund_deposits.filter (fun dep => dep.fund_id == this) = pre ++ x :: post)
    (hen : x.enabled = true)
    (hrate : self.get_payment_rate x.period = none) :
    fund_object.process_deposits h d this asst
        { db := d, daily_payments_without_owner := 0, deps_to_remove := [], submitted := [] }
      = (post.map (fun dep => dep.id)).foldl (fund_object.process_deposit h this asst)
          (fund_object.process_deposit h this asst
            (fund_object.deposits_visited h d this asst pre) x.id) ∧
    (fund_object.process_deposit h this asst
        (fund_object.deposits_visited h d this asst pre) x.id).daily_payments_without_owner
      = (fund_object.deposits_visited h d this asst pre).daily_payments_without_owner ∧
    (∃ added, (fund_object.process_deposit h this asst
        (fund_object.deposits_visited h d this asst pre) x.id).submitted
        = (fund_object.deposits_visited h d this asst pre).submitted ++ added ∧
      ∀ e ∈ added, ∀ p, e.1 ≠ .fund_payment p) ∧
    (deposit_overdue d x = true → deposit_autorenewed h d x = false →
      (∃ ok, (fund_object.process_deposit h this asst
          (fund_object.deposits_visited h d this asst pre) x.id).submitted
          = (fund_object.deposits_visited h d this asst pre).submitted ++
            [(.fund_withdrawal
              { issuer := asst.issuer, fund_id := this,
                asset_to_issue := asst.amount x.amount,
                issue_to_account := x.account_id,
                datetime := d.head_block_time }, ok)]) ∧
      ((fund_object.process_deposit h this asst
          (fund_object.deposits_visited h d this asst pre) x.id).db.get_fund this).balance
        = ((fund_object.deposits_visited h d this asst pre).db.get_fund this).balance
          - x.amount ∧
      (fund_object.process_deposit h this asst
          (fund_object.deposits_visited h d this asst pre) x.id).db.find_deposit x.id
        = some { x with enabled := false } ∧
      (fund_object.process_deposit h this asst
          (fund_object.deposits_visited h d this asst pre) x.id).deps_to_remove
        = (fund_object.deposits_visited h d this asst pre).deps_to_remove ++ [x.id]) := by
  obtain ⟨hsplit, hchain, hfind, hfund, -, -⟩ := deposits_visited_spec h hframe d this self
    asst pre post x hself hnodup hrange
  have hid : self.id = this := find_fund_id d this self hself
  generalize fund_object.deposits_visited h d this asst pre = st at hsplit hchain hfind hfund ⊢
  have hgetx : st.db.get_deposit x.id = x := get_deposit_of_find _ _ _ hfind
  have hgetf : st.db.get_fund this = debit_fund this (retired_sum h d pre) self :=
    get_fund_of_find _ _ _ hfund
  have hnorate : (st.db.get_fund this).get_payment_rate x.period = none := by
    rw [hgetf, debit_fund_get_payment_rate, hrate]
  have hshape := process_deposit_shape h hframe this asst st x.id x hfind hen
  rw [hnorate, deposit_overdue_same_chain hchain, deposit_autorenewed_same_chain h hchain,
    hchain.head_block_time] at hshape
  have hpay : fund_object.pay_depositor h this asst none st x.id = st := rfl
  rw [hpay] at hshape
  refine ⟨hsplit, ?_, ?_, ?_⟩
  · rw [hshape]
    split_ifs
    · exact (try_apply_submitted h st _).choose_spec.2.1
    · rfl
    · obtain ⟨ok, -, hd⟩ := retire_deposit_log h this asst st x.id
      exact hd
    · rfl
  · rw [hshape]
    split_ifs
    · obtain ⟨ok, hs, -, -⟩ := try_apply_submitted h st (.deposit_renewal
        { account_id := x.account_id, deposit_id := x.id, percent := x.percent,
          datetime_end := time_point_sec_add x.datetime_end
            ((86400 * x.period) % 4294967296) })
      refine ⟨_, hs, ?_⟩
      intro e he p
      rw [List.mem_singleton] at he
      rw [he]
      simp
    · exact ⟨[], by simp, by simp⟩
    · obtain ⟨ok, hs, -⟩ := retire_deposit_log h this asst st x.id
      refine ⟨_, hs, ?_⟩
      intro e he p
      rw [List.mem_singleton] at he
      rw [he]
      simp
    · exact ⟨[], by simp, by simp⟩
  · intro hov hauto
    have hret : deposit_retired h st.db x = true := by
      rw [deposit_retired_same_chain h hchain]
      simp [deposit_retired, hen, hov, hauto]
    obtain ⟨-, -, hstep, -⟩ := process_deposit_step h hframe this asst st x.id x hfind
    obtain ⟨hfunds, hdep, hrem⟩ := hstep hret
    refine ⟨?_, ?_, hdep, hrem⟩
    · rw [hshape, if_pos hov, if_neg (by rw [hauto]; simp)]
      obtain ⟨ok, hs, -⟩ := retire_deposit_log h this asst st x.id
      rw [hgetx, hchain.head_block_time] at hs
      exact ⟨ok, hs⟩
    · have hf2 := hfunds this
      rw [hfund] at hf2
      rw [get_fund_of_find _ _ _ hf2, hgetf, debit_fund_balance _ _ _
        (by rw [debit_fund_id]; exact hid)]

/-- C16, witness: in the cycle of the example fund over `unrated_db` the second deposit,
of 500 over 90 days, has no payment rate and is overdue: the iteration submits only the
withdrawal of 500 to account 3. -/
theorem process_deposit_without_rate_witness :
    ((∃ ok, (fund_object.process_deposit crediting_host 7 ⟨0, 1⟩
          (fund_object.deposits_visited crediting_host unrated_db 7 ⟨0, 1⟩ [running_deposit])
          unrated_deposit.id).submitted
          = (fund_object.deposits_visited crediting_host unrated_db 7 ⟨0, 1⟩
              [running_deposit]).submitted ++
            [(.fund_withdrawal
              { issuer := (⟨0, 1⟩ : asset_object).issuer, fund_id := 7,
                asset_to_issue := (⟨0, 1⟩ : asset_object).amount unrated_deposit.amount,
                issue_to_account := unrated_deposit.account_id,
                datetime := unrated_db.head_block_time }, ok)]) ∧
      ((fund_object.process_deposit crediting_host 7 ⟨0, 1⟩
          (fund_object.deposits_visited crediting_host unrated_db 7 ⟨0, 1⟩ [running_deposit])
          unrated_deposit.id).db.get_fund 7).balance
        = ((fund_object.deposits_visited crediting_host unrated_db 7 ⟨0, 1⟩
            [running_deposit]).db.get_fund 7).balance - unrated_deposit.amount ∧
      (fund_object.process_deposit crediting_host 7 ⟨0, 1⟩
          (fund_object.deposits_visited crediting_host unrated_db 7 ⟨0, 1⟩ [running_deposit])
          unrated_deposit.id).db.find_deposit unrated_deposit.id
        = some { unrated_deposit with enabled := false } ∧
      (fund_object.process_deposit crediting_host 7 ⟨0, 1⟩
          (fund_object.deposits_visited crediting_host unrated_db 7 ⟨0, 1⟩ [running_deposit])
          unrated_deposit.id).deps_to_remove
        = (fund_object.deposits_visited crediting_host unrated_db 7 ⟨0, 1⟩
            [running_deposit]).deps_to_remove ++ [unrated_deposit.id]) ∧
    (fund_object.process crediting_host unrated_db 7).map
      (fun st => (st.submitted, st.daily_payments_without_owner,
        (st.db.get_fund 7).balance, st.db.find_deposit 6))
      = some ([(.fund_payment ⟨1, 7, some 5, ⟨10, 0⟩, 2⟩, true),
               (.fund_withdrawal ⟨1, 7, ⟨500, 0⟩, 3, 1000000⟩, true),
               (.fund_payment ⟨1, 7, none, ⟨1, 0⟩, 1⟩, true)],
              10, 1000, some { unrated_deposit with enabled := false }) :=
  ⟨(process_deposit_without_rate crediting_host unrated_db 7 example_fund ⟨0, 1⟩
      [running_deposit] [] unrated_deposit crediting_host_keeps_fund_data (by rfl)
      (by decide) (by rfl) (by rfl) (by decide)).2.2.2 (by decide) (by decide), by decide⟩

theorem time_point_sec_add_of_lt (t period : Nat) (hend : t + 86400 * period < 4294967296) :
    time_point_sec_add t ((86400 * period) % 4294967296) = t + 86400 * period := by
  unfold time_point_sec_add
  omega

/-- C17: in the cycle of a fund, the iteration for an enabled overdue deposit `x` whose
account has `deposits_autorenewal_enabled`, at a head block time after
`HARDFORK_625_TIME` (and not before `HARDFORK_624_TIME`), ends with the submission of a
`deposit_renewal` with `percent` = the percent of the payment rate of `x.period` when
there is one and `x.percent` otherwise, and `datetime_end = x.datetime_end + 86400 *
x.period` (a time that fits the 32 bits of `time_point_sec`). Before it the iteration
submits at most the payment to the depositor, so no `fund_withdrawal`; the deposit is not
queued in `deps_to_remove`, neither by this iteration nor by the end of the loop; the
fund object, so `fund.balance`, is not changed by the iteration; the routine itself does
not touch the deposit, which stays enabled when the renewal sub-operation keeps the
flag. -/
theorem process_deposit_autorenewal (h : host) (d : database) (this : Nat)
    (self : fund_object) (asst : asset_object) (pre post : List fund_deposit_object)
    (x : fund_deposit_object) (acc : account_object)
    (hframe : h.keeps_fund_data)
    (hself : d.find_fund this = some self)
    (hnodup : (d.fund_deposits.map (fun x => x.id)).Nodup)
    (hrange : d.fund_deposits.filter (fun dep => dep.fund_id == this) = pre ++ x :: post)
    (hen : x.enabled = true)
    (hov : deposit_overdue d x = true)
    (hacc : d.find_account x.account_id = some acc)
    (hauto : acc.deposits_autorenewal_enabled = true)
    (h624 : d.head_block_time ≥ h.HARDFORK_624_TIME)
    (h625 : d.head_block_time > h.HARDFORK_625_TIME)
    (hend : x.datetime_end + 86400 * x.period < 4294967296) :
    fund_object.process_deposits h d this asst
        { db := d, daily_payments_without_owner := 0, deps_to_remove := [], submitted := [] }
      = (post.map (fun dep => dep.id)).foldl (fund_object.process_deposit h this asst)
          (fund_object.process_deposit h this asst
            (fund_object.deposits_visited h d this asst pre) x.id) ∧
    fund_object.process_deposit h this asst
        (fund_object.deposits_visited h d this asst pre) x.id
      = h.try_apply (fund_object.pay_depositor h this asst (self.get_payment_rate x.period)
          (fund_object.deposits_visited h d this asst pre) x.id)
        (.deposit_renewal
          { account_id := x.account_id, deposit_id := x.id,
            percent :=
              match self.get_payment_rate x.period with
              | some rate => rate.percent
              | none => x.percent,
            datetime_end := x.datetime_end + 86400 * x.period }) ∧
    (∃ ok pays, (fund_object.process_deposit h this asst
        (fund_object.deposits_visited h d this asst pre) x.id).submitted
        = (fund_object.deposits_visited h d this asst pre).submitted ++ pays ++
          [(.deposit_renewal
            { account_id := x.account_id, deposit_id := x.id,
              percent :=
                match self.get_payment_rate x.period with
                | some rate => rate.percent
                | none => x.percent,
              datetime_end := x.datetime_end + 86400 * x.period }, ok)] ∧
      ∀ e ∈ pays, ∃ p, e.1 = .fund_payment p ∧ p.deposit_id = some x.id) ∧
    ((fund_object.process_deposit h this asst
        (fund_object.deposits_visited h d this asst pre) x.id).deps_to_remove
        = (fund_object.deposits_visited h d this asst pre).deps_to_remove ∧
      x.id ∉ (fund_object.process_deposit h this asst
        (fund_object.deposits_visited h d this asst pre) x.id).deps_to_remove ∧
      x.id ∉ (fund_object.process_deposits h d this asst
        { db := d, daily_payments_without_owner := 0, deps_to_remove := [],
          submitted := [] }).deps_to_remove) ∧
    (fund_object.process_deposit h this asst
        (fund_object.deposits_visited h d this asst pre) x.id).db.find_fund this
      = (fund_object.deposits_visited h d this asst pre).db.find_fund this ∧
    (fund_object.pay_depositor h this asst (self.get_payment_rate x.period)
        (fund_object.deposits_visited h d this asst pre) x.id).db.find_deposit x.id
      = some x ∧
    ((∀ (db : database) (r : deposit_renewal_operation),
        ((h.apply_operation db (.deposit_renewal r)).1.get_deposit r.deposit_id).enabled
          = (db.get_deposit r.deposit_id).enabled) →
      ((fund_object.process_deposit h this asst
        (fund_object.deposits_visited h d this asst pre) x.id).db.get_deposit x.id).enabled
        = true) := by
  have hautor : deposit_autorenewed h d x = true := by
    simp [deposit_autorenewed, h624, hacc, hauto]
  have hnotret : deposit_retired h d x = false := by
    simp [deposit_retired, hautor]
  obtain ⟨hsplit, hchain, hfind, hfund, hnotin, hfinal⟩ := deposits_visited_spec h hframe d
    this self asst pre post x hself hnodup hrange
  generalize fund_object.deposits_visited h d this asst pre = st
    at hsplit hchain hfind hfund hnotin ⊢
  have hgetf : st.db.get_fund this = debit_fund this (retired_sum h d pre) self :=
    get_fund_of_find _ _ _ hfund
  have hrate : (st.db.get_fund this).get_payment_rate x.period
      = self.get_payment_rate x.period := by
    rw [hgetf, debit_fund_get_payment_rate]
  have hshape := process_deposit_shape h hframe this asst st x.id x hfind hen
  rw [hrate, deposit_overdue_same_chain hchain, deposit_autorenewed_same_chain h hchain,
    hchain.head_block_time, if_pos hov, if_pos hautor, if_pos h625,
    time_point_sec_add_of_lt _ _ hend] at hshape
  obtain ⟨hpay, -⟩ := pay_depositor_agrees h hframe this asst
    (self.get_payment_rate x.period) st x.id
  have hx1 : (fund_object.pay_depositor h this asst (self.get_payment_rate x.period)
      st x.id).db.find_deposit x.id = some x := by
    rw [hpay.deposits x.id (by simp), hfind]
  obtain ⟨-, -, -, hstep⟩ := process_deposit_step h hframe this asst st x.id x hfind
  obtain ⟨hfunds, hrem⟩ := hstep (by rw [deposit_retired_same_chain h hchain]; exact hnotret)
  refine ⟨hsplit, hshape, ?_, ⟨hrem, by rw [hrem]; exact hnotin, hfinal hnotret⟩,
    hfunds this, hx1, ?_⟩
  · rw [hshape]
    obtain ⟨ok, hs, -, -⟩ := try_apply_submitted h
      (fund_object.pay_depositor h this asst (self.get_payment_rate x.period) st x.id)
      (.deposit_renewal
        { account_id := x.account_id, deposit_id := x.id,
          percent :=
            match self.get_payment_rate x.period with
            | some rate => rate.percent
            | none => x.percent,
          datetime_end := x.datetime_end + 86400 * x.period })
    rw [hs]
    rcases pay_depositor_cases h this asst (self.get_payment_rate x.period) st x.id with
      heq | ⟨p, hp, heq⟩
    · refine ⟨ok, [], ?_, by simp⟩
      rw [heq]
      simp
    · obtain ⟨ok2, hs2, -, -⟩ := try_apply_submitted h st (.fund_payment p)
      refine ⟨ok, [(.fund_payment p, ok2)], ?_, ?_⟩
      · rw [heq]
        simp only [hs2]
      · intro e he
        rw [List.mem_singleton] at he
        exact ⟨p, by rw [he], hp⟩
  · intro hren
    rw [hshape]
    have hgetx1 := get_deposit_of_find _ _ _ hx1
    generalize fund_object.pay_depositor h this asst (self.get_payment_rate x.period)
      st x.id = st1 at hgetx1 ⊢
    unfold host.try_apply
    split_ifs
    · have := hren st1.db
        { account_id := x.account_id, deposit_id := x.id,
          percent :=
            match self.get_payment_rate x.period with
            | some rate => rate.percent
            | none => x.percent,
          datetime_end := x.datetime_end + 86400 * x.period }
      simp only [] at this ⊢
      rw [this, hgetx1, hen]
    · show (st1.db.get_deposit x.id).enabled = true
      rw [hgetx1, hen]

/-- C17, witness: in the cycle of the example fund over `renewing_db` the second deposit
belongs to account 3, which has autorenewal enabled: a renewal at the percent 30000 of
the payment rate until 900000 + 86400 * 30 = 3492000 is submitted after the depositor
payment, the deposit is not queued and stays enabled, and the balance of 1500 is lowered
only by the first deposit of 1000, which is retired. -/
theorem process_deposit_autorenewal_witness :
    ((fund_object.process_deposit crediting_host 7 ⟨0, 1⟩
        (fund_object.deposits_visited crediting_host renewing_db 7 ⟨0, 1⟩ [running_deposit])
        overdue_deposit.id).deps_to_remove
        = (fund_object.deposits_visited crediting_host renewing_db 7 ⟨0, 1⟩
            [running_deposit]).deps_to_remove ∧
      overdue_deposit.id ∉ (fund_object.process_deposit crediting_host 7 ⟨0, 1⟩
        (fund_object.deposits_visited crediting_host renewing_db 7 ⟨0, 1⟩ [running_deposit])
        overdue_deposit.id).deps_to_remove ∧
      overdue_deposit.id ∉ (fund_object.process_deposits crediting_host renewing_db 7 ⟨0, 1⟩
        { db := renewing_db, daily_payments_without_owner := 0, deps_to_remove := [],
          submitted := [] }).deps_to_remove) ∧
    (fund_object.process crediting_host renewing_db 7).map
      (fun st => (st.submitted, st.deps_to_remove, (st.db.get_fund 7).balance,
        st.db.find_deposit 6))
      = some ([(.fund_payment ⟨1, 7, some 5, ⟨10, 0⟩, 2⟩, true),
               (.fund_withdrawal ⟨1, 7, ⟨1000, 0⟩, 2, 7000000⟩, true),
               (.fund_payment ⟨1, 7, some 6, ⟨5, 0⟩, 3⟩, true),
               (.deposit_renewal ⟨3, 6, 30000, 3492000⟩, true),
               (.fund_payment ⟨1, 7, none, ⟨2, 0⟩, 1⟩, true)],
              [5], 500,
              some { overdue_deposit with percent := 30000, datetime_end := 3492000 }) :=
  ⟨(process_deposit_autorenewal crediting_host renewing_db 7 example_fund ⟨0, 1⟩
      [running_deposit] [] overdue_deposit ⟨3, true⟩ crediting_host_keeps_fund_data (by rfl)
      (by decide) (by rfl) (by rfl) (by decide) (by rfl) (by rfl) (by decide) (by decide)
      (by decide)).2.2.2.1, by decide⟩

/-! ### The payment quantities -/

theorem process_deposit_after_payment (h : host) (hframe : h.keeps_fund_data) (this : Nat)
    (asst : asset_object) (st : process_state) (k : Nat) (x : fund_deposit_object)
    (hx : st.db.find_deposit k = some x) (hen : x.enabled = true) :
    ∃ rest, (fund_object.process_deposit h this asst st k).submitted
        = (fund_object.pay_depositor h this asst
            ((st.db.get_fund this).get_payment_rate x.period) st k).submitted ++ rest ∧
      (∀ e ∈ rest, ∀ p, e.1 ≠ .fund_payment p) ∧
      (fund_object.process_deposit h this asst st k).daily_payments_without_owner
        = (fund_object.pay_depositor h this asst
            ((st.db.get_fund this).get_payment_rate x.period) st k).daily_payments_without_owner
      := by
  rw [process_deposit_shape h hframe this asst st k x hx hen]
  generalize fund_object.pay_depositor h this asst
    ((st.db.get_fund this).get_payment_rate x.period) st k = st1
  split_ifs
  · obtain ⟨ok, hs, hd, -⟩ := try_apply_submitted h st1 (.deposit_renewal
      { account_id := x.account_id, deposit_id := k,
        percent :=
          match (st.db.get_fund this).get_payment_rate x.period with
          | some rate => rate.percent
          | none => x.percent,
        datetime_end := time_point_sec_add x.datetime_end
          ((86400 * x.period) % 4294967296) })
    refine ⟨_, hs, ?_, hd⟩
    intro e he p
    rw [List.mem_singleton] at he
    rw [he]
    simp
  · exact ⟨[], by simp, by simp, rfl⟩
  · obtain ⟨ok, hs, hd⟩ := retire_deposit_log h this asst st1 k
    refine ⟨_, hs, ?_, hd⟩
    intro e he p
    rw [List.mem_singleton] at he
    rw [he]
    simp
  · exact ⟨[], by simp, by simp, rfl⟩

/-! #### Accuracy of the rate arithmetic -/

theorem close_mul (y X δ c : ℚ) (h : |y - X| ≤ δ * |X|) :
    |y * c - X * c| ≤ δ * |X * c| := by
  have : y * c - X * c = (y - X) * c := by ring
  rw [this, abs_mul, abs_mul]
  have hc : 0 ≤ |c| := abs_nonneg c
  nlinarith

theorem close_div (y X δ c : ℚ) (h : |y - X| ≤ δ * |X|) :
    |y / c - X / c| ≤ δ * |X / c| := by
  have := close_mul y X δ c⁻¹ h
  simpa [div_eq_mul_inv] using this

theorem get_bonus_percent_spec (percent : Nat) :
    0 < (fund_object.get_bonus_percent percent).den ∧
    |(fund_object.get_bonus_percent percent).value - (percent : ℚ) / 100000|
      ≤ 1 / 2 ^ 53 * |(percent : ℚ) / 100000| := by
  obtain ⟨hden, herr⟩ := round_to_spec 53 ⟨percent, 100000⟩
  refine ⟨hden, ?_⟩
  have hv : (⟨percent, 100000⟩ : fraction).value = (percent : ℚ) / 100000 := by
    unfold fraction.value
    push_cast
    rfl
  rw [hv] at herr
  unfold fund_object.get_bonus_percent fraction.to_double
  calc _ ≤ |(percent : ℚ) / 100000| / 2 ^ 53 := herr
    _ = 1 / 2 ^ 53 * |(percent : ℚ) / 100000| := by ring

theorem payment_quantity_close (rate : payment_rate) (x : fund_deposit_object) :
    |((fund_object.payment_quantity rate x : Int) : ℚ)
        - ((x.percent : ℚ) / 100000) / (rate.period : ℚ) * (x.amount : ℚ)|
      ≤ 1 / 2 + |((x.percent : ℚ) / 100000) / (rate.period : ℚ) * (x.amount : ℚ)| / 2 ^ 51 := by
  obtain ⟨-, h1⟩ := get_bonus_percent_spec x.percent
  have h2 := close_div _ _ _ (rate.period : ℚ) h1
  rw [← Int.cast_natCast rate.period, ← fraction_div_int_value] at h2
  have h3 := close_round 53 _ _ _ h2
  have h4 := close_mul _ _ _ (x.amount : ℚ) h3
  rw [← fraction_of_int_value x.amount, ← fraction_mul_value] at h4
  have h5 := close_round 64 _ _ _ h4
  obtain ⟨hden, -⟩ := round_to_spec 64
    ((((fund_object.get_bonus_percent x.percent).div_int rate.period).round_to 53).mul
      (fraction.of_int x.amount))
  have h6 := roundl_error _ hden
  rw [fraction_of_int_value] at h5
  unfold fund_object.payment_quantity fraction.to_double fraction.to_long_double
  simp only []
  generalize ((((fund_object.get_bonus_percent x.percent).div_int rate.period).round_to 53).mul
      (fraction.of_int x.amount)).round_to 64 = v at h5 h6 ⊢
  rw [Int.cast_natCast] at h5
  generalize ((x.percent : ℚ) / 100000) / (rate.period : ℚ) * (x.amount : ℚ) = X at h5 ⊢
  have hX : 0 ≤ |X| := abs_nonneg X
  have hδ : (1 / 2 ^ 53 + (1 + 1 / 2 ^ 53) / 2 ^ 53
      + (1 + (1 / 2 ^ 53 + (1 + 1 / 2 ^ 53) / 2 ^ 53)) / 2 ^ 64 : ℚ) ≤ 1 / 2 ^ 51 := by
    norm_num
  have h7 : |v.value - X| ≤ |X| / 2 ^ 51 := by
    calc |v.value - X| ≤ _ := h5
      _ ≤ 1 / 2 ^ 51 * |X| := mul_le_mul_of_nonneg_right hδ hX
      _ = |X| / 2 ^ 51 := by ring
  have h8 : |((roundl v : Int) : ℚ) - X| ≤ |((roundl v : Int) : ℚ) - v.value| + |v.value - X| := by
    have := abs_add (((roundl v : Int) : ℚ) - v.value) (v.value - X)
    simpa using this
  linarith

theorem owner_quantity_close (fixed_percent : Nat) (daily : Int) :
    |((fund_object.owner_quantity fixed_percent daily : Int) : ℚ)
        - (fixed_percent : ℚ) / 100000 * (daily : ℚ)|
      ≤ 1 / 2 + |(fixed_percent : ℚ) / 100000 * (daily : ℚ)| / 2 ^ 52 := by
  obtain ⟨-, h1⟩ := get_bonus_percent_spec fixed_percent
  have h4 := close_mul _ _ _ (daily : ℚ) h1
  rw [← fraction_of_int_value daily, ← fraction_mul_value] at h4
  have h5 := close_round 64 _ _ _ h4
  obtain ⟨hden, -⟩ := round_to_spec 64
    ((fund_object.get_bonus_percent fixed_percent).mul (fraction.of_int daily))
  have h6 := roundl_error _ hden
  rw [fraction_of_int_value] at h5
  unfold fund_object.owner_quantity fraction.to_long_double
  generalize ((fund_object.get_bonus_percent fixed_percent).mul
      (fraction.of_int daily)).round_to 64 = v at h5 h6 ⊢
  generalize (fixed_percent : ℚ) / 100000 * (daily : ℚ) = X at h5 ⊢
  have hX : 0 ≤ |X| := abs_nonneg X
  have hδ : (1 / 2 ^ 53 + (1 + 1 / 2 ^ 53) / 2 ^ 64 : ℚ) ≤ 1 / 2 ^ 52 := by
    norm_num
  have h7 : |v.value - X| ≤ |X| / 2 ^ 52 := by
    calc |v.value - X| ≤ _ := h5
      _ ≤ 1 / 2 ^ 52 * |X| := mul_le_mul_of_nonneg_right hδ hX
      _ = |X| / 2 ^ 52 := by ring
  have h8 : |((roundl v : Int) : ℚ) - X| ≤ |((roundl v : Int) : ℚ) - v.value| + |v.value - X| := by
    have := abs_add (((roundl v : Int) : ℚ) - v.value) (v.value - X)
    simpa using this
  linarith

theorem get_rate_percent_close (self : fund_object) (fr : fund_rate) (hbt : Nat) :
    0 ≤ (self.get_rate_percent fr hbt).value ∧
    |(self.get_rate_percent fr hbt).value
        - max 0 ((fr.day_percent : ℚ) / 100000
          - ((self.rates_reduction_per_month : ℚ) / 100000) / 30
            * ((((time_point_sec_sub hbt self.prev_maintenance_time_on_creation / 86400 : Nat)
                : Int) : ℚ) - 1))|
      ≤ ((fr.day_percent : ℚ) / 100000
          + |((self.rates_reduction_per_month : ℚ) / 100000) / 30
            * ((((time_point_sec_sub hbt self.prev_maintenance_time_on_creation / 86400 : Nat)
                : Int) : ℚ) - 1)|) / 2 ^ 50 := by
  unfold fund_object.get_rate_percent fraction.to_double
  simp only []
  generalize ((time_point_sec_sub hbt self.prev_maintenance_time_on_creation / 86400 : Nat)
    : Int) = days
  obtain ⟨hada, ha⟩ := get_bonus_percent_spec fr.day_percent
  obtain ⟨-, hb⟩ := get_bonus_percent_spec self.rates_reduction_per_month
  have hc := close_div _ _ _ (30 : ℚ) hb
  have h30 : ((30 : Int) : ℚ) = 30 := by norm_num
  rw [← h30, ← fraction_div_int_value] at hc
  have hc2 := close_round 53 _ _ _ hc
  have he := close_mul _ _ _ (((days - 1 : Int)) : ℚ) hc2
  rw [← fraction_of_int_value (days - 1), ← fraction_mul_value] at he
  have he2 := close_round 53 _ _ _ he
  rw [fraction_of_int_value, h30] at he2
  obtain ⟨heden, -⟩ := round_to_spec 53
    ((((fund_object.get_bonus_percent self.rates_reduction_per_month).div_int 30).round_to
      53).mul (fraction.of_int (days - 1)))
  generalize ((((fund_object.get_bonus_percent self.rates_reduction_per_month).div_int
    30).round_to 53).mul (fraction.of_int (days - 1))).round_to 53 = e at he2 heden ⊢
  have ht := fraction_sub_value (fund_object.get_bonus_percent fr.day_percent) e hada heden
  obtain ⟨hrden, hr⟩ := round_to_spec 53
    ((fund_object.get_bonus_percent fr.day_percent).sub e)
  rw [ht] at hr
  generalize ((fund_object.get_bonus_percent fr.day_percent).sub e).round_to 53 = r0
    at hr hrden ⊢
  generalize (fund_object.get_bonus_percent fr.day_percent).value = a at ha hr
  generalize e.value = ev at he2 hr
  have hcast : (((days - 1 : Int)) : ℚ) = (days : ℚ) - 1 := by push_cast; ring
  rw [hcast] at he2
  generalize ((self.rates_reduction_per_month : ℚ) / 100000) / 30 * ((days : ℚ) - 1) = E
    at he2 ⊢
  have hA0 : (0 : ℚ) ≤ (fr.day_percent : ℚ) / 100000 := by positivity
  rw [abs_of_nonneg hA0] at ha
  generalize (fr.day_percent : ℚ) / 100000 = A at ha hA0 ⊢
  have hE0 : 0 ≤ |E| := abs_nonneg E
  -- the rounded difference is close to the exact difference
  have h1 : |a - ev - (A - E)| ≤ |a - A| + |ev - E| := by
    have : a - ev - (A - E) = (a - A) + -(ev - E) := by ring
    rw [this]
    calc |(a - A) + -(ev - E)| ≤ |a - A| + |-(ev - E)| := abs_add _ _
      _ = |a - A| + |ev - E| := by rw [abs_neg]
  have h2 : |a - ev| ≤ |a - ev - (A - E)| + |A - E| := by
    have := abs_add (a - ev - (A - E)) (A - E)
    simpa using this
  have h3 : |A - E| ≤ A + |E| := by
    calc |A - E| = |A + -E| := by ring_nf
      _ ≤ |A| + |-E| := abs_add _ _
      _ = A + |E| := by rw [abs_neg, abs_of_nonneg hA0]
  have h4 : |r0.value - (A - E)| ≤ |r0.value - (a - ev)| + |a - ev - (A - E)| := by
    have := abs_add (r0.value - (a - ev)) (a - ev - (A - E))
    simpa using this
  have hδ3 : (1 / 2 ^ 53 + (1 + 1 / 2 ^ 53) / 2 ^ 53
      + (1 + (1 / 2 ^ 53 + (1 + 1 / 2 ^ 53) / 2 ^ 53)) / 2 ^ 53 : ℚ) ≤ 4 / 2 ^ 53 := by
    norm_num
  have he3 : |ev - E| ≤ 4 / 2 ^ 53 * |E| :=
    le_trans he2 (mul_le_mul_of_nonneg_right hδ3 hE0)
  have hr2 : |r0.value - (a - ev)| ≤ (2 * A + 2 * |E|) / 2 ^ 53 := by
    have hle : |a - ev| ≤ 2 * A + 2 * |E| := by
      have : (4 : ℚ) / 2 ^ 53 ≤ 1 := by norm_num
      have : (1 : ℚ) / 2 ^ 53 ≤ 1 := by norm_num
      nlinarith
    calc |r0.value - (a - ev)| ≤ |a - ev| / 2 ^ 53 := hr
      _ ≤ (2 * A + 2 * |E|) / 2 ^ 53 := div_le_div_of_nonneg_right hle (by positivity)
  have hmain : |r0.value - (A - E)| ≤ (A + |E|) / 2 ^ 50 := by
    have e1 : (2 * A + 2 * |E|) / 2 ^ 53 + (1 / 2 ^ 53 * A + 4 / 2 ^ 53 * |E|)
        ≤ (A + |E|) / 2 ^ 50 := by
      have : (A + |E|) / 2 ^ 50 - ((2 * A + 2 * |E|) / 2 ^ 53
          + (1 / 2 ^ 53 * A + 4 / 2 ^ 53 * |E|))
          = (5 * A + 2 * |E|) / 2 ^ 53 := by ring
      have hnn : (0 : ℚ) ≤ (5 * A + 2 * |E|) / 2 ^ 53 := by positivity
      linarith
    linarith
  have hrdq : (0 : ℚ) < (r0.den : ℚ) := by exact_mod_cast hrden
  by_cases hneg : r0.num < 0
  · have hval : (if r0.is_negative = true then fraction.of_int 0 else r0).value = 0 := by
      simp [fraction.is_negative, hneg, fraction.of_int, fraction.value]
    have hr0 : r0.value < 0 := by
      unfold fraction.value
      exact div_neg_of_neg_of_pos (by exact_mod_cast hneg) hrdq
    rw [hval]
    refine ⟨le_refl _, ?_⟩
    have hmax : (0 : ℚ) = max r0.value 0 := by rw [max_eq_right (le_of_lt hr0)]
    rw [max_comm 0 (A - E)]
    nth_rewrite 1 [hmax]
    exact le_trans (abs_max_sub_max_le_abs _ _ _) hmain
  · have hval : (if r0.is_negative = true then fraction.of_int 0 else r0) = r0 := by
      simp [fraction.is_negative, hneg]
    have hr0 : 0 ≤ r0.value := by
      unfold fraction.value
      apply div_nonneg
      · have : (0 : Int) ≤ r0.num := by omega
        exact_mod_cast this
      · exact le_of_lt hrdq
    rw [hval]
    refine ⟨hr0, ?_⟩
    have hmax : r0.value = max r0.value 0 := by rw [max_eq_left hr0]
    rw [max_comm 0 (A - E)]
    nth_rewrite 1 [hmax]
    exact le_trans (abs_max_sub_max_le_abs _ _ _) hmain

theorem round_half_away_half (n : Int) (hn : 0 ≤ n) :
    round_half_away ((n : ℚ) + 1 / 2) = n + 1 := by
  unfold round_half_away
  have h0 : (0 : ℚ) ≤ (n : ℚ) + 1 / 2 := by
    have : (0 : ℚ) ≤ (n : ℚ) := by exact_mod_cast hn
    linarith
  rw [if_pos h0]
  have : (n : ℚ) + 1 / 2 + 1 / 2 = ((n + 1 : Int) : ℚ) := by push_cast; ring
  rw [this, Int.floor_intCast]

/-- C14, counterexample: for `day_percent = 10000`, `rates_reduction_per_month = 3000`
and 8 days passed the formula gives `0.1 - 0.001 * 7 = 0.093`, but `get_rate_percent`
returns the `double` below it, and the day profit of an old balance of 10500 is 976
where rounding `10500 * 0.093 = 976.5` gives 977. -/
theorem get_rate_percent_counterexample :
    decay_fund.prev_maintenance_time_on_creation ≤ 691200 ∧
    (691200 - decay_fund.prev_maintenance_time_on_creation) / 86400 = 8 ∧
    max 0 (((10000 : Nat) : ℚ) / 100000
      - ((decay_fund.rates_reduction_per_month : ℚ) / 100000) / 30 * (((8 : Nat) : ℚ) - 1))
      = 93 / 1000 ∧
    decay_fund.get_rate_percent ⟨10000, 10000⟩ 691200
      = ⟨6701356245527298, 72057594037927936⟩ ∧
    (decay_fund.get_rate_percent ⟨10000, 10000⟩ 691200).value < 93 / 1000 ∧
    decay_fund.fund_day_profit ⟨10000, 10000⟩ 10500 691200 = 976 ∧
    round_half_away (10500 * (93 / 1000)) = 977 := by
  have hrate : decay_fund.get_rate_percent ⟨10000, 10000⟩ 691200
      = ⟨6701356245527298, 72057594037927936⟩ := by decide
  refine ⟨by decide, by decide, ?_, hrate, ?_, by decide, ?_⟩
  · have : ((decay_fund.rates_reduction_per_month : Nat) : ℚ) = 3000 := by
      simp [decay_fund]
    rw [this]
    norm_num
  · rw [hrate]
    unfold fraction.value
    norm_num
  · have : (10500 : ℚ) * (93 / 1000) = ((976 : Int) : ℚ) + 1 / 2 := by norm_num
    rw [this, round_half_away_half 976 (by norm_num)]
    rfl

/-- C14, amended: for a head block time not before the creation time of the fund,
`get_rate_percent` is the evaluation in `double` arithmetic of `max 0
(day_percent/100000 - (rates_reduction_per_month/100000)/30 * (days_passed - 1))`, with
`days_passed` the whole days since the creation: it is never negative and differs from
the exact value by at most `(day_percent/100000 + |(rates_reduction_per_month/100000)/30
* (days_passed - 1)|) / 2^50`, without being equal to it in general. For `day_percent =
10000`, `rates_reduction_per_month = 3000` and 31 days passed the rate is the `double`
`5044031582654956 / 2^56`, within `10^-17` of 0.07, and the day profit of an old balance
of 10000 is 700; in the cycle of such a fund with depositor payments of 500 the owner is
paid 200. -/
theorem get_rate_percent_spec (self : fund_object) (fr : fund_rate) (head_block_time : Nat)
    (hrange : head_block_time < 4294967296)
    (hge : self.prev_maintenance_time_on_creation ≤ head_block_time) :
    0 ≤ (self.get_rate_percent fr head_block_time).value ∧
    |(self.get_rate_percent fr head_block_time).value
        - max 0 ((fr.day_percent : ℚ) / 100000
          - ((self.rates_reduction_per_month : ℚ) / 100000) / 30
            * ((((head_block_time - self.prev_maintenance_time_on_creation) / 86400 : Nat)
                : ℚ) - 1))|
      ≤ ((fr.day_percent : ℚ) / 100000
          + |((self.rates_reduction_per_month : ℚ) / 100000) / 30
            * ((((head_block_time - self.prev_maintenance_time_on_creation) / 86400 : Nat)
                : ℚ) - 1)|) / 2 ^ 50 ∧
    (fr.day_percent = 10000 → self.rates_reduction_per_month = 3000 →
      (head_block_time - self.prev_maintenance_time_on_creation) / 86400 = 31 →
      self.get_rate_percent fr head_block_time
        = ⟨5044031582654956, 72057594037927936⟩ ∧
      |(self.get_rate_percent fr head_block_time).value - 7 / 100| ≤ 1 / 10 ^ 17 ∧
      self.fund_day_profit fr 10000 head_block_time = 700) ∧
    (fund_object.process crediting_host decay_db 7).map
      (fun st => (st.daily_payments_without_owner, st.submitted,
        (st.db.find_fund_history 9).map (fun o => o.items)))
      = some (500,
          [(.fund_payment ⟨1, 7, some 5, ⟨500, 0⟩, 2⟩, true),
           (.fund_payment ⟨1, 7, none, ⟨200, 0⟩, 1⟩, true)],
          some [⟨2678400, 700, 500⟩]) := by
  obtain ⟨hnn, hclose⟩ := get_rate_percent_close self fr head_block_time
  rw [time_point_sec_sub_of_le head_block_time _ hrange hge] at hclose
  refine ⟨hnn, ?_, ?_, by decide⟩
  · simpa using hclose
  · intro hdp hred hdays
    have hrate : self.get_rate_percent fr head_block_time
        = ⟨5044031582654956, 72057594037927936⟩ := by
      unfold fund_object.get_rate_percent
      rw [time_point_sec_sub_of_le head_block_time _ hrange hge, hdp, hred, hdays]
      decide
    refine ⟨hrate, ?_, ?_⟩
    · rw [hrate]
      unfold fraction.value
      rw [abs_le]
      constructor <;> norm_num
    · unfold fund_object.fund_day_profit
      rw [hrate]
      decide

/-- C14, witness: the fund `decay_fund`, created at time 0, 31 days later. -/
theorem get_rate_percent_spec_witness :
    decay_fund.get_rate_percent ⟨10000, 10000⟩ 2678400
      = ⟨5044031582654956, 72057594037927936⟩ ∧
    |(decay_fund.get_rate_percent ⟨10000, 10000⟩ 2678400).value - 7 / 100| ≤ 1 / 10 ^ 17 ∧
    decay_fund.fund_day_profit ⟨10000, 10000⟩ 10000 2678400 = 700 :=
  (get_rate_percent_spec decay_fund ⟨10000, 10000⟩ 2678400 (by decide) (by decide)).2.2.1
    rfl rfl (by decide)

/-- C15, counterexample: with a supply check that lets at most 3 through, the cycle of
the example fund with the one deposit of 1000 at percent 30000 and period 30 pays 3 to
the depositor, not the quantity `q = 10`, and submits no payment to the owner. And the
quantities are rounded from floating-point products: for a deposit of 5 at percent 30000
and period 1 the quantity is 1 where `round(0.3 / 1 * 5) = round(1.5) = 2`, and for
`fixed_percent_on_deposits = 30000` and depositor payments of 15 the owner quantity is 4
where `round(0.3 * 15) = round(4.5) = 5`, the `double` for 0.3 being below 0.3. -/
theorem process_deposit_payment_counterexample :
    fund_object.payment_quantity ⟨30, 30000⟩ running_deposit = 10 ∧
    example_fund.get_payment_rate running_deposit.period = some ⟨30, 30000⟩ ∧
    (fund_object.process clamping_host single_db 7).map (fun st => st.submitted)
      = some [(.fund_payment ⟨1, 7, some 5, ⟨3, 0⟩, 2⟩, true)] ∧
    fund_object.payment_quantity ⟨1, 30000⟩ odd_deposit = 1 ∧
    round_half_away ((((odd_deposit.percent : Nat) : ℚ) / 100000)
      / (((⟨1, 30000⟩ : payment_rate).period : Nat) : ℚ) * (odd_deposit.amount : ℚ)) = 2 ∧
    fund_object.owner_quantity 30000 15 = 4 ∧
    round_half_away (((30000 : Nat) : ℚ) / 100000 * ((15 : Int) : ℚ)) = 5 := by
  refine ⟨by decide, by decide, by decide, by decide, ?_, by decide, ?_⟩
  · have : (((odd_deposit.percent : Nat) : ℚ) / 100000)
        / (((⟨1, 30000⟩ : payment_rate).period : Nat) : ℚ) * (odd_deposit.amount : ℚ)
        = ((1 : Int) : ℚ) + 1 / 2 := by
      simp [odd_deposit]
      norm_num
    rw [this, round_half_away_half 1 (by norm_num)]
    rfl
  · have : ((30000 : Nat) : ℚ) / 100000 * ((15 : Int) : ℚ) = ((4 : Int) : ℚ) + 1 / 2 := by
      norm_num
    rw [this, round_half_away_half 4 (by norm_num)]
    rfl

/-- C15, amended: for an enabled deposit `x` whose period has the payment rate `rate`,
the quantity `q` is the integer nearest to the floating-point evaluation of
`(x.percent/100000) / rate.period * x.amount` (a quotient by a positive period), so that
`q` is within `1/2 + |v| / 2^51` of the exact value `v` of that expression; the iteration
submits a `fund_payment` for the deposit exactly when `q > 0` and the supply check
returns a positive amount for `q`; the payment goes to `x.account_id`, its amount is the
amount returned by the supply check (`q` when the check returns its input), and that
amount is added to `daily_payments_without_owner`. In variant 1
(`fixed_percent_on_deposits > 0`) the owner quantity is the integer nearest to the
floating-point product `(fixed_percent_on_deposits/100000) *
daily_payments_without_owner`, within `1/2 + |w| / 2^52` of the exact product `w`, and the
payment to the owner, of the amount returned by the supply check for that quantity, is
submitted exactly when that amount is positive. With a supply check that returns its
input, one deposit of 1000 at percent 30000 and period 30 and
`fixed_percent_on_deposits = 10000` give a depositor payment of 10 and an owner payment
of 1. -/
theorem process_deposit_payment (h : host) (d : database) (this : Nat)
    (self : fund_object) (asst : asset_object) (hist : fund_history_object)
    (pre post : List fund_deposit_object) (x : fund_deposit_object) (rate : payment_rate)
    (hframe : h.keeps_fund_data)
    (hself : d.find_fund this = some self)
    (hasst : d.find_asset self.asset_id = some asst)
    (hhist : d.find_fund_history self.history_id = some hist)
    (hnodup : (d.fund_deposits.map (fun x => x.id)).Nodup)
    (hrange : d.fund_deposits.filter (fun dep => dep.fund_id == this) = pre ++ x :: post)
    (hen : x.enabled = true)
    (hrate : self.get_payment_rate x.period = some rate)
    (hperiod : 0 < rate.period) :
    fund_object.process_deposits h d this asst
        { db := d, daily_payments_without_owner := 0, deps_to_remove := [], submitted := [] }
      = (post.map (fun dep => dep.id)).foldl (fund_object.process_deposit h this asst)
          (fund_object.process_deposit h this asst
            (fund_object.deposits_visited h d this asst pre) x.id) ∧
    0 < ((fund_object.get_bonus_percent x.percent).div_int rate.period).den ∧
    |((fund_object.payment_quantity rate x : Int) : ℚ)
        - ((x.percent : ℚ) / 100000) / (rate.period : ℚ) * (x.amount : ℚ)|
      ≤ 1 / 2 + |((x.percent : ℚ) / 100000) / (rate.period : ℚ) * (x.amount : ℚ)| / 2 ^ 51 ∧
    ((0 < fund_object.payment_quantity rate x ∧
        0 < (h.check_supply_overflow (fund_object.deposits_visited h d this asst pre).db
          (asst.amount (fund_object.payment_quantity rate x))).amount) →
      ∃ ok rest, (fund_object.process_deposit h this asst
          (fund_object.deposits_visited h d this asst pre) x.id).submitted
          = (fund_object.deposits_visited h d this asst pre).submitted ++
            [(.fund_payment
              { issuer := asst.issuer, fund_id := this, deposit_id := some x.id,
                asset_to_issue := h.check_supply_overflow
                  (fund_object.deposits_visited h d this asst pre).db
                  (asst.amount (fund_object.payment_quantity rate x)),
                issue_to_account := x.account_id }, ok)] ++ rest ∧
        (∀ e ∈ rest, ∀ p, e.1 ≠ .fund_payment p) ∧
        (fund_object.process_deposit h this asst
          (fund_object.deposits_visited h d this asst pre) x.id).daily_payments_without_owner
          = (fund_object.deposits_visited h d this asst pre).daily_payments_without_owner
            + (h.check_supply_overflow (fund_object.deposits_visited h d this asst pre).db
                (asst.amount (fund_object.payment_quantity rate x))).amount) ∧
    (¬ (0 < fund_object.payment_quantity rate x ∧
        0 < (h.check_supply_overflow (fund_object.deposits_visited h d this asst pre).db
          (asst.amount (fund_object.payment_quantity rate x))).amount) →
      ∃ rest, (fund_object.process_deposit h this asst
          (fund_object.deposits_visited h d this asst pre) x.id).submitted
          = (fund_object.deposits_visited h d this asst pre).submitted ++ rest ∧
        (∀ e ∈ rest, ∀ p, e.1 ≠ .fund_payment p) ∧
        (fund_object.process_deposit h this asst
          (fund_object.deposits_visited h d this asst pre) x.id).daily_payments_without_owner
          = (fund_object.deposits_visited h d this asst pre).daily_payments_without_owner) ∧
    (0 < self.fixed_percent_on_deposits →
      ∃ st db, fund_object.process h d this = some st ∧
        |((fund_object.owner_quantity self.fixed_percent_on_deposits
              st.daily_payments_without_owner : Int) : ℚ)
            - (self.fixed_percent_on_deposits : ℚ) / 100000
              * (st.daily_payments_without_owner : ℚ)|
          ≤ 1 / 2 + |(self.fixed_percent_on_deposits : ℚ) / 100000
              * (st.daily_payments_without_owner : ℚ)| / 2 ^ 52 ∧
        owner_payments st.submitted
          = if 0 < (h.check_supply_overflow db (asst.amount
                (fund_object.owner_quantity self.fixed_percent_on_deposits
                  st.daily_payments_without_owner))).amount
            then [{ issuer := asst.issuer, fund_id := this, deposit_id := none,
                    asset_to_issue := h.check_supply_overflow db (asst.amount
                      (fund_object.owner_quantity self.fixed_percent_on_deposits
                        st.daily_payments_without_owner)),
                    issue_to_account := self.owner }]
            else []) ∧
    (fund_object.process crediting_host single_db 7).map (fun st => st.submitted)
      = some [(.fund_payment ⟨1, 7, some 5, ⟨10, 0⟩, 2⟩, true),
              (.fund_payment ⟨1, 7, none, ⟨1, 0⟩, 1⟩, true)] := by
  obtain ⟨hsplit, -, hfind, hfund, -, -⟩ := deposits_visited_spec h hframe d this self
    asst pre post x hself hnodup hrange
  have hquot : 0 < ((fund_object.get_bonus_percent x.percent).div_int rate.period).den := by
    unfold fraction.div_int
    exact mul_pos (get_bonus_percent_spec x.percent).1 (by exact_mod_cast hperiod)
  refine ⟨hsplit, hquot, payment_quantity_close rate x, ?_, ?_, ?_, by decide⟩
  · intro hpos
    generalize fund_object.deposits_visited h d this asst pre = st at hfind hfund hpos ⊢
    have hgetx : st.db.get_deposit x.id = x := get_deposit_of_find _ _ _ hfind
    have hgetf : st.db.get_fund this = debit_fund this (retired_sum h d pre) self :=
      get_fund_of_find _ _ _ hfund
    obtain ⟨rest, hs, hrest, hd⟩ := process_deposit_after_payment h hframe this asst st x.id
      x hfind hen
    rw [hgetf, debit_fund_get_payment_rate, hrate, pay_depositor_some, hgetx,
      if_pos hpos] at hs hd
    obtain ⟨ok, hs1, -, -⟩ := try_apply_submitted h st (.fund_payment
      { issuer := asst.issuer, fund_id := this, deposit_id := some x.id,
        asset_to_issue := h.check_supply_overflow st.db
          (asst.amount (fund_object.payment_quantity rate x)),
        issue_to_account := x.account_id })
    refine ⟨ok, rest, ?_, hrest, hd⟩
    rw [hs]
    simp only [hs1]
  · intro hneg
    generalize fund_object.deposits_visited h d this asst pre = st at hfind hfund hneg ⊢
    have hgetx : st.db.get_deposit x.id = x := get_deposit_of_find _ _ _ hfind
    have hgetf : st.db.get_fund this = debit_fund this (retired_sum h d pre) self :=
      get_fund_of_find _ _ _ hfund
    obtain ⟨rest, hs, hrest, hd⟩ := process_deposit_after_payment h hframe this asst st x.id
      x hfind hen
    rw [hgetf, debit_fund_get_payment_rate, hrate, pay_depositor_some, hgetx,
      if_neg hneg] at hs hd
    exact ⟨rest, hs, hrest, hd⟩
  · intro hfixed
    obtain ⟨st, hst, hsub, hdaily, -⟩ := process_result h d this self asst hist hframe hself
      hasst hhist hnodup
    obtain ⟨hfundk, -⟩ := process_deposits_fund h hframe d this self asst hself hnodup
    have hlog := owner_payments_process_deposits h d this asst
    rw [pay_owner_daily] at hdaily
    generalize fund_object.process_deposits h d this asst
      { db := d, daily_payments_without_owner := 0, deps_to_remove := [], submitted := [] }
      = st1 at hsub hdaily hfundk hlog
    refine ⟨st, st1.db, hst, owner_quantity_close _ _, ?_⟩
    rw [hsub, hdaily, pay_owner_variant1 h this asst self.balance _ st1
      (by rw [hfundk, (debit_fund_fields _ _ _).2.2.1]; exact hfixed)]
    rw [hfundk, (debit_fund_fields _ _ _).2.2.1, (debit_fund_fields _ _ _).2.2.2.2.2.1]
    simp only []
    split_ifs with hamt
    · obtain ⟨ok, hs1, -, -⟩ := try_apply_submitted h st1 (.fund_payment
        { issuer := asst.issuer, fund_id := this, deposit_id := none,
          asset_to_issue := h.check_supply_overflow st1.db (asst.amount
            (fund_object.owner_quantity self.fixed_percent_on_deposits
              st1.daily_payments_without_owner)),
          issue_to_account := self.owner })
      rw [hs1, owner_payments_append, hlog, List.nil_append,
        owner_payments_singleton _ ok rfl]
    · exact hlog

/-- C15, witness: the cycle of the example fund over `single_db`, in which the deposit
of 1000 is the only deposit and nothing limits the supply. -/
theorem process_deposit_payment_witness :
    |((fund_object.payment_quantity ⟨30, 30000⟩ running_deposit : Int) : ℚ)
        - (((running_deposit.percent : Nat) : ℚ) / 100000)
          / (((⟨30, 30000⟩ : payment_rate).period : Nat) : ℚ)
          * (running_deposit.amount : ℚ)|
      ≤ 1 / 2 + |(((running_deposit.percent : Nat) : ℚ) / 100000)
          / (((⟨30, 30000⟩ : payment_rate).period : Nat) : ℚ)
          * (running_deposit.amount : ℚ)| / 2 ^ 51 :=
  (process_deposit_payment crediting_host single_db 7 example_fund ⟨0, 1⟩ ⟨9, []⟩ [] []
    running_deposit ⟨30, 30000⟩ crediting_host_keeps_fund_data (by rfl) (by rfl) (by rfl)
    (by decide) (by rfl) (by rfl) (by decide) (by decide)).2.2.1

/-! #### The rounding is to `prec` significant bits -/

theorem leading_exponent_lt (n d : Nat) (hn : 0 < n) (hd : 0 < d) :
    (n : ℚ) / (d : ℚ) < (2 : ℚ) ^ (leading_exponent n d + 1) := by
  have hdq : (0 : ℚ) < (d : ℚ) := by exact_mod_cast hd
  unfold leading_exponent
  simp only []
  split_ifs with htest
  · obtain ⟨-, ha⟩ := log2_fuel_spec n n le_rfl hn
    obtain ⟨hb, -⟩ := log2_fuel_spec d d le_rfl hd
    have haq : (n : ℚ) < (2 : ℚ) ^ (log2_fuel n n + 1) := by exact_mod_cast ha
    have hbq : (2 : ℚ) ^ (log2_fuel d d) ≤ (d : ℚ) := by exact_mod_cast hb
    have he : (2 : ℚ) ^ ((log2_fuel n n : Int) - (log2_fuel d d : Int) + 1)
        = (2 : ℚ) ^ (log2_fuel n n + 1) / (2 : ℚ) ^ (log2_fuel d d) := by
      have : ((log2_fuel n n : Int) - (log2_fuel d d : Int) + 1)
          = ((log2_fuel n n + 1 : Nat) : Int) - ((log2_fuel d d : Nat) : Int) := by
        push_cast
        ring
      rw [this, zpow_sub₀ (by norm_num), zpow_natCast, zpow_natCast]
    rw [he]
    have hpos : (0 : ℚ) < (2 : ℚ) ^ (log2_fuel d d) := by positivity
    rw [div_lt_div_iff₀ hdq hpos]
    have hpos2 : (0 : ℚ) < (2 : ℚ) ^ (log2_fuel n n + 1) := by positivity
    nlinarith
  · have hv := scale_value n d ((log2_fuel n n : Int) - (log2_fuel d d : Int))
    have hsd := scale_den_pos d ((log2_fuel n n : Int) - (log2_fuel d d : Int)) hd
    have hsdq : (0 : ℚ) < ((scale_den d ((log2_fuel n n : Int) - (log2_fuel d d : Int)) : Nat)
        : ℚ) := by exact_mod_cast hsd
    have h1 : ((scale_num n ((log2_fuel n n : Int) - (log2_fuel d d : Int)) : Nat) : ℚ)
        / ((scale_den d ((log2_fuel n n : Int) - (log2_fuel d d : Int)) : Nat) : ℚ) < 1 := by
      rw [div_lt_iff₀ hsdq, one_mul]
      have : scale_num n ((log2_fuel n n : Int) - (log2_fuel d d : Int))
          < scale_den d ((log2_fuel n n : Int) - (log2_fuel d d : Int)) := by omega
      exact_mod_cast this
    rw [hv] at h1
    have hp : (0 : ℚ) < (2 : ℚ) ^ ((log2_fuel n n : Int) - (log2_fuel d d : Int)) := by
      positivity
    rw [div_lt_iff₀ hp, one_mul] at h1
    have : (log2_fuel n n : Int) - (log2_fuel d d : Int) - 1 + 1
        = (log2_fuel n n : Int) - (log2_fuel d d : Int) := by ring
    rw [this]
    exact h1

theorem round_pos_mantissa (prec n d : Nat) (hn : 0 < n) (hd : 0 < d) (hprec : 0 < prec) :
    round_pos prec n d
      = dyadic (round_half_even (scale_num n (leading_exponent n d - ((prec : Int) - 1)))
          (scale_den d (leading_exponent n d - ((prec : Int) - 1))))
        (leading_exponent n d - ((prec : Int) - 1)) ∧
    2 ^ (prec - 1) ≤ round_half_even (scale_num n (leading_exponent n d - ((prec : Int) - 1)))
      (scale_den d (leading_exponent n d - ((prec : Int) - 1))) ∧
    round_half_even (scale_num n (leading_exponent n d - ((prec : Int) - 1)))
      (scale_den d (leading_exponent n d - ((prec : Int) - 1))) ≤ 2 ^ prec := by
  refine ⟨rfl, ?_⟩
  have hlo := leading_exponent_le n d hn hd
  have hhi := leading_exponent_lt n d hn hd
  generalize hs : leading_exponent n d - ((prec : Int) - 1) = s
  have hl : leading_exponent n d = s + ((prec - 1 : Nat) : Int) := by
    have : ((prec - 1 : Nat) : Int) = (prec : Int) - 1 := by omega
    omega
  have hl1 : leading_exponent n d + 1 = s + ((prec : Nat) : Int) := by omega
  rw [hl, zpow_add₀ (by norm_num), zpow_natCast] at hlo
  rw [hl1, zpow_add₀ (by norm_num), zpow_natCast] at hhi
  have hsd := scale_den_pos d s hd
  have hsdq : (0 : ℚ) < ((scale_den d s : Nat) : ℚ) := by exact_mod_cast hsd
  have herr := round_half_even_error (scale_num n s) (scale_den d s) hsd
  have hv := scale_value n d s
  have hp : (0 : ℚ) < (2 : ℚ) ^ s := by positivity
  -- the scaled value lies in the binade of `prec` bits
  have hy1 : (2 : ℚ) ^ (prec - 1) ≤ ((scale_num n s : Nat) : ℚ) / ((scale_den d s : Nat) : ℚ) := by
    rw [hv, le_div_iff₀ hp]
    linarith
  have hy2 : ((scale_num n s : Nat) : ℚ) / ((scale_den d s : Nat) : ℚ) < (2 : ℚ) ^ prec := by
    rw [hv, div_lt_iff₀ hp]
    linarith
  rw [le_div_iff₀ hsdq] at hy1
  rw [div_lt_iff₀ hsdq] at hy2
  rw [abs_le] at herr
  generalize round_half_even (scale_num n s) (scale_den d s) = m at herr ⊢
  constructor
  · have h1 : ((2 ^ (prec - 1) : Nat) : ℚ) - 1 < (m : ℚ) := by
      push_cast
      by_contra hcon
      push_neg at hcon
      nlinarith
    have h2 : ((2 ^ (prec - 1) : Nat) : Int) - 1 < (m : Int) := by exact_mod_cast h1
    omega
  · have h1 : (m : ℚ) < ((2 ^ prec : Nat) : ℚ) + 1 := by
      push_cast
      by_contra hcon
      push_neg at hcon
      nlinarith
    have h2 : (m : Int) < ((2 ^ prec : Nat) : Int) + 1 := by exact_mod_cast h1
    omega

end graphene.chain
